import Mathlib

/-!
# Scalar polynomial bases of DiSk++ (`core/bases/bases_scalar.hpp`)

Shallow embedding of the scalar basis code and proofs of its specification.

Conventions of the embedding
* `size_t` is the 64-bit unsigned word: values are natural numbers and the
  arithmetic that can leave the word is reduced modulo `SIZE_MOD`.
* The scalar type (`T`, `ScalarType`, `coordinate_type`) is a template parameter
  of the source; it is embedded as an arbitrary field `K`, so arithmetic is exact.
  The literals `0.5`, `2.0`, `0.99` are the fractions `1/2`, `2`, `99/100`.
* Code that can abort returns `Except fault _`.
* Mesh queries (`barycenter`, `diameter`, `diameter_boundingbox`, `points`) are
  not part of the embedded file; their results are arguments of the constructors.
-/

namespace disk

/-- Number of values of `size_t` (64-bit unsigned word). -/
def SIZE_MOD : Nat := 2 ^ 64

/-- Ways in which the embedded code stops without a result. -/
inductive fault where
  /-- The exception of `throw std::invalid_argument(what)`. -/
  | invalid_argument (what : String)
  /-- A failed `assert`, including the index assertion of a write `ret(pos)` outside the
  container (with assertions compiled out such a write has no defined result either). -/
  | assertion_failed
  /-- An unchecked read outside a container (`pts[i]` with `i >= pts.size()`). -/
  | out_of_range
  deriving DecidableEq, Repr

/-! ## `iexp_pow` -/

/-- The `while (n > 1)` loop of `iexp_pow`; returns the final values of `x` and `y`. -/
def iexp_pow_loop {K : Type} [Mul K] (x y : K) (n : Nat) : K × K :=
  if h : n > 1 then
    if n % 2 = 0 then
      iexp_pow_loop (x * x) y (n / 2)
    else
      iexp_pow_loop (x * x) (x * y) ((n - 1) / 2)
  else
    (x, y)
termination_by n
decreasing_by all_goals omega

/-- Integer exponentiation `iexp_pow(x, n)`. -/
def iexp_pow {K : Type} [Mul K] [One K] (x : K) (n : Nat) : K :=
  if n = 0 then 1
  else
    let r := iexp_pow_loop x 1 n
    r.1 * r.2

/-! ## `scalar_basis_size` -/

/-- Body of the `for (i = 1; i <= d; i++)` loop of `scalar_basis_size`,
acting on the pair `(num, den)`. -/
def scalar_basis_size_step (k : Nat) (nd : Nat × Nat) (i : Nat) : Nat × Nat :=
  ((nd.1 * ((k + i) % SIZE_MOD)) % SIZE_MOD, (nd.2 * i) % SIZE_MOD)

/-- Size of a scalar basis of degree `k` in dimension `d`: `num / den` after the loop. -/
def scalar_basis_size (k d : Nat) : Nat :=
  let nd := (List.range' 1 d).foldl (scalar_basis_size_step k) (1, 1)
  nd.1 / nd.2

/-! ## Points, vectors and dense containers -/

/-- A point (or vector) of the plane. -/
structure point2 (K : Type) where
  x : K
  y : K
  deriving DecidableEq, Repr

/-- A point (or vector) of space. -/
structure point3 (K : Type) where
  x : K
  y : K
  z : K
  deriving DecidableEq, Repr

namespace point2
variable {K : Type} [Field K]

/-- Difference `p - q`. -/
def sub (p q : point2 K) : point2 K := ⟨p.x - q.x, p.y - q.y⟩

/-- Scalar product `v.dot(w)`. -/
def dot (v w : point2 K) : K := v.x * w.x + v.y * w.y

end point2

namespace point3
variable {K : Type} [Field K]

/-- Difference `p - q`. -/
def sub (p q : point3 K) : point3 K := ⟨p.x - q.x, p.y - q.y, p.z - q.z⟩

/-- Scalar product `v.dot(w)`. -/
def dot (v w : point3 K) : K := v.x * w.x + v.y * w.y + v.z * w.z

/-- Product `c * v` of a scalar and a vector. -/
def smul (c : K) (v : point3 K) : point3 K := ⟨c * v.x, c * v.y, c * v.z⟩

/-- Quotient `v / c` of a vector by a scalar. -/
def sdiv (v : point3 K) (c : K) : point3 K := ⟨v.x / c, v.y / c, v.z / c⟩

/-- Euclidean norm `v.norm()`; the square root is an argument. -/
def norm (sqrt : K → K) (v : point3 K) : K := sqrt (dot v v)

end point3

/-- Checked write `ret(pos) = v` into a dense vector (or row container). -/
def vec_write {α : Type} (ret : List α) (pos : Nat) (v : α) : Except fault (List α) :=
  if pos < ret.length then .ok (ret.set pos v) else .error fault.assertion_failed

/-- Checked update of one row, `ret(pos, c) = v` for the column selected by `upd`. -/
def row_write {α : Type} (ret : List α) (pos : Nat) (upd : α → α) : Except fault (List α) :=
  match ret[pos]? with
  | some r => .ok (ret.set pos (upd r))
  | none => .error fault.assertion_failed

/-- The closing `assert(pos == basis_size); return ret;`. -/
def finish {α : Type} (st : List α × Nat) (basis_size : Nat) : Except fault (List α) :=
  if st.2 = basis_size then .ok st.1 else .error fault.assertion_failed

/-! ## 2D meshes, cells -/

/-- Private members of `scaled_monomial_scalar_basis<Mesh<T,2,Storage>, cell>`. -/
structure scaled_monomial_scalar_basis_cell2 (K : Type) where
  cell_bar : point2 K
  box_h : K × K
  basis_degree : Nat
  basis_size : Nat

namespace scaled_monomial_scalar_basis_cell2
variable {K : Type} [Field K]

/-- Constructor; `cell_bar = barycenter(msh, cl)`, `box_h = diameter_boundingbox(msh, cl)`. -/
def make (cell_bar : point2 K) (box_h : K × K) (degree : Nat) :
    scaled_monomial_scalar_basis_cell2 K :=
  { cell_bar := cell_bar
    box_h := box_h
    basis_degree := degree
    basis_size := scalar_basis_size degree 2 }

/-- Member `eval_functions` up to its closing assertion; the result is the final
`(ret, pos)`. A write at `pos` is checked, so `pos` stays below the vector length and
`pos++` cannot wrap. -/
def eval_functions_loops (b : scaled_monomial_scalar_basis_cell2 K) (pt : point2 K) :
    Except fault (List K × Nat) := do
  let ret : List K := List.replicate b.basis_size 0
  let bx := (pt.x - b.cell_bar.x) / (1 / 2 * b.box_h.1)
  let by_ := (pt.y - b.cell_bar.y) / (1 / 2 * b.box_h.2)
  (List.range (b.basis_degree + 1)).foldlM (fun st k =>
    (List.range (k + 1)).foldlM (fun (st : List K × Nat) i => do
      let pow_x := k - i
      let pow_y := i
      let px := iexp_pow bx pow_x
      let py := iexp_pow by_ pow_y
      let ret ← vec_write st.1 st.2 (px * py)
      pure (ret, st.2 + 1)) st) (ret, 0)

/-- Member `eval_functions`. -/
def eval_functions (b : scaled_monomial_scalar_basis_cell2 K) (pt : point2 K) :
    Except fault (List K) := do
  let st ← eval_functions_loops b pt
  finish st b.basis_size

/-- Member `eval_gradients` up to its closing assertion; the result is the final
`(ret, pos)`. A row of the `Dynamic x 2` matrix is a pair. -/
def eval_gradients_loops (b : scaled_monomial_scalar_basis_cell2 K) (pt : point2 K) :
    Except fault (List (K × K) × Nat) := do
  let ret : List (K × K) := List.replicate b.basis_size (0, 0)
  let ihx := 2 / b.box_h.1
  let ihy := 2 / b.box_h.2
  let bx := (pt.x - b.cell_bar.x) / (1 / 2 * b.box_h.1)
  let by_ := (pt.y - b.cell_bar.y) / (1 / 2 * b.box_h.2)
  (List.range (b.basis_degree + 1)).foldlM (fun st k =>
    (List.range (k + 1)).foldlM (fun (st : List (K × K) × Nat) i => do
      let pow_x := k - i
      let pow_y := i
      let px := iexp_pow bx pow_x
      let py := iexp_pow by_ pow_y
      let dx := if pow_x = 0 then 0 else (pow_x : K) * ihx * iexp_pow bx (pow_x - 1)
      let dy := if pow_y = 0 then 0 else (pow_y : K) * ihy * iexp_pow by_ (pow_y - 1)
      let ret ← row_write st.1 st.2 (fun r => (dx * py, r.2))
      let ret ← row_write ret st.2 (fun r => (r.1, px * dy))
      pure (ret, st.2 + 1)) st) (ret, 0)

/-- Member `eval_gradients`. -/
def eval_gradients (b : scaled_monomial_scalar_basis_cell2 K) (pt : point2 K) :
    Except fault (List (K × K)) := do
  let st ← eval_gradients_loops b pt
  finish st b.basis_size

/-- Member `size`. -/
def size (b : scaled_monomial_scalar_basis_cell2 K) : Nat := b.basis_size

/-- Member `degree`. -/
def degree (b : scaled_monomial_scalar_basis_cell2 K) : Nat := b.basis_degree

end scaled_monomial_scalar_basis_cell2

/-! ## 2D meshes, faces -/

/-- Private members of `scaled_monomial_scalar_basis<Mesh<T,2,Storage>, face>`. -/
structure scaled_monomial_scalar_basis_face2 (K : Type) where
  face_bar : point2 K
  base : point2 K
  face_h : K
  basis_degree : Nat
  basis_size : Nat

namespace scaled_monomial_scalar_basis_face2
variable {K : Type} [Field K]

/-- Constructor; `face_bar = barycenter(msh, fc)`, `face_h = diameter(msh, fc)` and
`pts0` is `points(msh, fc)[0]`. The sum `degree + 1` is a `size_t`. -/
def make (face_bar : point2 K) (face_h : K) (pts0 : point2 K) (degree : Nat) :
    scaled_monomial_scalar_basis_face2 K :=
  { face_bar := face_bar
    face_h := face_h
    basis_degree := degree
    basis_size := (degree + 1) % SIZE_MOD
    base := face_bar.sub pts0 }

/-- Member `eval_functions`; the loop writes `ret(i)` for `i = 0 .. basis_degree`. -/
def eval_functions (b : scaled_monomial_scalar_basis_face2 K) (pt : point2 K) :
    Except fault (List K) := do
  let ret : List K := List.replicate b.basis_size 0
  let v := b.base
  let t := pt.sub b.face_bar
  let dot := v.dot t
  let ep := 4 * dot / (b.face_h * b.face_h)
  (List.range (b.basis_degree + 1)).foldlM (fun (ret : List K) i => do
    let bv := iexp_pow ep i
    vec_write ret i bv) ret

/-- Member `size`. -/
def size (b : scaled_monomial_scalar_basis_face2 K) : Nat := b.basis_size

/-- Member `degree`. -/
def degree (b : scaled_monomial_scalar_basis_face2 K) : Nat := b.basis_degree

end scaled_monomial_scalar_basis_face2

/-! ## 3D meshes, cells -/

/-- The loop `for (pow_y = 0, pow_z = k - pow_x; pow_y <= k - pow_x; pow_y++, pow_z--)`:
`n` iterations remain, `pow_y` and `pow_z` are the current counters (both `size_t`). -/
def loop_yz {σ : Type} (body : Nat → Nat → σ → Except fault σ) :
    Nat → Nat → Nat → σ → Except fault σ
  | 0, _, _, st => pure st
  | n + 1, pow_y, pow_z, st => do
    let st ← body pow_y pow_z st
    loop_yz body n (pow_y + 1) ((pow_z + SIZE_MOD - 1) % SIZE_MOD) st

/-- Private members of `scaled_monomial_scalar_basis<Mesh<T,3,Storage>, cell>`. -/
structure scaled_monomial_scalar_basis_cell3 (K : Type) where
  cell_bar : point3 K
  box_h : K × K × K
  basis_degree : Nat
  basis_size : Nat

namespace scaled_monomial_scalar_basis_cell3
variable {K : Type} [Field K]

/-- Constructor; `cell_bar = barycenter(msh, cl)`, `box_h = diameter_boundingbox(msh, cl)`. -/
def make (cell_bar : point3 K) (box_h : K × K × K) (degree : Nat) :
    scaled_monomial_scalar_basis_cell3 K :=
  { cell_bar := cell_bar
    box_h := box_h
    basis_degree := degree
    basis_size := scalar_basis_size degree 3 }

/-- Member `eval_functions` up to its closing assertion; the result is the final
`(ret, pos)`. The innermost loop runs for `pow_y = 0 .. k - pow_x`, that is
`k - pow_x + 1` times. -/
def eval_functions_loops (b : scaled_monomial_scalar_basis_cell3 K) (pt : point3 K) :
    Except fault (List K × Nat) := do
  let ret : List K := List.replicate b.basis_size 0
  let bx := (pt.x - b.cell_bar.x) / (1 / 2 * b.box_h.1)
  let by_ := (pt.y - b.cell_bar.y) / (1 / 2 * b.box_h.2.1)
  let bz := (pt.z - b.cell_bar.z) / (1 / 2 * b.box_h.2.2)
  (List.range (b.basis_degree + 1)).foldlM (fun st k =>
    (List.range (k + 1)).foldlM (fun st pow_x =>
      loop_yz (fun pow_y pow_z (st : List K × Nat) => do
        let px := iexp_pow bx pow_x
        let py := iexp_pow by_ pow_y
        let pz := iexp_pow bz pow_z
        let ret ← vec_write st.1 st.2 (px * py * pz)
        pure (ret, st.2 + 1)) (k - pow_x + 1) 0 (k - pow_x) st) st) (ret, 0)

/-- Member `eval_functions`. -/
def eval_functions (b : scaled_monomial_scalar_basis_cell3 K) (pt : point3 K) :
    Except fault (List K) := do
  let st ← eval_functions_loops b pt
  finish st b.basis_size

/-- Member `eval_gradients` up to its closing assertion; the result is the final
`(ret, pos)`. A row of the `Dynamic x 3` matrix is a triple. -/
def eval_gradients_loops (b : scaled_monomial_scalar_basis_cell3 K) (pt : point3 K) :
    Except fault (List (K × K × K) × Nat) := do
  let ret : List (K × K × K) := List.replicate b.basis_size (0, 0, 0)
  let bx := (pt.x - b.cell_bar.x) / (1 / 2 * b.box_h.1)
  let by_ := (pt.y - b.cell_bar.y) / (1 / 2 * b.box_h.2.1)
  let bz := (pt.z - b.cell_bar.z) / (1 / 2 * b.box_h.2.2)
  let ihx := 2 / b.box_h.1
  let ihy := 2 / b.box_h.2.1
  let ihz := 2 / b.box_h.2.2
  (List.range (b.basis_degree + 1)).foldlM (fun st k =>
    (List.range (k + 1)).foldlM (fun st pow_x =>
      loop_yz (fun pow_y pow_z (st : List (K × K × K) × Nat) => do
        let px := iexp_pow bx pow_x
        let py := iexp_pow by_ pow_y
        let pz := iexp_pow bz pow_z
        let dx := if pow_x = 0 then 0 else (pow_x : K) * ihx * iexp_pow bx (pow_x - 1)
        let dy := if pow_y = 0 then 0 else (pow_y : K) * ihy * iexp_pow by_ (pow_y - 1)
        let dz := if pow_z = 0 then 0 else (pow_z : K) * ihz * iexp_pow bz (pow_z - 1)
        let ret ← row_write st.1 st.2 (fun r => (dx * py * pz, r.2))
        let ret ← row_write ret st.2 (fun r => (r.1, px * dy * pz, r.2.2))
        let ret ← row_write ret st.2 (fun r => (r.1, r.2.1, px * py * dz))
        pure (ret, st.2 + 1)) (k - pow_x + 1) 0 (k - pow_x) st) st) (ret, 0)

/-- Member `eval_gradients`. -/
def eval_gradients (b : scaled_monomial_scalar_basis_cell3 K) (pt : point3 K) :
    Except fault (List (K × K × K)) := do
  let st ← eval_gradients_loops b pt
  finish st b.basis_size

/-- Member `size`. -/
def size (b : scaled_monomial_scalar_basis_cell3 K) : Nat := b.basis_size

/-- Member `degree`. -/
def degree (b : scaled_monomial_scalar_basis_cell3 K) : Nat := b.basis_degree

end scaled_monomial_scalar_basis_cell3

/-! ## 3D meshes, faces -/

/-- Members of `scaled_monomial_abstract_face_basis<Mesh<T,3,Storage>, face>`:
barycenter, diameter and the local reference frame `(e0, e1)`. -/
structure scaled_monomial_abstract_face_basis (K : Type) where
  face_bar : point3 K
  face_h : K
  e0 : point3 K
  e1 : point3 K

namespace scaled_monomial_abstract_face_basis
variable {K : Type} [LinearOrderedField K]

/-- The `for (i = 1; i <= npts; i++)` scan of `compute_axis`, with `fuel` iterations
left. The result is `some (v0, v1)` when the loop is left by `break` (`ok = true`)
and `none` when it runs to its end (`ok = false`); a read `pts[j]` with `j >= npts` is
`out_of_range`. -/
def compute_axis_scan (sqrt : K → K) (pts : List (point3 K)) :
    Nat → Nat → Except fault (Option (point3 K × point3 K))
  | 0, _ => pure none
  | fuel + 1, i => do
    let npts := pts.length
    let i0 := (i + 1) % npts
    let i1 := (i - 1) % npts
    match pts[i0]?, pts[i]?, pts[i1]? with
    | some p0, some p, some p1 =>
      let v0 := p0.sub p
      let v1 := p1.sub p
      let v0n := v0.sdiv (v0.norm sqrt)
      let v1n := v1.sdiv (v1.norm sqrt)
      if v0n.dot v1n < 99 / 100 then
        pure (some (v0, v1))
      else
        compute_axis_scan sqrt pts fuel (i + 1)
    | _, _, _ => throw fault.out_of_range

/-- Member `compute_axis`; `pts = points(msh, fc)`. Returns `(e0, e1)`. -/
def compute_axis (sqrt : K → K) (pts : List (point3 K)) :
    Except fault (point3 K × point3 K) := do
  match ← compute_axis_scan sqrt pts pts.length 1 with
  | none => throw (fault.invalid_argument "Degenerate polyhedron, cannot proceed")
  | some (v0, v1) =>
    let e0 := v0
    let e1 := v1.sub ((point3.smul (v1.dot v0) v0).sdiv (v0.dot v0))
    pure (e0, e1)

/-- Constructor; `face_bar = barycenter(msh, fc)`, `face_h = diameter(msh, fc)`. -/
def make (sqrt : K → K) (face_bar : point3 K) (face_h : K) (pts : List (point3 K)) :
    Except fault (scaled_monomial_abstract_face_basis K) := do
  let e ← compute_axis sqrt pts
  pure { face_bar := face_bar, face_h := face_h, e0 := e.1, e1 := e.2 }

/-- Member `map_face_point_3d_to_2d`. -/
def map_face_point_3d_to_2d (b : scaled_monomial_abstract_face_basis K) (pt : point3 K) :
    point2 K :=
  let v := pt.sub b.face_bar
  let eta := v.dot b.e0
  let xi := v.dot b.e1
  ⟨eta, xi⟩

end scaled_monomial_abstract_face_basis

/-- The class `scaled_monomial_scalar_basis<Mesh<T,3,Storage>, face>`: its base class
object and its own private members. -/
structure scaled_monomial_scalar_basis_face3 (K : Type) where
  base : scaled_monomial_abstract_face_basis K
  face_bar : point3 K
  face_h : K
  basis_degree : Nat
  basis_size : Nat

namespace scaled_monomial_scalar_basis_face3
variable {K : Type} [LinearOrderedField K]

/-- Constructor: the base class constructor, then the members. -/
def make (sqrt : K → K) (face_bar : point3 K) (face_h : K) (pts : List (point3 K))
    (degree : Nat) : Except fault (scaled_monomial_scalar_basis_face3 K) := do
  let base ← scaled_monomial_abstract_face_basis.make sqrt face_bar face_h pts
  pure { base := base
         face_bar := base.face_bar
         face_h := base.face_h
         basis_degree := degree
         basis_size := scalar_basis_size degree 2 }

/-- Member `eval_functions` up to its closing assertion; the result is the final
`(ret, pos)`. -/
def eval_functions_loops (b : scaled_monomial_scalar_basis_face3 K) (pt : point3 K) :
    Except fault (List K × Nat) := do
  let ep := b.base.map_face_point_3d_to_2d pt
  let bx := ep.x
  let by_ := ep.y
  let ret : List K := List.replicate b.basis_size 0
  (List.range (b.basis_degree + 1)).foldlM (fun st k =>
    (List.range (k + 1)).foldlM (fun (st : List K × Nat) i => do
      let pow_x := k - i
      let pow_y := i
      let px := iexp_pow bx pow_x
      let py := iexp_pow by_ pow_y
      let ret ← vec_write st.1 st.2 (px * py)
      pure (ret, st.2 + 1)) st) (ret, 0)

/-- Member `eval_functions`. -/
def eval_functions (b : scaled_monomial_scalar_basis_face3 K) (pt : point3 K) :
    Except fault (List K) := do
  let st ← eval_functions_loops b pt
  finish st b.basis_size

/-- Member `size`. -/
def size (b : scaled_monomial_scalar_basis_face3 K) : Nat := b.basis_size

/-- Member `degree`. -/
def degree (b : scaled_monomial_scalar_basis_face3 K) : Nat := b.basis_degree

end scaled_monomial_scalar_basis_face3

/-! ## Legendre bases -/

/-- Private members of `scaled_legendre_scalar_basis<Mesh<T,3,Storage>, face>`;
the member `base` is never assigned. -/
structure scaled_legendre_scalar_basis_face3 (K : Type) where
  face_bar : point3 K
  face_h : K
  basis_degree : Nat
  basis_size : Nat

namespace scaled_legendre_scalar_basis_face3
variable {K : Type} [Field K]

/-- Constructor. -/
def make (face_bar : point3 K) (face_h : K) (degree : Nat) :
    scaled_legendre_scalar_basis_face3 K :=
  { face_bar := face_bar
    face_h := face_h
    basis_degree := degree
    basis_size := scalar_basis_size degree 2 }

/-- Member `size`. -/
def size (b : scaled_legendre_scalar_basis_face3 K) : Nat := b.basis_size

/-- Member `degree`. -/
def degree (b : scaled_legendre_scalar_basis_face3 K) : Nat := b.basis_degree

end scaled_legendre_scalar_basis_face3

/-- Private members of `scaled_legendre_scalar_basis<Mesh<T,2,Storage>, face>`. -/
structure scaled_legendre_scalar_basis_face2 (K : Type) where
  face_bar : point2 K
  base : point2 K
  face_h : K
  basis_degree : Nat
  basis_size : Nat

namespace scaled_legendre_scalar_basis_face2
variable {K : Type} [Field K]

/-- Constructor; `pts0` is `points(msh, fc)[0]`. The members are assigned in the order
of the source, the degree check coming after `basis_size` and before `base`; the text
written to `std::cout` is not part of the embedding. -/
def make (face_bar : point2 K) (face_h : K) (pts0 : point2 K) (degree : Nat) :
    Except fault (scaled_legendre_scalar_basis_face2 K) := do
  let basis_degree := degree
  let basis_size := (degree + 1) % SIZE_MOD
  if degree > 10 then
    throw (fault.invalid_argument "Sorry, I don\x27t have a Legendre basis of order > 10.")
  let base := face_bar.sub pts0
  pure { face_bar := face_bar
         face_h := face_h
         basis_degree := basis_degree
         basis_size := basis_size
         base := base }

/-- Member `size`. -/
def size (b : scaled_legendre_scalar_basis_face2 K) : Nat := b.basis_size

/-- Member `degree`. -/
def degree (b : scaled_legendre_scalar_basis_face2 K) : Nat := b.basis_degree

end scaled_legendre_scalar_basis_face2

namespace scaled_legendre_scalar_basis_face2
variable {K : Type} [Field K]

/-- The `switch (degree)` of member `eval_poly`: the value of `val` before the closing
division. The argument `val` is the indeterminate initial value of the local variable,
which no `case` assigns when `degree > 10`. -/
def eval_poly_switch (val : K) (pows : Fin 11 → K) (degree : Nat) : K :=
  match degree with
  | 0 => 1
  | 1 => pows 1
  | 2 => (3 * pows 2 - 1) / 2
  | 3 => (5 * pows 3 - 3 * pows 1) / 2
  | 4 => (35 * pows 4 - 30 * pows 2 + 3) / 8
  | 5 => (63 * pows 5 - 70 * pows 3 + 15 * pows 1) / 8
  | 6 => (231 * pows 6 - 315 * pows 4 + 105 * pows 2 - 5) / 16
  | 7 => (429 * pows 7 - 693 * pows 5 + 315 * pows 3 - 35 * pows 1) / 16
  | 8 => (6435 * pows 8 - 12012 * pows 6 + 6930 * pows 4 - 1260 * pows 2 + 35) / 128
  | 9 => (12155 * pows 9 - 25740 * pows 7 + 18018 * pows 5 - 4620 * pows 3 + 315 * pows 1) / 128
  | 10 =>
    (46189 * pows 10 - 109395 * pows 8 + 90090 * pows 6 - 30030 * pows 4 + 3465 * pows 2 - 63)
      / 256
  | _ => val

/-- Member `eval_poly`; the square root is an argument and `2 * degree + 1` is a
`size_t`. -/
def eval_poly (sqrt : K → K) (val : K) (pows : Fin 11 → K) (degree : Nat) : K :=
  eval_poly_switch val pows degree / sqrt (2 / (((2 * degree + 1) % SIZE_MOD : Nat) : K))

/-- Member `eval_functions`. The arguments `val` and `pows0` are the indeterminate
initial contents of the local `val` of `eval_poly` and of the local array `pows`; a
write `pows[i]` with `i >= 11` is `out_of_range`. -/
def eval_functions (sqrt : K → K) (val : K) (pows0 : Fin 11 → K)
    (b : scaled_legendre_scalar_basis_face2 K) (pt : point2 K) : Except fault (List K) := do
  let ret : List K := List.replicate b.basis_size 0
  let v := b.base
  let t := pt.sub b.face_bar
  let dot := v.dot t
  let ep := 4 * dot / (b.face_h * b.face_h)
  let pows := Function.update pows0 0 1
  let pows ← (List.range' 1 b.basis_degree).foldlM (fun (pows : Fin 11 → K) i =>
    if h : i < 11 then
      pure (Function.update pows ⟨i, h⟩ (ep * pows ⟨i - 1, by omega⟩))
    else
      throw fault.out_of_range) pows
  let scaling := sqrt (2 / b.face_h)
  (List.range (b.basis_degree + 1)).foldlM (fun (ret : List K) i =>
    vec_write ret i (eval_poly sqrt val pows i * scaling)) ret

end scaled_legendre_scalar_basis_face2

/-- The pair `(P_n, P_{n+1})` of Legendre polynomials at `x`, from `P_0 = 1`, `P_1 = x`
and the Bonnet recurrence `(n+1) P_{n+1} = (2n+1) x P_n - n P_{n-1}`. -/
def legendre_pair {K : Type} [Field K] (x : K) : Nat → K × K
  | 0 => (1, x)
  | n + 1 =>
    let p := legendre_pair x n
    (p.2, ((2 * ((n : K) + 1) + 1) * x * p.2 - ((n : K) + 1) * p.1) / ((n : K) + 2))

/-- The Legendre polynomial `P_n` at `x`. -/
def legendre {K : Type} [Field K] (n : Nat) (x : K) : K := (legendre_pair x n).1

/-! ## Static condensation -/

/-- Modelled from the spec: the inverse `A_TT^-1` of the cell block, which the spec
requires to exist; it is written as the adjugate divided by the determinant. The
condensation functions are called in `diffusion_nitsche_solver.hpp` and defined outside
the sources at hand. -/
def cell_block_inverse {K : Type} [Field K] {nT : Nat} (A_TT : Matrix (Fin nT) (Fin nT) K) :
    Matrix (Fin nT) (Fin nT) K :=
  (A_TT.det)⁻¹ • A_TT.adjugate

/-- Modelled from the spec: the function `diffusion_static_condensation_compute_full`
(reduce), missing from the sources at hand. For the local matrix `A` and right-hand side
`L`, partitioned into a cell block `T` and a face block `F`, it returns
`S = A_FF - A_FT * A_TT^-1 * A_TF` and `R = L_F - A_FT * A_TT^-1 * L_T`. -/
def diffusion_static_condensation_compute_full {K : Type} [Field K] {nT nF : Nat}
    (A : Matrix (Fin nT ⊕ Fin nF) (Fin nT ⊕ Fin nF) K) (L : Fin nT ⊕ Fin nF → K) :
    Matrix (Fin nF) (Fin nF) K × (Fin nF → K) :=
  let A_TT := A.toBlocks₁₁
  let A_TF := A.toBlocks₁₂
  let A_FT := A.toBlocks₂₁
  let A_FF := A.toBlocks₂₂
  let L_T := fun i => L (Sum.inl i)
  let L_F := fun i => L (Sum.inr i)
  (A_FF - A_FT * cell_block_inverse A_TT * A_TF,
   L_F - (A_FT * cell_block_inverse A_TT).mulVec L_T)

/-- Modelled from the spec: the function `diffusion_static_condensation_recover`, missing
from the sources at hand. From the cell right-hand side `L_T` and a face vector `u_F` it
computes `u_T = A_TT^-1 * (L_T - A_TF * u_F)` and returns the concatenation
`[u_T; u_F]`. -/
def diffusion_static_condensation_recover {K : Type} [Field K] {nT nF : Nat}
    (A : Matrix (Fin nT ⊕ Fin nF) (Fin nT ⊕ Fin nF) K) (L_T : Fin nT → K) (u_F : Fin nF → K) :
    Fin nT ⊕ Fin nF → K :=
  let A_TT := A.toBlocks₁₁
  let A_TF := A.toBlocks₁₂
  let u_T := (cell_block_inverse A_TT).mulVec (L_T - A_TF.mulVec u_F)
  Sum.elim u_T u_F

/-! ## Nodal assembly of `diffusion_dga.cpp` -/

namespace diffusion_dga

/-- Ways in which the fragment of `main` stops without a result. -/
inductive dga_fault where
  /-- The exception `std::out_of_range` of `std::vector::at`. -/
  | out_of_range
  /-- Overflow of the `int` counter `nnum` (declared by `auto nnum = 0`). -/
  | int_overflow
  /-- The index assertion of `gb(i)`. -/
  | assertion_failed
  deriving DecidableEq, Repr

/-- Largest value of `int` (32 bits). -/
def INT_MAX : Nat := 2 ^ 31 - 1

/-- Read `v.at(i)`. -/
def at_read {α : Type} (v : List α) (i : Nat) : Except dga_fault α :=
  match v[i]? with
  | some x => .ok x
  | none => .error dga_fault.out_of_range

/-- Write `v.at(i) = x`. -/
def at_write {α : Type} (v : List α) (i : Nat) (x : α) : Except dga_fault (List α) :=
  if i < v.length then .ok (v.set i x) else .error dga_fault.out_of_range

/-- The variables `compress_map`, `expand_map` and `nnum` of `main`. -/
structure numbering where
  compress_map : List Nat
  expand_map : List Nat
  nnum : Nat
  deriving DecidableEq, Repr

/-- The value of `system_size`: the number of nodes that are not Dirichlet nodes. -/
def system_size (dirichlet_nodes : List Bool) : Nat :=
  dirichlet_nodes.countP (fun d => !d)

/-- Body of the loop `for (size_t i = 0; i < msh.points_size(); i++)` that numbers the
nodes. In `compress_map.at(i) = nnum++` the increment comes before the access. -/
def numbering_step (dirichlet_nodes : List Bool) (st : numbering) (i : Nat) :
    Except dga_fault numbering := do
  if (← at_read dirichlet_nodes i) then
    pure st
  else
    let expand_map ← at_write st.expand_map st.nnum i
    if st.nnum = INT_MAX then
      throw dga_fault.int_overflow
    let compress_map ← at_write st.compress_map i st.nnum
    pure { compress_map := compress_map, expand_map := expand_map, nnum := st.nnum + 1 }

/-- Lines 98-111 of `main`: the two maps are resized (zero-filled) and the loop runs over
the `msh.points_size()` nodes; `dirichlet_nodes` has one flag per node. -/
def make_numbering (dirichlet_nodes : List Bool) : Except dga_fault numbering :=
  let points_size := dirichlet_nodes.length
  let compress_map := List.replicate points_size 0
  let expand_map := List.replicate (system_size dirichlet_nodes) 0
  (List.range points_size).foldlM (numbering_step dirichlet_nodes)
    { compress_map := compress_map, expand_map := expand_map, nnum := 0 }

/-- What the assembly loop reads of a cell: `cl.point_ids()`, the local matrix
`lapl = G^T * E * G`, the values `rhs_fun(pts[i])` and the volume. -/
structure cell (K : Type) where
  ptids : Fin 4 → Nat
  lapl : Fin 4 → Fin 4 → K
  rhs_val : Fin 4 → K
  vol : K

/-- An `Eigen::Triplet`: row, column, value. -/
structure triplet_type (K : Type) where
  row : Nat
  col : Nat
  value : K
  deriving DecidableEq, Repr

/-- The update `gb(i) += x` of a dense vector. -/
def add_at {K : Type} [Add K] (gb : List K) (i : Nat) (x : K) : Except dga_fault (List K) :=
  match gb[i]? with
  | some y => .ok (gb.set i (y + x))
  | none => .error dga_fault.assertion_failed

/-- Body of the loop `for (auto& cl : msh)` of the assembly; the state is
`(triplets, gb)`. -/
def assemble_cell {K : Type} [Field K] (dirichlet_nodes : List Bool) (compress_map : List Nat)
    (st : List (triplet_type K) × List K) (cl : cell K) :
    Except dga_fault (List (triplet_type K) × List K) :=
  (List.finRange 4).foldlM (fun (st : List (triplet_type K) × List K) i => do
    if (← at_read dirichlet_nodes (cl.ptids i)) then
      pure st
    else
      let triplets ← (List.finRange 4).foldlM (fun (triplets : List (triplet_type K)) j => do
        if (← at_read dirichlet_nodes (cl.ptids j)) then
          pure triplets
        else
          let row ← at_read compress_map (cl.ptids i)
          let col ← at_read compress_map (cl.ptids j)
          pure (triplets ++ [{ row := row, col := col, value := cl.lapl i j }])) st.1
      let rhs_val := cl.rhs_val i
      let gb ← add_at st.2 (← at_read compress_map (cl.ptids i)) (rhs_val * cl.vol * (1 / 4))
      pure (triplets, gb)) st

/-- Lines 113-150 of `main`: `gb` is zero-filled, `triplets` is empty, and the cells are
processed in the order of the list `msh`. -/
def assemble {K : Type} [Field K] (dirichlet_nodes : List Bool) (compress_map : List Nat)
    (msh : List (cell K)) : Except dga_fault (List (triplet_type K) × List K) :=
  msh.foldlM (assemble_cell dirichlet_nodes compress_map)
    ([], List.replicate (system_size dirichlet_nodes) 0)

/-- Entry `(r, c)` of the matrix that `gA.setFromTriplets` builds: the sum of the values of
the triplets with that row and column (Eigen sums duplicates). -/
def setFromTriplets {K : Type} [Field K] (triplets : List (triplet_type K)) (r c : Nat) : K :=
  ((triplets.filter (fun t => t.row = r ∧ t.col = c)).map (fun t => t.value)).sum

end diffusion_dga

/-! ## The FEAST interface of `core/solvers/feast.hpp` -/

namespace feast

/-- Ways in which the embedded code of `feast.hpp` has no defined result. -/
inductive feast_fault where
  /-- An access `ia[i]` or `ja[i]` through the raw pointer, outside the array. -/
  | out_of_range
  /-- Overflow of an `int`. -/
  | int_overflow
  deriving DecidableEq, Repr

/-- The largest `int`. -/
def INT_MAX : Int := 2 ^ 31 - 1

/-- The smallest `int`. -/
def INT_MIN : Int := -(2 ^ 31)

/-- The `int` sum `x + d`. -/
def int_add (x d : Int) : Except feast_fault Int :=
  if INT_MIN ≤ x + d ∧ x + d ≤ INT_MAX then .ok (x + d) else .error feast_fault.int_overflow

/-- The storage of an `Eigen::SparseMatrix<T, Options, int>` in compressed mode:
`rows()`, `cols()`, and the arrays behind `outerIndexPtr()`, `innerIndexPtr()` and
`valuePtr()`. The sizes are `int` values in the source. -/
structure SparseMatrix (K : Type) where
  rows : Nat
  cols : Nat
  outerIndex : List Int
  innerIndex : List Int
  values : List K

/-- The loop `for (size_t i = 0; i < count; i++) a[i] += d;` on an `int` array that is
reached through a raw pointer. -/
def shift_loop (d : Int) (count : Nat) (a : List Int) : Except feast_fault (List Int) :=
  (List.range count).foldlM (fun (a : List Int) i =>
    match a[i]? with
    | some x => do
      let y ← int_add x d
      pure (a.set i y)
    | none => throw feast_fault.out_of_range) a

/-- The class `eigen_sparse_raw<T>`. The pointers `data`, `ia`, `ja` point into the
storage of the matrix given to the constructor; the embedding keeps the arrays they point
to, so a change of `ia` or `ja` is a change of the matrix. -/
structure eigen_sparse_raw (K : Type) where
  m_one_based : Bool
  m_already_restored : Bool
  data : List K
  ia : List Int
  ja : List Int
  nnz : Nat
  n : Nat

namespace eigen_sparse_raw
variable {K : Type}

/-- Constructor, for a matrix `A` in compressed mode (`A.makeCompressed()` changes
nothing); `nnz = A.nonZeros()` is the number of stored values. The bound `n+1` of the
first loop is an `int` sum. -/
def make (A : SparseMatrix K) (one_based : Bool) : Except feast_fault (eigen_sparse_raw K) := do
  let data := A.values
  let ia := A.outerIndex
  let ja := A.innerIndex
  let nnz := A.values.length
  let n := A.rows
  if one_based then
    let bound ← int_add n 1
    let ia ← shift_loop 1 bound.toNat ia
    let ja ← shift_loop 1 nnz ja
    pure { m_one_based := one_based, m_already_restored := false,
           data := data, ia := ia, ja := ja, nnz := nnz, n := n }
  else
    pure { m_one_based := one_based, m_already_restored := false,
           data := data, ia := ia, ja := ja, nnz := nnz, n := n }

/-- Member `restore`. -/
def restore (r : eigen_sparse_raw K) : Except feast_fault (eigen_sparse_raw K) := do
  if !r.m_one_based || r.m_already_restored then
    pure r
  else
    let bound ← int_add r.n 1
    let ia ← shift_loop (-1) bound.toNat r.ia
    let ja ← shift_loop (-1) r.nnz r.ja
    pure { r with ia := ia, ja := ja, m_already_restored := true }

/-- The destructor `~eigen_sparse_raw()`. -/
def destroy (r : eigen_sparse_raw K) : Except feast_fault (eigen_sparse_raw K) :=
  if r.m_one_based && !r.m_already_restored then restore r else pure r

/-- The matrix `A` as it is once the arrays have been changed through the pointers of
`r`. -/
def storage (A : SparseMatrix K) (r : eigen_sparse_raw K) : SparseMatrix K :=
  { A with outerIndex := r.ia, innerIndex := r.ja, values := r.data }

end eigen_sparse_raw

/-- The fields of `feast_eigensolver_params<T>` that the solver reads. -/
structure feast_eigensolver_params (K : Type) where
  verbose : Bool
  tolerance : Int
  min_eigval : K
  max_eigval : K
  subspace_size : Int

/-- What a call of `generalized_eigenvalue_solver` leaves: the returned value, the
arguments `N, ia, ja, ib, jb` given to `dfeast_scsrgv` when it is called, and the two
matrices after the destructors of `Lc` and `Rc`. The output arrays are written by the
external routine and are not part of the embedding. -/
structure solver_result (K : Type) where
  ret : Bool
  feast_args : Option (Nat × List Int × List Int × List Int × List Int)
  L : SparseMatrix K
  R : SparseMatrix K

/-- The function `generalized_eigenvalue_solver`. At each `return` the destructors of `Rc`
and `Lc` run, in this order. -/
def generalized_eigenvalue_solver {K : Type} (params : feast_eigensolver_params K)
    (L R : SparseMatrix K) : Except feast_fault (solver_result K) := do
  if L.rows ≠ R.rows ∧ L.cols ≠ R.cols ∧ L.rows = L.cols then
    pure { ret := false, feast_args := none, L := L, R := R }
  else
    let Lc ← eigen_sparse_raw.make L true
    let Rc ← eigen_sparse_raw.make R true
    let N := Lc.n
    if 0 < params.tolerance ∧ params.tolerance < 16 then
      if params.subspace_size < 1 ∨ params.subspace_size > N then
        let Rc ← Rc.destroy
        let Lc ← Lc.destroy
        pure { ret := false, feast_args := none,
               L := eigen_sparse_raw.storage L Lc, R := eigen_sparse_raw.storage R Rc }
      else
        let args := (N, Lc.ia, Lc.ja, Rc.ia, Rc.ja)
        let Rc ← Rc.destroy
        let Lc ← Lc.destroy
        pure { ret := true, feast_args := some args,
               L := eigen_sparse_raw.storage L Lc, R := eigen_sparse_raw.storage R Rc }
    else
      let Rc ← Rc.destroy
      let Lc ← Lc.destroy
      pure { ret := false, feast_args := none,
             L := eigen_sparse_raw.storage L Lc, R := eigen_sparse_raw.storage R Rc }

end feast

/-! ## The Nitsche diffusion solver of `apps/contact/diffusion_nitsche_solver.hpp` -/

namespace diffusion_nitsche

/-- The function `make_is_dirichlet_vector`. The mesh is the list of its cells with the
faces of each cell (`faces(msh, cl)`); `find_element_id` is the call
`find_element_id(msh.faces_begin(), msh.faces_end(), fc)` and `is_dirichlet_face` the
member of the boundary-condition object, both defined outside the sources at hand. The
state of the outer loop is `(ret, i)`. -/
def make_is_dirichlet_vector {cell face : Type} (msh : List cell) (faces : cell → List face)
    (find_element_id : face → Bool × Nat) (is_dirichlet_face : Nat → Bool) :
    Except fault (List Nat) := do
  let num_cells := msh.length
  let ret : List Nat := List.replicate num_cells 0
  let st ← msh.foldlM (fun (st : List Nat × Nat) cl => do
    let fcs := faces cl
    let ret ← fcs.foldlM (fun (ret : List Nat) fc => do
      let eid := find_element_id fc
      if !eid.1 then
        throw (fault.invalid_argument "This is a bug: face not found")
      else
        let face_id := eid.2
        if is_dirichlet_face face_id then
          if st.2 < ret.length then pure (ret.set st.2 1) else throw fault.out_of_range
        else
          pure ret) st.1
    pure (ret, st.2 + 1)) (ret, 0)
  pure st.1

/-- What the loops over the cells of `run_hho_diffusion_nitsche_par` and
`run_hho_diffusion_nitsche_faces` get from the functions defined outside the sources at
hand, for one cell: `gr.second`, `stab`, `Lh = make_rhs(...)`, the result of
`make_hho_consist_diff_*` and the pair returned by `make_hho_nitsche_diff_*`. The first
`cbs` indices are the summand `Fin cbs`. -/
structure cell_terms (K : Type) (cbs nF : Nat) where
  gr_second : Matrix (Fin cbs ⊕ Fin nF) (Fin cbs ⊕ Fin nF) K
  stab : Matrix (Fin cbs ⊕ Fin nF) (Fin cbs ⊕ Fin nF) K
  Lh : Fin cbs → K
  consist : Matrix (Fin cbs ⊕ Fin nF) (Fin cbs ⊕ Fin nF) K
  ntz : Matrix (Fin cbs ⊕ Fin nF) (Fin cbs ⊕ Fin nF) K × (Fin cbs ⊕ Fin nF → K)

/-- The update `rhs.block(0, 0, cbs, 1) += Lh`. -/
def block_add {K : Type} [Add K] {cbs nF : Nat} (rhs : Fin cbs ⊕ Fin nF → K)
    (Lh : Fin cbs → K) : Fin cbs ⊕ Fin nF → K :=
  Sum.elim (fun i => rhs (Sum.inl i) + Lh i) (fun j => rhs (Sum.inr j))

/-- The block `v.block(0, 0, cbs, 1)`. -/
def block {K : Type} {cbs nF : Nat} (v : Fin cbs ⊕ Fin nF → K) : Fin cbs → K :=
  fun i => v (Sum.inl i)

/-- The body of the first loop of `run_hho_diffusion_nitsche_par`, up to the call of
`diffusion_static_condensation_compute_full`: the result is the pair `(A, rhs)` given to
that call. -/
def run_hho_diffusion_nitsche_par_assembly {K : Type} [Field K] {cbs nF : Nat}
    (has_a_boundary_face : Bool) (c : cell_terms K cbs nF) :
    Matrix (Fin cbs ⊕ Fin nF) (Fin cbs ⊕ Fin nF) K × (Fin cbs ⊕ Fin nF → K) :=
  let Ah := c.gr_second + c.stab
  let Aconsist : Matrix (Fin cbs ⊕ Fin nF) (Fin cbs ⊕ Fin nF) K :=
    if has_a_boundary_face then c.consist else 0
  let Anitsche : Matrix (Fin cbs ⊕ Fin nF) (Fin cbs ⊕ Fin nF) K :=
    if has_a_boundary_face then c.ntz.1 else 0
  let Bnitsche : Fin cbs ⊕ Fin nF → K := if has_a_boundary_face then c.ntz.2 else 0
  let A := Ah - Anitsche - Aconsist
  let rhs := -Bnitsche
  let rhs := block_add rhs c.Lh
  (A, rhs)

/-- The body of the second loop of `run_hho_diffusion_nitsche_par`, up to the call of
`diffusion_static_condensation_recover`: the result is the pair `(A, rhs)` given to that
call. -/
def run_hho_diffusion_nitsche_par_recovery {K : Type} [Field K] {cbs nF : Nat}
    (has_a_boundary_face : Bool) (c : cell_terms K cbs nF) :
    Matrix (Fin cbs ⊕ Fin nF) (Fin cbs ⊕ Fin nF) K × (Fin cbs → K) :=
  let Ah := c.gr_second + c.stab
  let Aconsist : Matrix (Fin cbs ⊕ Fin nF) (Fin cbs ⊕ Fin nF) K :=
    if has_a_boundary_face then c.consist else 0
  let Anitsche : Matrix (Fin cbs ⊕ Fin nF) (Fin cbs ⊕ Fin nF) K :=
    if has_a_boundary_face then c.ntz.1 else 0
  let Bnitsche : Fin cbs ⊕ Fin nF → K := if has_a_boundary_face then c.ntz.2 else 0
  let A := Ah - Anitsche - Aconsist
  let rhs := c.Lh - block Bnitsche
  (A, rhs)

/-- The body of the first loop of `run_hho_diffusion_nitsche_faces`; the code is that of
`run_hho_diffusion_nitsche_par` with `make_hho_consist_diff_faces` and
`make_hho_nitsche_diff_faces`. -/
def run_hho_diffusion_nitsche_faces_assembly {K : Type} [Field K] {cbs nF : Nat}
    (has_a_boundary_face : Bool) (c : cell_terms K cbs nF) :
    Matrix (Fin cbs ⊕ Fin nF) (Fin cbs ⊕ Fin nF) K × (Fin cbs ⊕ Fin nF → K) :=
  let Ah := c.gr_second + c.stab
  let Aconsist : Matrix (Fin cbs ⊕ Fin nF) (Fin cbs ⊕ Fin nF) K :=
    if has_a_boundary_face then c.consist else 0
  let Anitsche : Matrix (Fin cbs ⊕ Fin nF) (Fin cbs ⊕ Fin nF) K :=
    if has_a_boundary_face then c.ntz.1 else 0
  let Bnitsche : Fin cbs ⊕ Fin nF → K := if has_a_boundary_face then c.ntz.2 else 0
  let A := Ah - Anitsche - Aconsist
  let rhs := -Bnitsche
  let rhs := block_add rhs c.Lh
  (A, rhs)

/-- The body of the second loop of `run_hho_diffusion_nitsche_faces`. -/
def run_hho_diffusion_nitsche_faces_recovery {K : Type} [Field K] {cbs nF : Nat}
    (has_a_boundary_face : Bool) (c : cell_terms K cbs nF) :
    Matrix (Fin cbs ⊕ Fin nF) (Fin cbs ⊕ Fin nF) K × (Fin cbs → K) :=
  let Ah := c.gr_second + c.stab
  let Aconsist : Matrix (Fin cbs ⊕ Fin nF) (Fin cbs ⊕ Fin nF) K :=
    if has_a_boundary_face then c.consist else 0
  let Anitsche : Matrix (Fin cbs ⊕ Fin nF) (Fin cbs ⊕ Fin nF) K :=
    if has_a_boundary_face then c.ntz.1 else 0
  let Bnitsche : Fin cbs ⊕ Fin nF → K := if has_a_boundary_face then c.ntz.2 else 0
  let A := Ah - Anitsche - Aconsist
  let rhs := c.Lh - block Bnitsche
  (A, rhs)

/-- What the loops of `run_hho_diffusion_nitsche_cells` get for one cell from the
functions defined outside the sources at hand: on a contact cell `gr.second` and `stab`
come from `make_hho_nitshce_scalar_laplacian` and `make_hdg_nitsche_stabilization`, on
the other cells from `make_hho_scalar_laplacian` and `make_hdg_scalar_stabilization`. -/
structure cells_terms (K : Type) (cbs nF : Nat) where
  gr_second_nitsche : Matrix (Fin cbs ⊕ Fin nF) (Fin cbs ⊕ Fin nF) K
  stab_nitsche : Matrix (Fin cbs ⊕ Fin nF) (Fin cbs ⊕ Fin nF) K
  gr_second : Matrix (Fin cbs ⊕ Fin nF) (Fin cbs ⊕ Fin nF) K
  stab : Matrix (Fin cbs ⊕ Fin nF) (Fin cbs ⊕ Fin nF) K
  Lh : Fin cbs → K
  consist : Matrix (Fin cbs ⊕ Fin nF) (Fin cbs ⊕ Fin nF) K
  ntz : Matrix (Fin cbs ⊕ Fin nF) (Fin cbs ⊕ Fin nF) K × (Fin cbs ⊕ Fin nF → K)

/-- The condensation call of the assembly pass of `run_hho_diffusion_nitsche_cells`:
`diffusion_static_condensation_compute_full(msh, cl, hdi, A, rhs)` with a right-hand side
of full length, or `diffusion_static_condensation_compute(msh, cl, hdi, Ah, Lh)` with a
right-hand side of length `cbs`. -/
inductive condensation_call (K : Type) (cbs nF : Nat) where
  | compute_full (A : Matrix (Fin cbs ⊕ Fin nF) (Fin cbs ⊕ Fin nF) K)
      (rhs : Fin cbs ⊕ Fin nF → K)
  | compute (A : Matrix (Fin cbs ⊕ Fin nF) (Fin cbs ⊕ Fin nF) K) (rhs : Fin cbs → K)

/-- The matrix given to a condensation call. -/
def condensation_call.matrix {K : Type} {cbs nF : Nat} :
    condensation_call K cbs nF → Matrix (Fin cbs ⊕ Fin nF) (Fin cbs ⊕ Fin nF) K
  | compute_full A _ => A
  | compute A _ => A

/-- The first `cbs` entries of the right-hand side given to a condensation call. -/
def condensation_call.cell_block {K : Type} {cbs nF : Nat} :
    condensation_call K cbs nF → Fin cbs → K
  | compute_full _ rhs => block rhs
  | compute _ rhs => rhs

/-- The body of the first loop of `run_hho_diffusion_nitsche_cells`, up to the
condensation call; `is_contact` is the test `is_contact_vector.at(cl_count) == 1`. -/
def run_hho_diffusion_nitsche_cells_assembly {K : Type} [Field K] {cbs nF : Nat}
    (is_contact : Bool) (c : cells_terms K cbs nF) : condensation_call K cbs nF :=
  if is_contact then
    let Ah := c.gr_second_nitsche + c.stab_nitsche
    let Lh := c.Lh
    let Aconsist := c.consist
    let Anitsche := c.ntz.1
    let Bnitsche := c.ntz.2
    let A := Ah - Anitsche - Aconsist
    let rhs := -Bnitsche
    let rhs := block_add rhs Lh
    condensation_call.compute_full A rhs
  else
    let Lh := c.Lh
    let Ah := c.gr_second + c.stab
    condensation_call.compute Ah Lh

/-- The body of the second loop of `run_hho_diffusion_nitsche_cells`, up to the call of
`diffusion_static_condensation_recover`: the pair `(A, rhs)` given to that call. -/
def run_hho_diffusion_nitsche_cells_recovery {K : Type} [Field K] {cbs nF : Nat}
    (is_contact : Bool) (c : cells_terms K cbs nF) :
    Matrix (Fin cbs ⊕ Fin nF) (Fin cbs ⊕ Fin nF) K × (Fin cbs → K) :=
  if is_contact then
    let Ah := c.gr_second_nitsche + c.stab_nitsche
    let Lh := c.Lh
    let Aconsist := c.consist
    let Anitsche := c.ntz.1
    let Bnitsche := c.ntz.2
    let A := Ah - Anitsche - Aconsist
    let rhs := Lh - block Bnitsche
    (A, rhs)
  else
    let rhs := c.Lh
    let A := c.gr_second + c.stab
    (A, rhs)

end diffusion_nitsche

/-! ## Closed forms used by the proofs -/

/-- State `(ret, pos)` of a fill loop on a zero-initialised container of length `n`
after the values `acc` have been written at positions `0, 1, ...`. -/
def filled {α : Type} (z : α) (n : Nat) (acc : List α) : List α × Nat :=
  (acc ++ List.replicate (n - acc.length) z, acc.length)

/-- The loop `F` appends the values `vals` to a partially filled container, and aborts exactly
when they do not fit. -/
def Fills {α : Type} (z : α) (F : List α × Nat → Except fault (List α × Nat))
    (vals : List α) : Prop :=
  ∀ n acc, acc.length ≤ n →
    F (filled z n acc) =
      if acc.length + vals.length ≤ n then .ok (filled z n (acc ++ vals))
      else .error fault.assertion_failed

/-- Exponent pairs `(pow_x, pow_y)` in the order of the 2D loops. -/
def exponents2 (k : Nat) : List (Nat × Nat) :=
  (List.range (k + 1)).flatMap (fun m => (List.range (m + 1)).map (fun i => (m - i, i)))

/-- Exponent triples `(pow_x, pow_y, pow_z)` of the degree-`m` block, in the order of
the 3D loops. -/
def block3 (m : Nat) : List (Nat × Nat × Nat) :=
  (List.range (m + 1)).flatMap (fun px =>
    (List.range (m - px + 1)).map (fun py => (px, py, m - px - py)))

/-- Exponent triples `(pow_x, pow_y, pow_z)` in the order of the 3D loops. -/
def exponents3 (k : Nat) : List (Nat × Nat × Nat) :=
  (List.range (k + 1)).flatMap block3

/-- Row of `eval_gradients` (2D) for the exponent pair `e`. -/
def gradient2 {K : Type} [Field K] (ihx ihy bx by_ : K) (e : Nat × Nat) : K × K :=
  ((if e.1 = 0 then 0 else (e.1 : K) * ihx * bx ^ (e.1 - 1)) * by_ ^ e.2,
   bx ^ e.1 * (if e.2 = 0 then 0 else (e.2 : K) * ihy * by_ ^ (e.2 - 1)))

/-- Row of `eval_gradients` (3D) for the exponent triple `e`. -/
def gradient3 {K : Type} [Field K] (ihx ihy ihz bx by_ bz : K) (e : Nat × Nat × Nat) :
    K × K × K :=
  ((if e.1 = 0 then 0 else (e.1 : K) * ihx * bx ^ (e.1 - 1)) * by_ ^ e.2.1 * bz ^ e.2.2,
   bx ^ e.1 * (if e.2.1 = 0 then 0 else (e.2.1 : K) * ihy * by_ ^ (e.2.1 - 1)) * bz ^ e.2.2,
   bx ^ e.1 * by_ ^ e.2.1 * (if e.2.2 = 0 then 0 else (e.2.2 : K) * ihz * bz ^ (e.2.2 - 1)))

/-- Entry `j` of the container returned by an evaluation (`z` when there is none). -/
def entry {α : Type} (z : α) (r : Except fault (List α)) (j : Nat) : α :=
  match r with
  | .ok v => v.getD j z
  | .error _ => z

/-- Dot product of the unit vectors of two edges, as tested by `compute_axis`. -/
def unit_dot {K : Type} [Field K] (sqrt : K → K) (v0 v1 : point3 K) : K :=
  (v0.sdiv (v0.norm sqrt)).dot (v1.sdiv (v1.norm sqrt))

/-- State of the numbering loop of `diffusion_dga` after the nodes `0 .. n-1`: the sizes
of the two maps, the value of `nnum`, and the two maps being inverse to each other on
what has been numbered. -/
def numbering_inv (dirichlet_nodes : List Bool) (n : Nat) (st : diffusion_dga.numbering) :
    Prop :=
  st.compress_map.length = dirichlet_nodes.length ∧
  st.expand_map.length = diffusion_dga.system_size dirichlet_nodes ∧
  st.nnum = (dirichlet_nodes.take n).countP (fun d => !d) ∧
  (∀ i, i < n → dirichlet_nodes[i]? = some false →
    ∃ c, st.compress_map[i]? = some c ∧ c < st.nnum ∧ st.expand_map[c]? = some i) ∧
  (∀ j, j < st.nnum →
    ∃ i, st.expand_map[j]? = some i ∧ i < n ∧ dirichlet_nodes[i]? = some false ∧
      st.compress_map[i]? = some j)

/-- The triplets that the assembly loop of `diffusion_dga` pushes for the row `i` of a
cell, in the order of the loop on `j`. -/
def row_triplets {K : Type} (dirichlet_nodes : List Bool) (compress_map : List Nat)
    (cl : diffusion_dga.cell K) (i : Fin 4) : List (diffusion_dga.triplet_type K) :=
  (List.finRange 4).flatMap (fun j =>
    if dirichlet_nodes.getD (cl.ptids j) true then []
    else [diffusion_dga.triplet_type.mk (compress_map.getD (cl.ptids i) 0)
      (compress_map.getD (cl.ptids j) 0) (cl.lapl i j)])

/-- The triplets that the assembly loop of `diffusion_dga` pushes for a cell. -/
def cell_triplets {K : Type} (dirichlet_nodes : List Bool) (compress_map : List Nat)
    (cl : diffusion_dga.cell K) : List (diffusion_dga.triplet_type K) :=
  (List.finRange 4).flatMap (fun i =>
    if dirichlet_nodes.getD (cl.ptids i) true then []
    else row_triplets dirichlet_nodes compress_map cl i)

/-- What the assembly loop of `diffusion_dga` adds to `gb(r)` for the row `i` of a cell. -/
def row_rhs {K : Type} [Field K] (dirichlet_nodes : List Bool) (compress_map : List Nat)
    (cl : diffusion_dga.cell K) (r : Nat) (i : Fin 4) : K :=
  if dirichlet_nodes.getD (cl.ptids i) true = false ∧ compress_map.getD (cl.ptids i) 0 = r
  then cl.rhs_val i * cl.vol * (1 / 4) else 0

/-- The vector `gb` after the assembly loop of `diffusion_dga` has processed the row `i` of a
cell. -/
def rhs_update {K : Type} [Field K] (dirichlet_nodes : List Bool) (compress_map : List Nat)
    (cl : diffusion_dga.cell K) (gb : List K) (i : Fin 4) : List K :=
  if dirichlet_nodes.getD (cl.ptids i) true then gb
  else gb.set (compress_map.getD (cl.ptids i) 0)
    (gb.getD (compress_map.getD (cl.ptids i) 0) 0 + cl.rhs_val i * cl.vol * (1 / 4))

/-- A cell whose point ids are valid node numbers, and whose non-Dirichlet nodes have a
compressed number below `n`. -/
def cell_valid {K : Type} (dirichlet_nodes : List Bool) (compress_map : List Nat) (n : Nat)
    (cl : diffusion_dga.cell K) : Prop :=
  ∀ i : Fin 4, cl.ptids i < dirichlet_nodes.length ∧ cl.ptids i < compress_map.length ∧
    (dirichlet_nodes.getD (cl.ptids i) true = false → compress_map.getD (cl.ptids i) 0 < n)

/-- Body of the loop over the faces of a cell in `make_is_dirichlet_vector`, for the cell
of index `i`. -/
def dirichlet_face_step {face : Type} (find_element_id : face → Bool × Nat)
    (is_dirichlet_face : Nat → Bool) (i : Nat) (ret : List Nat) (fc : face) :
    Except fault (List Nat) := do
  let eid := find_element_id fc
  if !eid.1 then
    throw (fault.invalid_argument "This is a bug: face not found")
  else
    let face_id := eid.2
    if is_dirichlet_face face_id then
      if i < ret.length then pure (ret.set i 1) else throw fault.out_of_range
    else
      pure ret

/-- Body of the loop over the cells in `make_is_dirichlet_vector`; the state is
`(ret, i)`. -/
def dirichlet_cell_step {cell face : Type} (faces : cell → List face)
    (find_element_id : face → Bool × Nat) (is_dirichlet_face : Nat → Bool)
    (st : List Nat × Nat) (cl : cell) : Except fault (List Nat × Nat) := do
  let ret ← (faces cl).foldlM (dirichlet_face_step find_element_id is_dirichlet_face st.2) st.1
  pure (ret, st.2 + 1)

/-- Entry of the vector of `make_is_dirichlet_vector` for a cell: `1` when one of its
faces is a Dirichlet face, `0` otherwise. -/
def dirichlet_entry {cell face : Type} (faces : cell → List face)
    (find_element_id : face → Bool × Nat) (is_dirichlet_face : Nat → Bool) (cl : cell) : Nat :=
  if (faces cl).any (fun fc => is_dirichlet_face (find_element_id fc).2) then 1 else 0

/-- The value of the local variable `ep` in `eval_functions` of the two bases on a
2D-mesh face (monomial and Legendre): `4 * dot(base, pt - face_bar) / (face_h * face_h)`
with `base = face_bar - pts[0]`. -/
def face_ep {K : Type} [Field K] (base face_bar : point2 K) (face_h : K) (pt : point2 K) : K :=
  4 * base.dot (pt.sub face_bar) / (face_h * face_h)

/-- Value at `x` of the polynomial `sum_i l[i] * x^(k+i)` with integer coefficients. -/
def poly_eval {K : Type} [Field K] : List Int → Nat → K → K
  | [], _, _ => 0
  | c :: l, k, x => (c : K) * x ^ k + poly_eval l (k + 1) x

/-- Coefficients of the sum of two polynomials. -/
def poly_add : List Int → List Int → List Int
  | [], b => b
  | a :: as, [] => a :: as
  | x :: a, y :: b => (x + y) :: poly_add a b

/-- Coefficients of the product of two polynomials. -/
def poly_mul : List Int → List Int → List Int
  | [], _ => []
  | c :: a, b => poly_add (b.map (fun y => c * y)) (0 :: poly_mul a b)

/-- The least common multiple of `1, ..., 21`. -/
def INT_SCALE : Int := 232792560

/-- `INT_SCALE` times the integral over `[-1, 1]` of `sum_i l[i] * x^(k+i)`. -/
def poly_int : List Int → Nat → Int
  | [], _ => 0
  | c :: l, k => c * ((1 - (-1) ^ (k + 1)) * (INT_SCALE / ((k : Int) + 1))) + poly_int l (k + 1)

/-- Numerators of the coefficients of the table polynomial of `eval_poly`. -/
def legendre_num : Nat → List Int
  | 0 => [1]
  | 1 => [0, 1]
  | 2 => [-1, 0, 3]
  | 3 => [0, -3, 0, 5]
  | 4 => [3, 0, -30, 0, 35]
  | 5 => [0, 15, 0, -70, 0, 63]
  | 6 => [-5, 0, 105, 0, -315, 0, 231]
  | 7 => [0, -35, 0, 315, 0, -693, 0, 429]
  | 8 => [35, 0, -1260, 0, 6930, 0, -12012, 0, 6435]
  | 9 => [0, 315, 0, -4620, 0, 18018, 0, -25740, 0, 12155]
  | 10 => [-63, 0, 3465, 0, -30030, 0, 90090, 0, -109395, 0, 46189]
  | _ => []

/-- Denominator of the table polynomial of `eval_poly`. -/
def legendre_den : Nat → Int
  | 0 => 1 | 1 => 1 | 2 => 2 | 3 => 2 | 4 => 8 | 5 => 8 | 6 => 16 | 7 => 16 | 8 => 128
  | 9 => 128 | 10 => 256 | _ => 1

/-! ## Proofs: `iexp_pow` and `scalar_basis_size` -/

theorem iexp_pow_loop_spec {K : Type} [Monoid K] (n : Nat) :
    ∀ (x y : K), Commute x y → 0 < n →
      (iexp_pow_loop x y n).1 * (iexp_pow_loop x y n).2 = x ^ n * y := by
  induction n using Nat.strong_induction_on with
  | _ n ih =>
    intro x y hxy hn
    rw [iexp_pow_loop]
    split_ifs with h1 h2
    · have hc : Commute (x * x) y := hxy.mul_left hxy
      rw [ih (n / 2) (by omega) (x * x) y hc (by omega)]
      have : n = 2 * (n / 2) := by omega
      conv_rhs => rw [this, pow_mul, pow_two]
    · have hc : Commute (x * x) (x * y) :=
        ((Commute.refl x).mul_left (Commute.refl x)).mul_right (hxy.mul_left hxy)
      by_cases h3 : (n - 1) / 2 = 0
      · omega
      rw [ih ((n - 1) / 2) (by omega) (x * x) (x * y) hc (by omega)]
      have : n = 2 * ((n - 1) / 2) + 1 := by omega
      conv_rhs => rw [this, pow_succ, pow_mul, pow_two]
      rw [mul_assoc]
    · have : n = 1 := by omega
      subst this
      simp

theorem iexp_pow_eq_pow {K : Type} [Monoid K] (x : K) (n : Nat) : iexp_pow x n = x ^ n := by
  unfold iexp_pow
  split_ifs with h
  · subst h; simp
  · have := iexp_pow_loop_spec n x 1 (Commute.one_right x) (Nat.pos_of_ne_zero h)
    simpa using this

theorem scalar_basis_size_fold (k d : Nat) :
    (List.range' 1 d).foldl (scalar_basis_size_step k) (1, 1)
      = ((∏ i ∈ Finset.Icc 1 d, (k + i)) % SIZE_MOD, d.factorial % SIZE_MOD) := by
  induction d with
  | zero => simp [SIZE_MOD]
  | succ d ih =>
    rw [List.range'_1_concat, List.foldl_append, ih]
    simp only [List.foldl_cons, List.foldl_nil, scalar_basis_size_step]
    rw [Finset.prod_Icc_succ_top (by omega), Nat.factorial_succ]
    congr 1
    · rw [← Nat.mul_mod, add_comm 1 d]
    · rw [Nat.mod_mul_mod, add_comm 1 d, mul_comm]

theorem prod_Icc_eq_factorial_mul_choose (k d : Nat) :
    ∏ i ∈ Finset.Icc 1 d, (k + i) = d.factorial * (k + d).choose d := by
  rw [← Nat.ascFactorial_eq_factorial_mul_choose]
  induction d with
  | zero => simp
  | succ d ih =>
    rw [Finset.prod_Icc_succ_top (by omega), ih, Nat.ascFactorial_succ]
    ring

theorem scalar_basis_size_of_fit (k d : Nat)
    (hfit : ∏ i ∈ Finset.Icc 1 d, (k + i) < SIZE_MOD) :
    scalar_basis_size k d = (k + d).choose d := by
  have hP := prod_Icc_eq_factorial_mul_choose k d
  have hpos : 0 < d.factorial := Nat.factorial_pos d
  have hc : 0 < (k + d).choose d := Nat.choose_pos (by omega)
  have hfac : d.factorial < SIZE_MOD := by
    calc d.factorial ≤ d.factorial * (k + d).choose d := Nat.le_mul_of_pos_right _ hc
      _ < SIZE_MOD := by rw [← hP]; exact hfit
  unfold scalar_basis_size
  simp only [scalar_basis_size_fold, Nat.mod_eq_of_lt hfit, Nat.mod_eq_of_lt hfac]
  rw [hP, Nat.mul_div_cancel_left _ hpos]

/-! ## Proofs: fill loops -/

theorem filled_set {α : Type} (z : α) (n : Nat) (acc : List α) (v : α)
    (h : acc.length < n) :
    ((filled z n acc).1.set acc.length v, acc.length + 1) = filled z n (acc ++ [v]) := by
  unfold filled
  simp only [List.length_append, List.length_singleton, Prod.mk.injEq, and_true]
  rw [List.set_append_right _ _ (le_refl _), Nat.sub_self]
  obtain ⟨m, hm⟩ : ∃ m, n - acc.length = m + 1 := ⟨n - acc.length - 1, by omega⟩
  rw [hm, List.replicate_succ, List.set_cons_zero]
  have : n - (acc.length + 1) = m := by omega
  rw [this]
  simp

theorem fills_vec_write {α : Type} (z v : α) :
    Fills z (fun st => do
      let ret ← vec_write st.1 st.2 v
      pure (ret, st.2 + 1)) [v] := by
  intro n acc hacc
  by_cases h : acc.length < n
  · have hlen : (filled z n acc).2 < (filled z n acc).1.length := by
      simp [filled]; omega
    have h2 : (filled z n acc).2 = acc.length := rfl
    simp only [vec_write, hlen, if_true, List.length_singleton]
    rw [if_pos (by omega)]
    show Except.ok _ = _
    rw [h2, filled_set z n acc v h]
  · have hlen : ¬ (filled z n acc).2 < (filled z n acc).1.length := by
      simp [filled]; omega
    simp only [vec_write, hlen, if_false, List.length_singleton]
    rw [if_neg (by omega)]
    rfl

theorem fills_row_write2 {α : Type} (z : α) (u1 u2 : α → α) :
    Fills z (fun st => do
      let ret ← row_write st.1 st.2 u1
      let ret ← row_write ret st.2 u2
      pure (ret, st.2 + 1)) [u2 (u1 z)] := by
  intro n acc hacc
  have h2 : (filled z n acc).2 = acc.length := rfl
  simp only [h2, List.length_singleton]
  by_cases h : acc.length < n
  · have hget : (filled z n acc).1[acc.length]? = some z := by
      simp only [filled]
      rw [List.getElem?_append_right (le_refl _), Nat.sub_self, List.getElem?_replicate,
        if_pos (by omega)]
    have hlen : acc.length < (filled z n acc).1.length := by
      simp [filled]; omega
    have hget2 : ((filled z n acc).1.set acc.length (u1 z))[acc.length]? = some (u1 z) := by
      rw [List.getElem?_set_self hlen]
    rw [if_pos (by omega)]
    simp only [row_write, hget]
    show (row_write _ _ _ >>= _) = _
    simp only [row_write, hget2]
    show Except.ok _ = _
    rw [List.set_set, filled_set z n acc _ h]
  · have hget : (filled z n acc).1[acc.length]? = none := by
      simp only [filled]
      rw [List.getElem?_append_right (le_refl _), Nat.sub_self, List.getElem?_replicate,
        if_neg (by omega)]
    simp only [row_write, hget]
    rw [if_neg (by omega)]
    rfl

theorem fills_nil {α : Type} (z : α) : Fills z (fun st => pure st) [] := by
  intro n acc hacc
  simp [hacc]
  rfl

theorem fills_bind {α : Type} (z : α) {F G : List α × Nat → Except fault (List α × Nat)}
    {u v : List α} (hF : Fills z F u) (hG : Fills z G v) :
    Fills z (fun st => F st >>= G) (u ++ v) := by
  intro n acc hacc
  simp only [hF n acc hacc]
  by_cases h : acc.length + u.length ≤ n
  · rw [if_pos h]
    show G _ = _
    rw [hG n (acc ++ u) (by simpa using h)]
    simp only [List.length_append, List.append_assoc, Nat.add_assoc]
  · rw [if_neg h, if_neg (by simp only [List.length_append]; omega)]
    rfl

theorem fills_foldlM {α ι : Type} (z : α) (F : ι → List α × Nat → Except fault (List α × Nat))
    (vals : ι → List α) (l : List ι) (h : ∀ a ∈ l, Fills z (F a) (vals a)) :
    Fills z (fun st => l.foldlM (fun st a => F a st) st) (l.flatMap vals) := by
  induction l with
  | nil => simpa using fills_nil z
  | cons a l ih =>
    have h1 := h a (List.mem_cons_self a l)
    have h2 := ih (fun b hb => h b (List.mem_cons_of_mem a hb))
    have := fills_bind z h1 h2
    simpa [List.foldlM_cons, List.flatMap_cons] using this

theorem fills_finish {α : Type} (z : α) {F : List α × Nat → Except fault (List α × Nat)}
    {vals : List α} (hF : Fills z F vals) (n : Nat) :
    (F (List.replicate n z, 0) >>= fun st => finish st n) =
      if vals.length = n then .ok vals else .error fault.assertion_failed := by
  have h0 : (List.replicate n z, 0) = filled z n [] := by simp [filled]
  rw [h0, hF n [] (Nat.zero_le _)]
  simp only [List.length_nil, Nat.zero_add, List.nil_append]
  by_cases h : vals.length ≤ n
  · rw [if_pos h]
    show finish _ n = _
    unfold finish filled
    by_cases h2 : vals.length = n
    · simp [h2]
    · simp [h2]
  · rw [if_neg h, if_neg (by omega)]
    rfl
theorem flatMap_singleton_eq_map {α β : Type} (l : List α) (f : α → β) :
    l.flatMap (fun a => [f a]) = l.map f := by
  induction l with
  | nil => rfl
  | cons a l ih => simp [List.flatMap_cons, ih]

theorem loops2_fills {K : Type} [Field K] (bx by_ : K) (degree : Nat) :
    Fills (0 : K) (fun st0 => (List.range (degree + 1)).foldlM (fun st k =>
      (List.range (k + 1)).foldlM (fun (st : List K × Nat) i => do
        let pow_x := k - i
        let pow_y := i
        let px := iexp_pow bx pow_x
        let py := iexp_pow by_ pow_y
        let ret ← vec_write st.1 st.2 (px * py)
        pure (ret, st.2 + 1)) st) st0)
      ((exponents2 degree).map (fun e => bx ^ e.1 * by_ ^ e.2)) := by
  have h := fills_foldlM (0 : K)
    (fun k st0 => (List.range (k + 1)).foldlM (fun (st : List K × Nat) i => do
        let pow_x := k - i
        let pow_y := i
        let px := iexp_pow bx pow_x
        let py := iexp_pow by_ pow_y
        let ret ← vec_write st.1 st.2 (px * py)
        pure (ret, st.2 + 1)) st0)
    (fun k => (List.range (k + 1)).flatMap (fun i => [bx ^ (k - i) * by_ ^ i]))
    (List.range (degree + 1))
    (fun k _ => by
      have := fills_foldlM (0 : K)
        (fun i (st : List K × Nat) => do
          let ret ← vec_write st.1 st.2 (iexp_pow bx (k - i) * iexp_pow by_ i)
          pure (ret, st.2 + 1))
        (fun i => [bx ^ (k - i) * by_ ^ i]) (List.range (k + 1))
        (fun i _ => by
          simp only [iexp_pow_eq_pow]
          exact fills_vec_write 0 _)
      exact this)
  have e : (exponents2 degree).map (fun e => bx ^ e.1 * by_ ^ e.2)
      = (List.range (degree + 1)).flatMap
          (fun k => (List.range (k + 1)).flatMap (fun i => [bx ^ (k - i) * by_ ^ i])) := by
    simp only [exponents2, List.map_flatMap, List.map_map, flatMap_singleton_eq_map]
    rfl
  rw [e]
  exact h

theorem exponents2_succ (k : Nat) :
    exponents2 (k + 1) = exponents2 k ++ (List.range (k + 2)).map (fun i => (k + 1 - i, i)) := by
  simp [exponents2, List.range_succ (k + 1), List.flatMap_append]

theorem choose_two_succ (n : Nat) : (n + 1).choose 2 = n.choose 2 + n := by
  have h : (n + 1).choose 2 = n.choose 1 + n.choose 2 := Nat.choose_succ_succ' n 1
  rw [Nat.choose_one_right] at h
  omega

theorem length_exponents2 (k : Nat) : (exponents2 k).length = (k + 2).choose 2 := by
  induction k with
  | zero => rfl
  | succ k ih =>
    rw [exponents2_succ, List.length_append, ih, List.length_map, List.length_range,
      choose_two_succ (k + 2)]

theorem choose_two_eq (m : Nat) : (m + 1).choose 2 = m * (m + 1) / 2 := by
  rw [Nat.choose_two_right, Nat.add_sub_cancel, Nat.mul_comm]

theorem getElem_exponents2 (k m i : Nat) (hm : m ≤ k) (hi : i ≤ m) :
    (exponents2 k)[m * (m + 1) / 2 + i]? = some (m - i, i) := by
  induction k with
  | zero =>
    have : m = 0 := by omega
    subst this
    have : i = 0 := by omega
    subst this
    rfl
  | succ k ih =>
    rw [exponents2_succ]
    by_cases h : m ≤ k
    · have hlt : m * (m + 1) / 2 + i < (exponents2 k).length := by
        rw [length_exponents2, ← choose_two_eq]
        have h1 : (m + 1).choose 2 + (m + 1) = (m + 2).choose 2 :=
          (choose_two_succ (m + 1)).symm
        have h2 : (m + 2).choose 2 ≤ (k + 2).choose 2 := Nat.choose_le_choose 2 (by omega)
        omega
      rw [List.getElem?_append_left hlt]
      exact ih h
    · have hmk : m = k + 1 := by omega
      subst hmk
      have hlen : (exponents2 k).length = (k + 1) * (k + 1 + 1) / 2 := by
        rw [length_exponents2, ← choose_two_eq]
      rw [List.getElem?_append_right (by omega), hlen, Nat.add_sub_cancel_left]
      simp only [List.getElem?_map]
      rw [List.getElem?_range (by omega)]
      rfl

namespace scaled_monomial_scalar_basis_cell2

theorem cell2_eval_functions_loops_eq {K : Type} [Field K] (cell_bar : point2 K) (box_h : K × K)
    (k : Nat) (pt : point2 K) :
    eval_functions_loops (make cell_bar box_h k) pt =
      if (k + 2).choose 2 ≤ scalar_basis_size k 2 then
        .ok (filled 0 (scalar_basis_size k 2) ((exponents2 k).map (fun e =>
          ((pt.x - cell_bar.x) / (1 / 2 * box_h.1)) ^ e.1 *
          ((pt.y - cell_bar.y) / (1 / 2 * box_h.2)) ^ e.2)))
      else .error fault.assertion_failed := by
  have h := loops2_fills ((pt.x - cell_bar.x) / (1 / 2 * box_h.1))
    ((pt.y - cell_bar.y) / (1 / 2 * box_h.2)) k (scalar_basis_size k 2) [] (Nat.zero_le _)
  simp only [List.length_nil, Nat.zero_add, List.nil_append, List.length_map,
    length_exponents2] at h
  rw [← h]
  simp [eval_functions_loops, make, filled]

theorem cell2_eval_functions_eq {K : Type} [Field K] (cell_bar : point2 K) (box_h : K × K)
    (k : Nat) (pt : point2 K) :
    eval_functions (make cell_bar box_h k) pt =
      if (k + 2).choose 2 = scalar_basis_size k 2 then
        .ok ((exponents2 k).map (fun e =>
          ((pt.x - cell_bar.x) / (1 / 2 * box_h.1)) ^ e.1 *
          ((pt.y - cell_bar.y) / (1 / 2 * box_h.2)) ^ e.2))
      else .error fault.assertion_failed := by
  have h := fills_finish (0 : K) (loops2_fills ((pt.x - cell_bar.x) / (1 / 2 * box_h.1))
    ((pt.y - cell_bar.y) / (1 / 2 * box_h.2)) k) (scalar_basis_size k 2)
  simp only [List.length_map, length_exponents2] at h
  rw [← h]
  simp [eval_functions, eval_functions_loops, make]

end scaled_monomial_scalar_basis_cell2

theorem loop_yz_eq_foldlM {σ : Type} (body : Nat → Nat → σ → Except fault σ) (n : Nat) :
    ∀ (pow_y pow_z : Nat) (st : σ), n ≤ pow_z + 1 → pow_z < SIZE_MOD →
      loop_yz body n pow_y pow_z st =
        (List.range n).foldlM (fun st j => body (pow_y + j) (pow_z - j) st) st := by
  induction n with
  | zero => intro pow_y pow_z st _ _; rfl
  | succ n ih =>
    intro pow_y pow_z st h1 h2
    rw [List.range_succ_eq_map, List.foldlM_cons, loop_yz]
    simp only [Nat.add_zero, Nat.sub_zero, List.foldlM_map]
    congr 1
    funext st1
    by_cases hn : n = 0
    · subst hn; rfl
    · have hz : (pow_z + SIZE_MOD - 1) % SIZE_MOD = pow_z - 1 := by
        have : pow_z + SIZE_MOD - 1 = pow_z - 1 + SIZE_MOD := by omega
        rw [this, Nat.add_mod_right, Nat.mod_eq_of_lt (by omega)]
      rw [hz, ih (pow_y + 1) (pow_z - 1) st1 (by omega) (by omega)]
      have hf : (fun st j => body (pow_y + 1 + j) (pow_z - 1 - j) st)
          = (fun st j => body (pow_y + (j + 1)) (pow_z - (j + 1)) st) := by
        funext st2 j
        have e1 : pow_y + 1 + j = pow_y + (j + 1) := by omega
        have e2 : pow_z - 1 - j = pow_z - (j + 1) := by omega
        rw [e1, e2]
      rw [hf]

theorem length_block3 (m : Nat) : (block3 m).length = (m + 2).choose 2 := by
  have h : ∀ n, n ≤ m →
      ((List.range (n + 1)).flatMap (fun px =>
        (List.range (m - px + 1)).map (fun py => (px, py, m - px - py)))).length
        + (m - n + 1).choose 2 = (m + 2).choose 2 := by
    intro n
    induction n with
    | zero =>
      intro _
      have e : (m + 2).choose 2 = (m + 1).choose 2 + (m + 1) := choose_two_succ (m + 1)
      have r1 : List.range (0 + 1) = [0] := rfl
      rw [r1]
      simp only [List.flatMap_cons, List.flatMap_nil,
        List.append_nil, List.length_map, List.length_range, Nat.sub_zero]
      omega
    | succ n ih =>
      intro hn
      have := ih (by omega)
      rw [List.range_succ, List.flatMap_append, List.length_append]
      simp only [List.flatMap_cons, List.flatMap_nil, List.append_nil, List.length_map,
        List.length_range]
      have e : m - n + 1 = (m - (n + 1) + 1) + 1 := by omega
      rw [e, choose_two_succ] at this
      omega
  have := h m (le_refl _)
  simpa [block3] using this

theorem exponents3_succ (k : Nat) : exponents3 (k + 1) = exponents3 k ++ block3 (k + 1) := by
  simp [exponents3, List.range_succ (k + 1), List.flatMap_append]

theorem choose_three_succ (n : Nat) : (n + 1).choose 3 = n.choose 2 + n.choose 3 :=
  Nat.choose_succ_succ' n 2

theorem length_exponents3 (k : Nat) : (exponents3 k).length = (k + 3).choose 3 := by
  induction k with
  | zero => rfl
  | succ k ih =>
    rw [exponents3_succ, List.length_append, ih, length_block3, choose_three_succ (k + 3),
      Nat.add_comm]

theorem fills_congr {α : Type} (z : α) {F G : List α × Nat → Except fault (List α × Nat)}
    {vals : List α} (h : ∀ st, F st = G st) (hG : Fills z G vals) : Fills z F vals := by
  intro n acc hacc
  rw [h]
  exact hG n acc hacc

theorem loops3_fills {K : Type} [Field K] (bx by_ bz : K) (degree : Nat)
    (hdeg : degree < SIZE_MOD) :
    Fills (0 : K) (fun st0 => (List.range (degree + 1)).foldlM (fun st k =>
      (List.range (k + 1)).foldlM (fun st pow_x =>
        loop_yz (fun pow_y pow_z (st : List K × Nat) => do
          let px := iexp_pow bx pow_x
          let py := iexp_pow by_ pow_y
          let pz := iexp_pow bz pow_z
          let ret ← vec_write st.1 st.2 (px * py * pz)
          pure (ret, st.2 + 1)) (k - pow_x + 1) 0 (k - pow_x) st) st) st0)
      ((exponents3 degree).map (fun e => bx ^ e.1 * by_ ^ e.2.1 * bz ^ e.2.2)) := by
  have e : (exponents3 degree).map (fun e => bx ^ e.1 * by_ ^ e.2.1 * bz ^ e.2.2)
      = (List.range (degree + 1)).flatMap (fun k => (List.range (k + 1)).flatMap (fun px =>
          (List.range (k - px + 1)).flatMap (fun py =>
            [bx ^ px * by_ ^ py * bz ^ (k - px - py)]))) := by
    simp only [exponents3, block3, List.map_flatMap, List.map_map, flatMap_singleton_eq_map]
    rfl
  rw [e]
  refine fills_foldlM (0 : K) _ _ _ (fun k hk => ?_)
  refine fills_foldlM (0 : K) _ _ _ (fun px hpx => ?_)
  have hk' : k < degree + 1 := List.mem_range.mp hk
  refine fills_congr 0 (fun st => loop_yz_eq_foldlM _ _ 0 (k - px) st (le_refl _)
    (by omega)) ?_
  refine fills_foldlM (0 : K) _ _ _ (fun py _ => ?_)
  simp only [iexp_pow_eq_pow, Nat.zero_add]
  exact fills_vec_write 0 _

theorem fills_row_write3 {α : Type} (z : α) (u1 u2 u3 : α → α) :
    Fills z (fun st => do
      let ret ← row_write st.1 st.2 u1
      let ret ← row_write ret st.2 u2
      let ret ← row_write ret st.2 u3
      pure (ret, st.2 + 1)) [u3 (u2 (u1 z))] := by
  intro n acc hacc
  have h2 : (filled z n acc).2 = acc.length := rfl
  simp only [h2, List.length_singleton]
  by_cases h : acc.length < n
  · have hget : (filled z n acc).1[acc.length]? = some z := by
      simp only [filled]
      rw [List.getElem?_append_right (le_refl _), Nat.sub_self, List.getElem?_replicate,
        if_pos (by omega)]
    have hlen : acc.length < (filled z n acc).1.length := by
      simp [filled]; omega
    have hget2 : ((filled z n acc).1.set acc.length (u1 z))[acc.length]? = some (u1 z) := by
      rw [List.getElem?_set_self hlen]
    have hget3 : ((filled z n acc).1.set acc.length (u2 (u1 z)))[acc.length]?
        = some (u2 (u1 z)) := by
      rw [List.getElem?_set_self hlen]
    rw [if_pos (by omega)]
    simp only [row_write, hget]
    show (row_write _ _ _ >>= _) = _
    simp only [row_write, hget2]
    show (row_write _ _ _ >>= _) = _
    rw [List.set_set]
    simp only [row_write, hget3]
    show Except.ok _ = _
    rw [List.set_set, filled_set z n acc _ h]
  · have hget : (filled z n acc).1[acc.length]? = none := by
      simp only [filled]
      rw [List.getElem?_append_right (le_refl _), Nat.sub_self, List.getElem?_replicate,
        if_neg (by omega)]
    simp only [row_write, hget]
    rw [if_neg (by omega)]
    rfl

theorem grad_loops2_fills {K : Type} [Field K] (ihx ihy bx by_ : K) (degree : Nat) :
    Fills ((0, 0) : K × K) (fun st0 => (List.range (degree + 1)).foldlM (fun st k =>
      (List.range (k + 1)).foldlM (fun (st : List (K × K) × Nat) i => do
        let pow_x := k - i
        let pow_y := i
        let px := iexp_pow bx pow_x
        let py := iexp_pow by_ pow_y
        let dx := if pow_x = 0 then 0 else (pow_x : K) * ihx * iexp_pow bx (pow_x - 1)
        let dy := if pow_y = 0 then 0 else (pow_y : K) * ihy * iexp_pow by_ (pow_y - 1)
        let ret ← row_write st.1 st.2 (fun r => (dx * py, r.2))
        let ret ← row_write ret st.2 (fun r => (r.1, px * dy))
        pure (ret, st.2 + 1)) st) st0)
      ((exponents2 degree).map (gradient2 ihx ihy bx by_)) := by
  have e : (exponents2 degree).map (gradient2 ihx ihy bx by_)
      = (List.range (degree + 1)).flatMap (fun k => (List.range (k + 1)).flatMap (fun i =>
          [gradient2 ihx ihy bx by_ (k - i, i)])) := by
    simp only [exponents2, List.map_flatMap, List.map_map, flatMap_singleton_eq_map]
    rfl
  rw [e]
  refine fills_foldlM _ _ _ _ (fun k _ => ?_)
  refine fills_foldlM _ _ _ _ (fun i _ => ?_)
  simp only [iexp_pow_eq_pow]
  exact fills_row_write2 (0, 0) _ _

theorem grad_loops3_fills {K : Type} [Field K] (ihx ihy ihz bx by_ bz : K) (degree : Nat)
    (hdeg : degree < SIZE_MOD) :
    Fills ((0, 0, 0) : K × K × K) (fun st0 => (List.range (degree + 1)).foldlM (fun st k =>
      (List.range (k + 1)).foldlM (fun st pow_x =>
        loop_yz (fun pow_y pow_z (st : List (K × K × K) × Nat) => do
          let px := iexp_pow bx pow_x
          let py := iexp_pow by_ pow_y
          let pz := iexp_pow bz pow_z
          let dx := if pow_x = 0 then 0 else (pow_x : K) * ihx * iexp_pow bx (pow_x - 1)
          let dy := if pow_y = 0 then 0 else (pow_y : K) * ihy * iexp_pow by_ (pow_y - 1)
          let dz := if pow_z = 0 then 0 else (pow_z : K) * ihz * iexp_pow bz (pow_z - 1)
          let ret ← row_write st.1 st.2 (fun r => (dx * py * pz, r.2))
          let ret ← row_write ret st.2 (fun r => (r.1, px * dy * pz, r.2.2))
          let ret ← row_write ret st.2 (fun r => (r.1, r.2.1, px * py * dz))
          pure (ret, st.2 + 1)) (k - pow_x + 1) 0 (k - pow_x) st) st) st0)
      ((exponents3 degree).map (gradient3 ihx ihy ihz bx by_ bz)) := by
  have e : (exponents3 degree).map (gradient3 ihx ihy ihz bx by_ bz)
      = (List.range (degree + 1)).flatMap (fun k => (List.range (k + 1)).flatMap (fun px =>
          (List.range (k - px + 1)).flatMap (fun py =>
            [gradient3 ihx ihy ihz bx by_ bz (px, py, k - px - py)]))) := by
    simp only [exponents3, block3, List.map_flatMap, List.map_map, flatMap_singleton_eq_map]
    rfl
  rw [e]
  refine fills_foldlM _ _ _ _ (fun k hk => ?_)
  refine fills_foldlM _ _ _ _ (fun px hpx => ?_)
  have hk' : k < degree + 1 := List.mem_range.mp hk
  refine fills_congr _ (fun st => loop_yz_eq_foldlM _ _ 0 (k - px) st (le_refl _)
    (by omega)) ?_
  refine fills_foldlM _ _ _ _ (fun py _ => ?_)
  simp only [iexp_pow_eq_pow, Nat.zero_add]
  exact fills_row_write3 (0, 0, 0) _ _ _

theorem scalar_basis_size_two (k : Nat) (hfit : (k + 1) * (k + 2) < SIZE_MOD) :
    scalar_basis_size k 2 = (k + 2).choose 2 := by
  apply scalar_basis_size_of_fit
  have : ∏ i ∈ Finset.Icc 1 2, (k + i) = (k + 1) * (k + 2) := by
    rw [Finset.prod_Icc_succ_top (by omega)]
    simp
  rw [this]; exact hfit

theorem scalar_basis_size_three (k : Nat) (hfit : (k + 1) * (k + 2) * (k + 3) < SIZE_MOD) :
    scalar_basis_size k 3 = (k + 3).choose 3 := by
  apply scalar_basis_size_of_fit
  have : ∏ i ∈ Finset.Icc 1 3, (k + i) = (k + 1) * (k + 2) * (k + 3) := by
    rw [Finset.prod_Icc_succ_top (by omega), Finset.prod_Icc_succ_top (by omega)]
    simp
  rw [this]; exact hfit

namespace scaled_monomial_scalar_basis_cell2

theorem cell2_eval_gradients_loops_eq {K : Type} [Field K] (cell_bar : point2 K) (box_h : K × K)
    (k : Nat) (pt : point2 K) :
    eval_gradients_loops (make cell_bar box_h k) pt =
      if (k + 2).choose 2 ≤ scalar_basis_size k 2 then
        .ok (filled (0, 0) (scalar_basis_size k 2) ((exponents2 k).map
          (gradient2 (2 / box_h.1) (2 / box_h.2)
            ((pt.x - cell_bar.x) / (1 / 2 * box_h.1))
            ((pt.y - cell_bar.y) / (1 / 2 * box_h.2)))))
      else .error fault.assertion_failed := by
  have h := grad_loops2_fills (2 / box_h.1) (2 / box_h.2)
    ((pt.x - cell_bar.x) / (1 / 2 * box_h.1))
    ((pt.y - cell_bar.y) / (1 / 2 * box_h.2)) k (scalar_basis_size k 2) [] (Nat.zero_le _)
  simp only [List.length_nil, Nat.zero_add, List.nil_append, List.length_map,
    length_exponents2] at h
  rw [← h]
  simp [eval_gradients_loops, make, filled]

theorem cell2_eval_gradients_eq {K : Type} [Field K] (cell_bar : point2 K) (box_h : K × K)
    (k : Nat) (pt : point2 K) :
    eval_gradients (make cell_bar box_h k) pt =
      if (k + 2).choose 2 = scalar_basis_size k 2 then
        .ok ((exponents2 k).map
          (gradient2 (2 / box_h.1) (2 / box_h.2)
            ((pt.x - cell_bar.x) / (1 / 2 * box_h.1))
            ((pt.y - cell_bar.y) / (1 / 2 * box_h.2))))
      else .error fault.assertion_failed := by
  have h := fills_finish ((0, 0) : K × K) (grad_loops2_fills (2 / box_h.1) (2 / box_h.2)
    ((pt.x - cell_bar.x) / (1 / 2 * box_h.1))
    ((pt.y - cell_bar.y) / (1 / 2 * box_h.2)) k) (scalar_basis_size k 2)
  simp only [List.length_map, length_exponents2] at h
  rw [← h]
  simp [eval_gradients, eval_gradients_loops, make]

end scaled_monomial_scalar_basis_cell2

namespace scaled_monomial_scalar_basis_cell3

theorem cell3_eval_functions_loops_eq {K : Type} [Field K] (cell_bar : point3 K) (box_h : K × K × K)
    (k : Nat) (hk : k < SIZE_MOD) (pt : point3 K) :
    eval_functions_loops (make cell_bar box_h k) pt =
      if (k + 3).choose 3 ≤ scalar_basis_size k 3 then
        .ok (filled 0 (scalar_basis_size k 3) ((exponents3 k).map (fun e =>
          ((pt.x - cell_bar.x) / (1 / 2 * box_h.1)) ^ e.1 *
          ((pt.y - cell_bar.y) / (1 / 2 * box_h.2.1)) ^ e.2.1 *
          ((pt.z - cell_bar.z) / (1 / 2 * box_h.2.2)) ^ e.2.2)))
      else .error fault.assertion_failed := by
  have h := loops3_fills ((pt.x - cell_bar.x) / (1 / 2 * box_h.1))
    ((pt.y - cell_bar.y) / (1 / 2 * box_h.2.1))
    ((pt.z - cell_bar.z) / (1 / 2 * box_h.2.2)) k hk (scalar_basis_size k 3) []
    (Nat.zero_le _)
  simp only [List.length_nil, Nat.zero_add, List.nil_append, List.length_map,
    length_exponents3] at h
  rw [← h]
  simp [eval_functions_loops, make, filled]

theorem cell3_eval_functions_eq {K : Type} [Field K] (cell_bar : point3 K) (box_h : K × K × K)
    (k : Nat) (hk : k < SIZE_MOD) (pt : point3 K) :
    eval_functions (make cell_bar box_h k) pt =
      if (k + 3).choose 3 = scalar_basis_size k 3 then
        .ok ((exponents3 k).map (fun e =>
          ((pt.x - cell_bar.x) / (1 / 2 * box_h.1)) ^ e.1 *
          ((pt.y - cell_bar.y) / (1 / 2 * box_h.2.1)) ^ e.2.1 *
          ((pt.z - cell_bar.z) / (1 / 2 * box_h.2.2)) ^ e.2.2))
      else .error fault.assertion_failed := by
  have h := fills_finish (0 : K) (loops3_fills ((pt.x - cell_bar.x) / (1 / 2 * box_h.1))
    ((pt.y - cell_bar.y) / (1 / 2 * box_h.2.1))
    ((pt.z - cell_bar.z) / (1 / 2 * box_h.2.2)) k hk) (scalar_basis_size k 3)
  simp only [List.length_map, length_exponents3] at h
  rw [← h]
  simp [eval_functions, eval_functions_loops, make]

theorem cell3_eval_gradients_loops_eq {K : Type} [Field K] (cell_bar : point3 K) (box_h : K × K × K)
    (k : Nat) (hk : k < SIZE_MOD) (pt : point3 K) :
    eval_gradients_loops (make cell_bar box_h k) pt =
      if (k + 3).choose 3 ≤ scalar_basis_size k 3 then
        .ok (filled (0, 0, 0) (scalar_basis_size k 3) ((exponents3 k).map
          (gradient3 (2 / box_h.1) (2 / box_h.2.1) (2 / box_h.2.2)
            ((pt.x - cell_bar.x) / (1 / 2 * box_h.1))
            ((pt.y - cell_bar.y) / (1 / 2 * box_h.2.1))
            ((pt.z - cell_bar.z) / (1 / 2 * box_h.2.2)))))
      else .error fault.assertion_failed := by
  have h := grad_loops3_fills (2 / box_h.1) (2 / box_h.2.1) (2 / box_h.2.2)
    ((pt.x - cell_bar.x) / (1 / 2 * box_h.1))
    ((pt.y - cell_bar.y) / (1 / 2 * box_h.2.1))
    ((pt.z - cell_bar.z) / (1 / 2 * box_h.2.2)) k hk (scalar_basis_size k 3) []
    (Nat.zero_le _)
  simp only [List.length_nil, Nat.zero_add, List.nil_append, List.length_map,
    length_exponents3] at h
  rw [← h]
  simp [eval_gradients_loops, make, filled]

theorem cell3_eval_gradients_eq {K : Type} [Field K] (cell_bar : point3 K) (box_h : K × K × K)
    (k : Nat) (hk : k < SIZE_MOD) (pt : point3 K) :
    eval_gradients (make cell_bar box_h k) pt =
      if (k + 3).choose 3 = scalar_basis_size k 3 then
        .ok ((exponents3 k).map
          (gradient3 (2 / box_h.1) (2 / box_h.2.1) (2 / box_h.2.2)
            ((pt.x - cell_bar.x) / (1 / 2 * box_h.1))
            ((pt.y - cell_bar.y) / (1 / 2 * box_h.2.1))
            ((pt.z - cell_bar.z) / (1 / 2 * box_h.2.2))))
      else .error fault.assertion_failed := by
  have h := fills_finish ((0, 0, 0) : K × K × K)
    (grad_loops3_fills (2 / box_h.1) (2 / box_h.2.1) (2 / box_h.2.2)
    ((pt.x - cell_bar.x) / (1 / 2 * box_h.1))
    ((pt.y - cell_bar.y) / (1 / 2 * box_h.2.1))
    ((pt.z - cell_bar.z) / (1 / 2 * box_h.2.2)) k hk) (scalar_basis_size k 3)
  simp only [List.length_map, length_exponents3] at h
  rw [← h]
  simp [eval_gradients, eval_gradients_loops, make]

end scaled_monomial_scalar_basis_cell3

namespace scaled_monomial_scalar_basis_face3

theorem face3_eval_functions_loops_eq {K : Type} [LinearOrderedField K]
    (b : scaled_monomial_scalar_basis_face3 K) (pt : point3 K) :
    eval_functions_loops b pt =
      if (b.basis_degree + 2).choose 2 ≤ b.basis_size then
        .ok (filled 0 b.basis_size ((exponents2 b.basis_degree).map (fun e =>
          (b.base.map_face_point_3d_to_2d pt).x ^ e.1 *
          (b.base.map_face_point_3d_to_2d pt).y ^ e.2)))
      else .error fault.assertion_failed := by
  have h := loops2_fills (b.base.map_face_point_3d_to_2d pt).x
    (b.base.map_face_point_3d_to_2d pt).y b.basis_degree b.basis_size [] (Nat.zero_le _)
  simp only [List.length_nil, Nat.zero_add, List.nil_append, List.length_map,
    length_exponents2] at h
  rw [← h]
  simp [eval_functions_loops, filled]

theorem face3_eval_functions_eq {K : Type} [LinearOrderedField K]
    (b : scaled_monomial_scalar_basis_face3 K) (pt : point3 K) :
    eval_functions b pt =
      if (b.basis_degree + 2).choose 2 = b.basis_size then
        .ok ((exponents2 b.basis_degree).map (fun e =>
          (b.base.map_face_point_3d_to_2d pt).x ^ e.1 *
          (b.base.map_face_point_3d_to_2d pt).y ^ e.2))
      else .error fault.assertion_failed := by
  have h := fills_finish (0 : K) (loops2_fills (b.base.map_face_point_3d_to_2d pt).x
    (b.base.map_face_point_3d_to_2d pt).y b.basis_degree) b.basis_size
  simp only [List.length_map, length_exponents2] at h
  rw [← h]
  simp [eval_functions, eval_functions_loops]

theorem face3_make_ok {K : Type} [LinearOrderedField K] (sqrt : K → K) (face_bar : point3 K)
    (face_h : K) (pts : List (point3 K)) (degree : Nat)
    (b : scaled_monomial_scalar_basis_face3 K)
    (h : make sqrt face_bar face_h pts degree = .ok b) :
    b.basis_degree = degree ∧ b.basis_size = scalar_basis_size degree 2 ∧
      b.base.face_bar = face_bar ∧ b.face_bar = face_bar ∧ b.face_h = face_h := by
  unfold make scaled_monomial_abstract_face_basis.make at h
  cases hc : scaled_monomial_abstract_face_basis.compute_axis sqrt pts with
  | error e => rw [hc] at h; cases h
  | ok e =>
    rw [hc] at h
    cases h
    exact ⟨rfl, rfl, rfl, rfl, rfl⟩

end scaled_monomial_scalar_basis_face3

theorem except_ok_bind {ε α β : Type} (a : α) (f : α → Except ε β) :
    (Except.ok a >>= f) = f a := rfl

namespace scaled_monomial_scalar_basis_face2

theorem face2_eval_functions_fold {K : Type} [Field K] (ep : K) (N n : Nat) :
    (List.range n).foldlM (fun (ret : List K) i => do
      let bv := iexp_pow ep i
      vec_write ret i bv) (List.replicate N 0) =
      if n ≤ N then .ok ((List.range n).map (fun i => ep ^ i) ++ List.replicate (N - n) 0)
      else .error fault.assertion_failed := by
  induction n with
  | zero => simp; rfl
  | succ n ih =>
    rw [List.range_succ, List.foldlM_append, ih]
    by_cases h : n + 1 ≤ N
    · rw [if_pos (by omega), if_pos h, except_ok_bind]
      simp only [List.foldlM_cons, List.foldlM_nil, iexp_pow_eq_pow]
      have hset := filled_set (0 : K) N ((List.range n).map (fun i => ep ^ i)) (ep ^ n)
        (by simpa using h)
      simp only [filled, List.length_map, List.length_range, Prod.mk.injEq] at hset
      have hlen : n < ((List.range n).map (fun i => ep ^ i) ++ List.replicate (N - n) 0).length := by
        simp; omega
      simp only [vec_write, hlen, if_true, List.map_append, List.map_cons, List.map_nil]
      show Except.ok _ = _
      rw [hset.1, List.length_append, List.length_map, List.length_range]
      rfl
    · rw [if_neg h]
      by_cases h2 : n ≤ N
      · rw [if_pos h2, except_ok_bind]
        have hlen : ¬ n < ((List.range n).map (fun i => ep ^ i) ++ List.replicate (N - n) 0).length := by
          simp; omega
        simp only [List.foldlM_cons, List.foldlM_nil, vec_write, hlen, if_false]
        rfl
      · rw [if_neg h2]
        rfl

theorem face2_eval_functions_eq {K : Type} [Field K] (b : scaled_monomial_scalar_basis_face2 K)
    (pt : point2 K) :
    eval_functions b pt =
      if b.basis_degree + 1 ≤ b.basis_size then
        .ok ((List.range (b.basis_degree + 1)).map
            (fun i => (4 * b.base.dot (pt.sub b.face_bar) / (b.face_h * b.face_h)) ^ i)
          ++ List.replicate (b.basis_size - (b.basis_degree + 1)) 0)
      else .error fault.assertion_failed := by
  unfold eval_functions
  exact face2_eval_functions_fold _ _ _

end scaled_monomial_scalar_basis_face2

theorem scalar_basis_size_wrapped : scalar_basis_size (2 ^ 32) 2 = 6442450945 := by decide

theorem choose_two_wrapped : (2 ^ 32 + 2).choose 2 = 9223372043297226753 := by
  rw [choose_two_eq]; norm_num

/-! ## Claims -/

/-- C1: for a dimension `d` in `{1, 2, 3}` and every degree `k` whose product
`(k+1)(k+2)...(k+d)` fits the unsigned word, the loop of `scalar_basis_size` ends with
`num` equal to that product and `den` equal to `d!`, `d!` divides the product (the
division `num / den` is exact), and the function returns the binomial coefficient
`C(k+d, d)`; in particular `scalar_basis_size(2,2) = 6` and `scalar_basis_size(3,3) = 20`. -/
theorem scalar_basis_size_eq_choose (k d : Nat) (hd : d = 1 ∨ d = 2 ∨ d = 3)
    (hfit : ∏ i ∈ Finset.Icc 1 d, (k + i) < SIZE_MOD) :
    scalar_basis_size k d = (k + d).choose d ∧
    (List.range' 1 d).foldl (scalar_basis_size_step k) (1, 1)
      = (∏ i ∈ Finset.Icc 1 d, (k + i), d.factorial) ∧
    d.factorial ∣ ∏ i ∈ Finset.Icc 1 d, (k + i) ∧
    scalar_basis_size 2 2 = 6 ∧ scalar_basis_size 3 3 = 20 := by
  have hP := prod_Icc_eq_factorial_mul_choose k d
  have hfac : d.factorial < SIZE_MOD := by
    rcases hd with rfl | rfl | rfl <;> decide
  refine ⟨scalar_basis_size_of_fit k d hfit, ?_, ⟨(k + d).choose d, hP⟩, by decide, by decide⟩
  rw [scalar_basis_size_fold, Nat.mod_eq_of_lt hfit, Nat.mod_eq_of_lt hfac]

theorem scalar_basis_size_eq_choose_witness :
    (∏ i ∈ Finset.Icc 1 3, (4 + i) < SIZE_MOD) ∧ scalar_basis_size 4 3 = (4 + 3).choose 3 :=
  ⟨by decide, (scalar_basis_size_eq_choose 4 3 (by decide) (by decide)).1⟩

/-- C2: for every element `x` of a commutative ring and every natural number `n`,
`iexp_pow x n` (a total function: its squaring loop halves `n` at each turn) equals
`x ^ n`; in particular `iexp_pow x 0 = 1` for every `x`, also for `x = 0`. -/
theorem iexp_pow_correct {R : Type} [CommRing R] (x : R) (n : Nat) :
    iexp_pow x n = x ^ n ∧ iexp_pow x 0 = 1 ∧ iexp_pow (0 : R) 0 = 1 :=
  ⟨iexp_pow_eq_pow x n, by rw [iexp_pow_eq_pow, pow_zero], by rw [iexp_pow_eq_pow, pow_zero]⟩

/-- C3, as stated, fails when the size wraps: for degree `2^32` the constructor stores
`basis_size = 6442450945`, the loops of `eval_functions` run into the index check, and no
vector is returned whose entry at position `m(m+1)/2 + i` (here `m = 2^32`, `i = 0`) is
`bx^(m-i) * by^i`. -/
theorem cell2_eval_functions_order_counterexample :
    ¬ ∃ v : List ℚ,
      scaled_monomial_scalar_basis_cell2.eval_functions
        (scaled_monomial_scalar_basis_cell2.make ⟨0, 0⟩ (2, 2) (2 ^ 32)) ⟨1, 1⟩ = .ok v ∧
      v[2 ^ 32 * (2 ^ 32 + 1) / 2 + 0]? =
        some (((1 - 0) / (1 / 2 * 2) : ℚ) ^ (2 ^ 32 - 0) * ((1 - 0) / (1 / 2 * 2)) ^ 0) := by
  rintro ⟨v, hv, -⟩
  rw [scaled_monomial_scalar_basis_cell2.cell2_eval_functions_eq, scalar_basis_size_wrapped,
    choose_two_wrapped] at hv
  simp at hv

/-- C3 (amended): for the 2D cell basis of a degree `k` with `(k+1)(k+2)` inside the
unsigned word and non-zero bounding-box extents, at every point `pt`, `eval_functions`
returns a vector of `C(k+2, 2)` entries whose entry at position `m(m+1)/2 + i`, for all
`0 <= i <= m <= k`, is `bx^(m-i) * by^i`, with `bx = (pt.x - bar.x)/(0.5*box_h[0])` and
`by = (pt.y - bar.y)/(0.5*box_h[1])`. -/
theorem cell2_eval_functions_order {K : Type} [Field K] (cell_bar : point2 K) (box_h : K × K)
    (k : Nat) (pt : point2 K) (_hx : box_h.1 ≠ 0) (_hy : box_h.2 ≠ 0)
    (hfit : (k + 1) * (k + 2) < SIZE_MOD) :
    ∃ v, scaled_monomial_scalar_basis_cell2.eval_functions
        (scaled_monomial_scalar_basis_cell2.make cell_bar box_h k) pt = .ok v ∧
      v.length = (k + 2).choose 2 ∧
      ∀ m i, i ≤ m → m ≤ k →
        v[m * (m + 1) / 2 + i]? =
          some (((pt.x - cell_bar.x) / (1 / 2 * box_h.1)) ^ (m - i) *
                ((pt.y - cell_bar.y) / (1 / 2 * box_h.2)) ^ i) := by
  refine ⟨(exponents2 k).map (fun e => ((pt.x - cell_bar.x) / (1 / 2 * box_h.1)) ^ e.1 *
    ((pt.y - cell_bar.y) / (1 / 2 * box_h.2)) ^ e.2), ?_, ?_, ?_⟩
  · rw [scaled_monomial_scalar_basis_cell2.cell2_eval_functions_eq,
      if_pos (scalar_basis_size_two k hfit).symm]
  · rw [List.length_map, length_exponents2]
  · intro m i hi hm
    rw [List.getElem?_map, getElem_exponents2 k m i hm hi]
    rfl

theorem cell2_eval_functions_order_witness :
    ∃ v : List ℚ, scaled_monomial_scalar_basis_cell2.eval_functions
        (scaled_monomial_scalar_basis_cell2.make ⟨0, 0⟩ (2, 2) 2) ⟨2, 3⟩ = .ok v ∧
      v.length = (2 + 2).choose 2 ∧
      ∀ m i, i ≤ m → m ≤ 2 →
        v[m * (m + 1) / 2 + i]? =
          some (((2 - 0) / (1 / 2 * 2) : ℚ) ^ (m - i) * ((3 - 0) / (1 / 2 * 2)) ^ i) :=
  cell2_eval_functions_order ⟨0, 0⟩ (2, 2) 2 ⟨2, 3⟩ (by norm_num) (by norm_num) (by decide)

theorem mem_block3 (m : Nat) (e : Nat × Nat × Nat) :
    e ∈ block3 m ↔ e.1 + e.2.1 + e.2.2 = m := by
  obtain ⟨a, b, c⟩ := e
  simp only [block3, List.mem_flatMap, List.mem_map, List.mem_range, Prod.mk.injEq]
  constructor
  · rintro ⟨px, hpx, py, hpy, rfl, rfl, rfl⟩
    omega
  · intro h
    exact ⟨a, by omega, b, by omega, rfl, rfl, by omega⟩

theorem nodup_block3 (m : Nat) : (block3 m).Nodup := by
  unfold block3
  rw [List.nodup_flatMap]
  refine ⟨fun px _ => ?_, ?_⟩
  · refine (List.nodup_range _).map ?_
    intro a b h
    simp only [Prod.mk.injEq] at h
    exact h.2.1
  · refine (List.nodup_range _).pairwise_of_forall_ne ?_
    intro a _ b _ hab
    simp only [Function.onFun, List.disjoint_left, List.mem_map, List.mem_range]
    rintro e ⟨py, _, rfl⟩ ⟨py2, _, h⟩
    simp only [Prod.mk.injEq] at h
    exact hab h.1.symm

theorem block3_head (m : Nat) : (block3 m)[0]? = some (0, 0, m) := by
  unfold block3
  rw [List.range_succ_eq_map, List.flatMap_cons, List.getElem?_append_left (by simp)]
  simp [List.range_succ_eq_map]

theorem block3_last (m : Nat) : (block3 m)[(m + 2).choose 2 - 1]? = some (m, 0, 0) := by
  have hlen := length_block3 m
  unfold block3 at hlen ⊢
  rw [List.range_succ, List.flatMap_append] at hlen ⊢
  simp only [List.flatMap_cons, List.flatMap_nil, List.append_nil, Nat.sub_self, Nat.zero_add,
    List.length_append, List.length_map, List.length_range] at hlen ⊢
  rw [List.getElem?_append_right (by omega)]
  have : (m + 2).choose 2 - 1 - ((List.range m).flatMap fun px =>
      List.map (fun py => (px, py, m - px - py)) (List.range (m - px + 1))).length = 0 := by
    omega
  rw [this]
  rfl

theorem getElem_exponents3_block (k m j : Nat) (hm : m ≤ k) (hj : j < (m + 2).choose 2) :
    (exponents3 k)[(m + 2).choose 3 + j]? = (block3 m)[j]? := by
  induction k with
  | zero =>
    have : m = 0 := by omega
    subst this
    have r1 : List.range (0 + 1) = [0] := rfl
    simp [exponents3, r1]
  | succ k ih =>
    rw [exponents3_succ]
    by_cases h : m ≤ k
    · have hlt : (m + 2).choose 3 + j < (exponents3 k).length := by
        rw [length_exponents3]
        have h1 : (m + 3).choose 3 = (m + 2).choose 2 + (m + 2).choose 3 :=
          choose_three_succ (m + 2)
        have h2 : (m + 3).choose 3 ≤ (k + 3).choose 3 := Nat.choose_le_choose 3 (by omega)
        omega
      rw [List.getElem?_append_left hlt]
      exact ih h
    · have hmk : m = k + 1 := by omega
      subst hmk
      have e3 : (k + 1 + 2).choose 3 = (k + 3).choose 3 := rfl
      rw [List.getElem?_append_right (by rw [length_exponents3, e3]; omega),
        length_exponents3, e3, Nat.add_sub_cancel_left]

theorem lt_of_fit_three (k : Nat) (hfit : (k + 1) * (k + 2) * (k + 3) < SIZE_MOD) :
    k < SIZE_MOD := by
  have h : k + 1 ≤ (k + 1) * (k + 2) * (k + 3) := by
    rw [Nat.mul_assoc]
    exact Nat.le_mul_of_pos_right _ (Nat.mul_pos (by omega) (by omega))
  omega

/-- C4, as stated, fails: in the degree-1 basis on the cell with barycenter `0` and
extents `(2, 2, 2)`, at the point `(2, 3, 5)` (so `bx = 2`, `by = 3`, `bz = 5`), the
returned vector is `[1, bz, by, bx]`; the first function of the degree-1 block is `bz`,
not `bx`: the exponent of the first coordinate runs upward. -/
theorem cell3_eval_functions_order_counterexample :
    ∃ v : List ℚ,
      scaled_monomial_scalar_basis_cell3.eval_functions
        (scaled_monomial_scalar_basis_cell3.make ⟨0, 0, 0⟩ (2, 2, 2) 1) ⟨2, 3, 5⟩ = .ok v ∧
      v = [1, 5, 3, 2] ∧ v[1]? ≠ some (((2 - 0) / (1 / 2 * 2) : ℚ) ^ 1) := by
  refine ⟨[1, 5, 3, 2], ?_, rfl, by norm_num⟩
  rw [scaled_monomial_scalar_basis_cell3.cell3_eval_functions_eq _ _ _ (by decide),
    if_pos (by decide)]
  have e : exponents3 1 = [(0, 0, 0), (0, 0, 1), (0, 1, 0), (1, 0, 0)] := by decide
  rw [e]
  norm_num

/-- C4 (amended): for the 3D cell basis of a degree `k` with `(k+1)(k+2)(k+3)` inside
the unsigned word, `eval_functions` returns the monomials `bx^px * by^py * bz^pz` whose
exponent triples are enumerated in degree blocks `m = 0..k`; block `m` holds every triple
with `px + py + pz = m` exactly once; within a block `px` runs upward from `0` to `m`
and, for each `px`, `py` runs upward from `0` to `m - px` with `pz = m - px - py`. So the
first function of block `m` (position `C(m+2, 3)`) is `bz^m` and the last one (position
`C(m+3, 3) - 1`) is `bx^m`. -/
theorem cell3_eval_functions_order {K : Type} [Field K] (cell_bar : point3 K)
    (box_h : K × K × K) (k : Nat) (pt : point3 K)
    (hfit : (k + 1) * (k + 2) * (k + 3) < SIZE_MOD) :
    ∃ v, scaled_monomial_scalar_basis_cell3.eval_functions
        (scaled_monomial_scalar_basis_cell3.make cell_bar box_h k) pt = .ok v ∧
      v = ((List.range (k + 1)).flatMap block3).map (fun e =>
          ((pt.x - cell_bar.x) / (1 / 2 * box_h.1)) ^ e.1 *
          ((pt.y - cell_bar.y) / (1 / 2 * box_h.2.1)) ^ e.2.1 *
          ((pt.z - cell_bar.z) / (1 / 2 * box_h.2.2)) ^ e.2.2) ∧
      (∀ m, (block3 m).Nodup ∧ (∀ e, e ∈ block3 m ↔ e.1 + e.2.1 + e.2.2 = m) ∧
        block3 m = (List.range (m + 1)).flatMap (fun px =>
          (List.range (m - px + 1)).map (fun py => (px, py, m - px - py)))) ∧
      (∀ m, m ≤ k →
        v[(m + 2).choose 3]? = some (((pt.z - cell_bar.z) / (1 / 2 * box_h.2.2)) ^ m) ∧
        v[(m + 3).choose 3 - 1]? = some (((pt.x - cell_bar.x) / (1 / 2 * box_h.1)) ^ m)) := by
  refine ⟨_, ?_, rfl, fun m => ⟨nodup_block3 m, mem_block3 m, rfl⟩, fun m hm => ⟨?_, ?_⟩⟩
  · rw [scaled_monomial_scalar_basis_cell3.cell3_eval_functions_eq _ _ _ (lt_of_fit_three k hfit),
      if_pos (scalar_basis_size_three k hfit).symm]
    rfl
  · have h := getElem_exponents3_block k m 0 hm (Nat.choose_pos (by omega))
    rw [Nat.add_zero, block3_head] at h
    rw [List.getElem?_map]
    show Option.map _ (exponents3 k)[(m + 2).choose 3]? = _
    rw [h]
    simp
  · have hpos : 0 < (m + 2).choose 2 := Nat.choose_pos (by omega)
    have h := getElem_exponents3_block k m ((m + 2).choose 2 - 1) hm (by omega)
    rw [block3_last] at h
    have e : (m + 2).choose 3 + ((m + 2).choose 2 - 1) = (m + 3).choose 3 - 1 := by
      have : (m + 3).choose 3 = (m + 2).choose 2 + (m + 2).choose 3 :=
        choose_three_succ (m + 2)
      omega
    rw [e] at h
    rw [List.getElem?_map]
    show Option.map _ (exponents3 k)[(m + 3).choose 3 - 1]? = _
    rw [h]
    simp

theorem cell3_eval_functions_order_witness :
    ∃ v : List ℚ, scaled_monomial_scalar_basis_cell3.eval_functions
        (scaled_monomial_scalar_basis_cell3.make ⟨0, 0, 0⟩ (2, 2, 2) 2) ⟨2, 3, 5⟩ = .ok v ∧
      (∀ m, m ≤ 2 →
        v[(m + 2).choose 3]? = some (((5 - 0) / (1 / 2 * 2) : ℚ) ^ m) ∧
        v[(m + 3).choose 3 - 1]? = some (((2 - 0) / (1 / 2 * 2) : ℚ) ^ m)) := by
  obtain ⟨v, h1, _, _, h2⟩ :=
    cell3_eval_functions_order (K := ℚ) ⟨0, 0, 0⟩ (2, 2, 2) 2 ⟨2, 3, 5⟩ (by decide)
  exact ⟨v, h1, h2⟩

theorem hasDerivAt_scaled_pow (a h x : ℝ) (hh : h ≠ 0) (p : Nat) :
    HasDerivAt (fun t : ℝ => ((t - a) / (1 / 2 * h)) ^ p)
      (if p = 0 then 0 else (p : ℝ) * (2 / h) * ((x - a) / (1 / 2 * h)) ^ (p - 1)) x := by
  have h1 : HasDerivAt (fun t : ℝ => (t - a) / (1 / 2 * h)) (1 / (1 / 2 * h)) x :=
    ((hasDerivAt_id x).sub_const a).div_const _
  have h2 := h1.pow p
  by_cases hp : p = 0
  · subst hp
    simp only [pow_zero, if_true]
    exact hasDerivAt_const x 1
  · rw [if_neg hp]
    convert h2 using 1
    field_simp
    ring

theorem entry_ok_map {α β : Type} (z : β) (l : List α) (f : α → β) (j : Nat)
    (hj : j < l.length) :
    entry z (.ok (l.map f)) j = f (l.get ⟨j, hj⟩) := by
  simp [entry, List.getD_eq_getElem?_getD, List.getElem?_map, List.getElem?_eq_getElem hj]

theorem getD_map_of_lt {α β : Type} (z : β) (l : List α) (f : α → β) (j : Nat)
    (hj : j < l.length) :
    (l.map f).getD j z = f (l.get ⟨j, hj⟩) := by
  simp [List.getD_eq_getElem?_getD, List.getElem?_map, List.getElem?_eq_getElem hj]

theorem cell2_partial_derivatives (cell_bar : point2 ℝ) (box_h : ℝ × ℝ) (k : Nat)
    (pt : point2 ℝ) (hx : box_h.1 ≠ 0) (hy : box_h.2 ≠ 0)
    (hfit : (k + 1) * (k + 2) < SIZE_MOD) :
    ∃ G, scaled_monomial_scalar_basis_cell2.eval_gradients
        (scaled_monomial_scalar_basis_cell2.make cell_bar box_h k) pt = .ok G ∧
      G = (exponents2 k).map (gradient2 (2 / box_h.1) (2 / box_h.2)
        ((pt.x - cell_bar.x) / (1 / 2 * box_h.1)) ((pt.y - cell_bar.y) / (1 / 2 * box_h.2))) ∧
      ∀ j, j < (scaled_monomial_scalar_basis_cell2.make cell_bar box_h k).size →
        HasDerivAt (fun t => entry 0 (scaled_monomial_scalar_basis_cell2.eval_functions
            (scaled_monomial_scalar_basis_cell2.make cell_bar box_h k) ⟨t, pt.y⟩) j)
          (G.getD j (0, 0)).1 pt.x ∧
        HasDerivAt (fun t => entry 0 (scaled_monomial_scalar_basis_cell2.eval_functions
            (scaled_monomial_scalar_basis_cell2.make cell_bar box_h k) ⟨pt.x, t⟩) j)
          (G.getD j (0, 0)).2 pt.y := by
  have hsz := scalar_basis_size_two k hfit
  refine ⟨_, ?_, rfl, ?_⟩
  · rw [scaled_monomial_scalar_basis_cell2.cell2_eval_gradients_eq, if_pos hsz.symm]
  · intro j hj
    have hj2 : j < (exponents2 k).length := by
      rw [length_exponents2, ← hsz]; exact hj
    simp only [scaled_monomial_scalar_basis_cell2.cell2_eval_functions_eq, if_pos hsz.symm,
      entry_ok_map _ _ _ j hj2, getD_map_of_lt _ _ _ j hj2, gradient2]
    constructor
    · exact (hasDerivAt_scaled_pow cell_bar.x box_h.1 pt.x hx _).mul_const _
    · exact (hasDerivAt_scaled_pow cell_bar.y box_h.2 pt.y hy _).const_mul _

theorem cell3_partial_derivatives (cell_bar : point3 ℝ) (box_h : ℝ × ℝ × ℝ) (k : Nat)
    (pt : point3 ℝ) (hx : box_h.1 ≠ 0) (hy : box_h.2.1 ≠ 0) (hz : box_h.2.2 ≠ 0)
    (hfit : (k + 1) * (k + 2) * (k + 3) < SIZE_MOD) :
    ∃ G, scaled_monomial_scalar_basis_cell3.eval_gradients
        (scaled_monomial_scalar_basis_cell3.make cell_bar box_h k) pt = .ok G ∧
      G = (exponents3 k).map (gradient3 (2 / box_h.1) (2 / box_h.2.1) (2 / box_h.2.2)
        ((pt.x - cell_bar.x) / (1 / 2 * box_h.1)) ((pt.y - cell_bar.y) / (1 / 2 * box_h.2.1))
        ((pt.z - cell_bar.z) / (1 / 2 * box_h.2.2))) ∧
      ∀ j, j < (scaled_monomial_scalar_basis_cell3.make cell_bar box_h k).size →
        HasDerivAt (fun t => entry 0 (scaled_monomial_scalar_basis_cell3.eval_functions
            (scaled_monomial_scalar_basis_cell3.make cell_bar box_h k) ⟨t, pt.y, pt.z⟩) j)
          (G.getD j (0, 0, 0)).1 pt.x ∧
        HasDerivAt (fun t => entry 0 (scaled_monomial_scalar_basis_cell3.eval_functions
            (scaled_monomial_scalar_basis_cell3.make cell_bar box_h k) ⟨pt.x, t, pt.z⟩) j)
          (G.getD j (0, 0, 0)).2.1 pt.y ∧
        HasDerivAt (fun t => entry 0 (scaled_monomial_scalar_basis_cell3.eval_functions
            (scaled_monomial_scalar_basis_cell3.make cell_bar box_h k) ⟨pt.x, pt.y, t⟩) j)
          (G.getD j (0, 0, 0)).2.2 pt.z := by
  have hsz := scalar_basis_size_three k hfit
  have hk := lt_of_fit_three k hfit
  refine ⟨_, ?_, rfl, ?_⟩
  · rw [scaled_monomial_scalar_basis_cell3.cell3_eval_gradients_eq _ _ _ hk, if_pos hsz.symm]
  · intro j hj
    have hj2 : j < (exponents3 k).length := by
      rw [length_exponents3, ← hsz]; exact hj
    simp only [scaled_monomial_scalar_basis_cell3.cell3_eval_functions_eq _ _ _ hk, if_pos hsz.symm,
      entry_ok_map _ _ _ j hj2, getD_map_of_lt _ _ _ j hj2, gradient3]
    refine ⟨?_, ?_, ?_⟩
    · exact ((hasDerivAt_scaled_pow cell_bar.x box_h.1 pt.x hx _).mul_const _).mul_const _
    · exact ((hasDerivAt_scaled_pow cell_bar.y box_h.2.1 pt.y hy _).const_mul _).mul_const _
    · exact (hasDerivAt_scaled_pow cell_bar.z box_h.2.2 pt.z hz _).const_mul _

/-- C5, as stated, fails when the size wraps: for the 2D cell basis of degree `2^32`
(barycenter `0`, extents `(2, 2)`) `eval_gradients` returns no matrix at the point
`(1, 1)`, so no entry `(0, 0)` of it is the partial derivative of the function `0`. -/
theorem cell_eval_gradients_counterexample :
    ¬ ∃ G : List (ℝ × ℝ),
      scaled_monomial_scalar_basis_cell2.eval_gradients
        (scaled_monomial_scalar_basis_cell2.make ⟨0, 0⟩ (2, 2) (2 ^ 32)) ⟨1, 1⟩ = .ok G ∧
      HasDerivAt (fun t => entry 0 (scaled_monomial_scalar_basis_cell2.eval_functions
          (scaled_monomial_scalar_basis_cell2.make ⟨0, 0⟩ (2, 2) (2 ^ 32)) ⟨t, 1⟩) 0)
        (G.getD 0 (0, 0)).1 1 := by
  rintro ⟨G, hG, -⟩
  rw [scaled_monomial_scalar_basis_cell2.cell2_eval_gradients_eq, scalar_basis_size_wrapped,
    choose_two_wrapped, if_neg (by decide)] at hG
  cases hG

/-- C5 (amended): for the 2D cell basis of a degree `k` with `(k+1)(k+2)` inside the
unsigned word, and for the 3D cell basis of a degree `k` with `(k+1)(k+2)(k+3)` inside
it, with non-zero bounding-box extents: at every point `pt`, `eval_gradients` returns a
matrix `G` whose row for the exponents `p` is given by the rescaled chain rule
(`p * (2/box_h[i]) * b_i^(p-1)` times the other powers, and `0` when `p = 0`), and for
every basis index `j` and every coordinate direction `i`, entry `(j, i)` of `G` is the
partial derivative with respect to `x_i`, at `pt`, of the function
`pt -> eval_functions(pt)[j]`. -/
theorem cell_eval_gradients_partial_derivatives :
    (∀ (cell_bar : point2 ℝ) (box_h : ℝ × ℝ) (k : Nat) (pt : point2 ℝ),
      box_h.1 ≠ 0 → box_h.2 ≠ 0 → (k + 1) * (k + 2) < SIZE_MOD →
      ∃ G, scaled_monomial_scalar_basis_cell2.eval_gradients
          (scaled_monomial_scalar_basis_cell2.make cell_bar box_h k) pt = .ok G ∧
        G = (exponents2 k).map (gradient2 (2 / box_h.1) (2 / box_h.2)
          ((pt.x - cell_bar.x) / (1 / 2 * box_h.1))
          ((pt.y - cell_bar.y) / (1 / 2 * box_h.2))) ∧
        ∀ j, j < (scaled_monomial_scalar_basis_cell2.make cell_bar box_h k).size →
          HasDerivAt (fun t => entry 0 (scaled_monomial_scalar_basis_cell2.eval_functions
              (scaled_monomial_scalar_basis_cell2.make cell_bar box_h k) ⟨t, pt.y⟩) j)
            (G.getD j (0, 0)).1 pt.x ∧
          HasDerivAt (fun t => entry 0 (scaled_monomial_scalar_basis_cell2.eval_functions
              (scaled_monomial_scalar_basis_cell2.make cell_bar box_h k) ⟨pt.x, t⟩) j)
            (G.getD j (0, 0)).2 pt.y) ∧
    (∀ (cell_bar : point3 ℝ) (box_h : ℝ × ℝ × ℝ) (k : Nat) (pt : point3 ℝ),
      box_h.1 ≠ 0 → box_h.2.1 ≠ 0 → box_h.2.2 ≠ 0 →
      (k + 1) * (k + 2) * (k + 3) < SIZE_MOD →
      ∃ G, scaled_monomial_scalar_basis_cell3.eval_gradients
          (scaled_monomial_scalar_basis_cell3.make cell_bar box_h k) pt = .ok G ∧
        G = (exponents3 k).map (gradient3 (2 / box_h.1) (2 / box_h.2.1) (2 / box_h.2.2)
          ((pt.x - cell_bar.x) / (1 / 2 * box_h.1))
          ((pt.y - cell_bar.y) / (1 / 2 * box_h.2.1))
          ((pt.z - cell_bar.z) / (1 / 2 * box_h.2.2))) ∧
        ∀ j, j < (scaled_monomial_scalar_basis_cell3.make cell_bar box_h k).size →
          HasDerivAt (fun t => entry 0 (scaled_monomial_scalar_basis_cell3.eval_functions
              (scaled_monomial_scalar_basis_cell3.make cell_bar box_h k) ⟨t, pt.y, pt.z⟩) j)
            (G.getD j (0, 0, 0)).1 pt.x ∧
          HasDerivAt (fun t => entry 0 (scaled_monomial_scalar_basis_cell3.eval_functions
              (scaled_monomial_scalar_basis_cell3.make cell_bar box_h k) ⟨pt.x, t, pt.z⟩) j)
            (G.getD j (0, 0, 0)).2.1 pt.y ∧
          HasDerivAt (fun t => entry 0 (scaled_monomial_scalar_basis_cell3.eval_functions
              (scaled_monomial_scalar_basis_cell3.make cell_bar box_h k) ⟨pt.x, pt.y, t⟩) j)
            (G.getD j (0, 0, 0)).2.2 pt.z) :=
  ⟨cell2_partial_derivatives, cell3_partial_derivatives⟩

theorem cell_eval_gradients_partial_derivatives_witness :
    (∃ G, scaled_monomial_scalar_basis_cell2.eval_gradients
        (scaled_monomial_scalar_basis_cell2.make (K := ℝ) ⟨0, 0⟩ (2, 2) 1) ⟨2, 3⟩ = .ok G ∧
      HasDerivAt (fun t => entry 0 (scaled_monomial_scalar_basis_cell2.eval_functions
          (scaled_monomial_scalar_basis_cell2.make (K := ℝ) ⟨0, 0⟩ (2, 2) 1) ⟨t, 3⟩) 1)
        (G.getD 1 (0, 0)).1 2) ∧
    (∃ G, scaled_monomial_scalar_basis_cell3.eval_gradients
        (scaled_monomial_scalar_basis_cell3.make (K := ℝ) ⟨0, 0, 0⟩ (2, 2, 2) 1) ⟨2, 3, 5⟩
          = .ok G ∧
      HasDerivAt (fun t => entry 0 (scaled_monomial_scalar_basis_cell3.eval_functions
          (scaled_monomial_scalar_basis_cell3.make (K := ℝ) ⟨0, 0, 0⟩ (2, 2, 2) 1) ⟨2, 3, t⟩) 1)
        (G.getD 1 (0, 0, 0)).2.2 5) := by
  obtain ⟨G2, h2, -, d2⟩ := cell_eval_gradients_partial_derivatives.1 ⟨0, 0⟩ (2, 2) 1 ⟨2, 3⟩
    (by norm_num) (by norm_num) (by decide)
  obtain ⟨G3, h3, -, d3⟩ := cell_eval_gradients_partial_derivatives.2 ⟨0, 0, 0⟩ (2, 2, 2) 1
    ⟨2, 3, 5⟩ (by norm_num) (by norm_num) (by norm_num) (by decide)
  exact ⟨⟨G2, h2, (d2 1 (by decide)).1⟩, ⟨G3, h3, (d3 1 (by decide)).2.2⟩⟩

theorem map_exponents2_zero {K : Type} [Field K] (k : Nat) :
    (exponents2 k).map (fun e => (0 : K) ^ e.1 * 0 ^ e.2)
      = 1 :: List.replicate ((k + 2).choose 2 - 1) 0 := by
  induction k with
  | zero =>
    have r1 : List.range (0 + 1) = [0] := rfl
    simp [exponents2, r1]
  | succ k ih =>
    have hB : ((List.range (k + 2)).map (fun i => (k + 1 - i, i))).map
        (fun e => (0 : K) ^ e.1 * 0 ^ e.2) = List.replicate (k + 2) 0 := by
      rw [List.eq_replicate_iff]
      refine ⟨by simp, ?_⟩
      intro b hb
      simp only [List.map_map, List.mem_map, List.mem_range, Function.comp] at hb
      obtain ⟨i, _, rfl⟩ := hb
      by_cases hi : i = 0
      · subst hi; simp
      · simp [zero_pow hi]
    have hpos : 0 < (k + 2).choose 2 := Nat.choose_pos (by omega)
    have hc : (k + 1 + 2).choose 2 = (k + 2).choose 2 + (k + 2) := choose_two_succ (k + 2)
    rw [exponents2_succ, List.map_append, ih, hB, List.cons_append, List.append_replicate_replicate,
      hc]
    congr 2
    omega

theorem map_exponents3_zero {K : Type} [Field K] (k : Nat) :
    (exponents3 k).map (fun e => (0 : K) ^ e.1 * 0 ^ e.2.1 * 0 ^ e.2.2)
      = 1 :: List.replicate ((k + 3).choose 3 - 1) 0 := by
  induction k with
  | zero =>
    have r1 : List.range (0 + 1) = [0] := rfl
    simp [exponents3, block3, r1]
  | succ k ih =>
    have hB : (block3 (k + 1)).map (fun e => (0 : K) ^ e.1 * 0 ^ e.2.1 * 0 ^ e.2.2)
        = List.replicate ((k + 3).choose 2) 0 := by
      rw [List.eq_replicate_iff]
      refine ⟨by rw [List.length_map, length_block3], ?_⟩
      intro b hb
      simp only [List.mem_map] at hb
      obtain ⟨⟨px, py, pz⟩, he, rfl⟩ := hb
      rw [mem_block3] at he
      simp only at he ⊢
      by_cases h1 : px = 0
      · by_cases h2 : py = 0
        · have h3 : pz ≠ 0 := by omega
          simp [zero_pow h3]
        · simp [zero_pow h2]
      · simp [zero_pow h1]
    have hpos : 0 < (k + 3).choose 3 := Nat.choose_pos (by omega)
    have hc : (k + 1 + 3).choose 3 = (k + 3).choose 2 + (k + 3).choose 3 :=
      choose_three_succ (k + 3)
    rw [exponents3_succ, List.map_append, ih, hB, List.cons_append, List.append_replicate_replicate,
      hc]
    congr 2
    omega

theorem scalar_basis_size_size_max : scalar_basis_size (2 ^ 64 - 1) 3 = 0 := by decide

/-- C6, as stated, fails when the size wraps: for the 3D cell basis of degree
`2^64 - 1` (the largest `size_t`) the sum `k + 1` wraps to `0` in `scalar_basis_size`, the
constructor stores `basis_size = 0`, and at the barycenter the first write of
`eval_functions` is outside the empty vector: no vector is returned, in particular not
`(1, 0, ..., 0)`. -/
theorem cell_eval_functions_at_barycenter_counterexample :
    ¬ ∃ v : List ℚ,
      scaled_monomial_scalar_basis_cell3.eval_functions
        (scaled_monomial_scalar_basis_cell3.make ⟨0, 0, 0⟩ (1, 1, 1) (2 ^ 64 - 1)) ⟨0, 0, 0⟩
          = .ok v ∧
      v[0]? = some 1 := by
  rintro ⟨v, hv, -⟩
  have hpos : 0 < (2 ^ 64 - 1 + 3).choose 3 := Nat.choose_pos (by omega)
  rw [scaled_monomial_scalar_basis_cell3.cell3_eval_functions_eq _ _ _ (by decide),
    scalar_basis_size_size_max, if_neg (by omega)] at hv
  cases hv

/-- C6 (amended): for every 2D cell and degree `k` with `(k+1)(k+2)` inside the unsigned
word, and every 3D cell and degree `k` with `(k+1)(k+2)(k+3)` inside it, with non-zero
bounding-box extents, `eval_functions` at the cell barycenter returns the vector
`(1, 0, ..., 0)` of `size()` entries: the degree-0 function is `1` and every function of
degree at least one is `0`. -/
theorem cell_eval_functions_at_barycenter {K : Type} [Field K] :
    (∀ (cell_bar : point2 K) (box_h : K × K) (k : Nat),
      box_h.1 ≠ 0 → box_h.2 ≠ 0 → (k + 1) * (k + 2) < SIZE_MOD →
      scaled_monomial_scalar_basis_cell2.eval_functions
        (scaled_monomial_scalar_basis_cell2.make cell_bar box_h k) cell_bar
        = .ok (1 :: List.replicate
            ((scaled_monomial_scalar_basis_cell2.make cell_bar box_h k).size - 1) 0)) ∧
    (∀ (cell_bar : point3 K) (box_h : K × K × K) (k : Nat),
      box_h.1 ≠ 0 → box_h.2.1 ≠ 0 → box_h.2.2 ≠ 0 →
      (k + 1) * (k + 2) * (k + 3) < SIZE_MOD →
      scaled_monomial_scalar_basis_cell3.eval_functions
        (scaled_monomial_scalar_basis_cell3.make cell_bar box_h k) cell_bar
        = .ok (1 :: List.replicate
            ((scaled_monomial_scalar_basis_cell3.make cell_bar box_h k).size - 1) 0)) := by
  constructor
  · intro cell_bar box_h k _ _ hfit
    have hsz := scalar_basis_size_two k hfit
    rw [scaled_monomial_scalar_basis_cell2.cell2_eval_functions_eq, if_pos hsz.symm]
    simp only [sub_self, zero_div, map_exponents2_zero]
    show _ = Except.ok (1 :: List.replicate (scalar_basis_size k 2 - 1) 0)
    rw [hsz]
  · intro cell_bar box_h k _ _ _ hfit
    have hsz := scalar_basis_size_three k hfit
    rw [scaled_monomial_scalar_basis_cell3.cell3_eval_functions_eq _ _ _ (lt_of_fit_three k hfit),
      if_pos hsz.symm]
    simp only [sub_self, zero_div, map_exponents3_zero]
    show _ = Except.ok (1 :: List.replicate (scalar_basis_size k 3 - 1) 0)
    rw [hsz]

theorem cell_eval_functions_at_barycenter_witness :
    scaled_monomial_scalar_basis_cell2.eval_functions
        (scaled_monomial_scalar_basis_cell2.make (K := ℚ) ⟨1, 2⟩ (3, 4) 2) ⟨1, 2⟩
        = .ok [1, 0, 0, 0, 0, 0] ∧
    scaled_monomial_scalar_basis_cell3.eval_functions
        (scaled_monomial_scalar_basis_cell3.make (K := ℚ) ⟨1, 2, 3⟩ (3, 4, 5) 1) ⟨1, 2, 3⟩
        = .ok [1, 0, 0, 0] :=
  ⟨cell_eval_functions_at_barycenter.1 ⟨1, 2⟩ (3, 4) 2 (by norm_num) (by norm_num) (by decide),
   cell_eval_functions_at_barycenter.2 ⟨1, 2, 3⟩ (3, 4, 5) 1 (by norm_num) (by norm_num)
    (by norm_num) (by decide)⟩

theorem map_range_zero_pow {K : Type} [Field K] (k : Nat) :
    (List.range (k + 1)).map (fun i => (0 : K) ^ i) = 1 :: List.replicate k 0 := by
  rw [List.range_succ_eq_map, List.map_cons, List.map_map, pow_zero]
  congr 1
  rw [List.eq_replicate_iff]
  refine ⟨by simp, ?_⟩
  intro b hb
  simp only [List.mem_map, List.mem_range, Function.comp] at hb
  obtain ⟨i, _, rfl⟩ := hb
  simp

/-- C7, as stated, fails when the size wraps: the 1-D monomial basis of degree
`2^64 - 1` on the segment from `(0,0)` to `(1,0)` has `basis_size = 0` (the sum
`degree + 1` wraps), and `eval_functions` at the barycenter stops at the first write
instead of returning `(1, 0, ..., 0)`. -/
theorem face_eval_functions_at_barycenter_counterexample :
    ¬ ∃ v : List ℚ,
      scaled_monomial_scalar_basis_face2.eval_functions
        (scaled_monomial_scalar_basis_face2.make ⟨1 / 2, 0⟩ 1 ⟨0, 0⟩ (2 ^ 64 - 1)) ⟨1 / 2, 0⟩
          = .ok v ∧
      v = 1 :: List.replicate (2 ^ 64 - 1) 0 := by
  rintro ⟨v, hv, -⟩
  rw [scaled_monomial_scalar_basis_face2.face2_eval_functions_eq, if_neg (by decide)] at hv
  cases hv

/-- C7 (amended): the 1-D monomial basis on a 2D-mesh face with diameter `h != 0` and a
degree `k` with `k + 1` inside the unsigned word, and the 2-D monomial basis on a
successfully constructed 3D-mesh face with a degree `k` with `(k+1)(k+2)` inside the
unsigned word, evaluated at the face barycenter return `(1, 0, ..., 0)`; in particular
the degree-1 basis on the segment `[0,1]` evaluated at the midpoint returns `[1, 0]`. -/
theorem face_eval_functions_at_barycenter {K : Type} [LinearOrderedField K] :
    (∀ (face_bar : point2 K) (face_h : K) (pts0 : point2 K) (k : Nat),
      face_h ≠ 0 → k + 1 < SIZE_MOD →
      scaled_monomial_scalar_basis_face2.eval_functions
        (scaled_monomial_scalar_basis_face2.make face_bar face_h pts0 k) face_bar
        = .ok (1 :: List.replicate k 0)) ∧
    (∀ (sqrt : K → K) (face_bar : point3 K) (face_h : K) (pts : List (point3 K)) (k : Nat)
      (b : scaled_monomial_scalar_basis_face3 K),
      scaled_monomial_scalar_basis_face3.make sqrt face_bar face_h pts k = .ok b →
      (k + 1) * (k + 2) < SIZE_MOD →
      scaled_monomial_scalar_basis_face3.eval_functions b face_bar
        = .ok (1 :: List.replicate (b.size - 1) 0)) ∧
    scaled_monomial_scalar_basis_face2.eval_functions
        (scaled_monomial_scalar_basis_face2.make (K := K) ⟨1 / 2, 0⟩ 1 ⟨0, 0⟩ 1) ⟨1 / 2, 0⟩
        = .ok [1, 0] := by
  have h2 : ∀ (face_bar : point2 K) (face_h : K) (pts0 : point2 K) (k : Nat),
      k + 1 < SIZE_MOD →
      scaled_monomial_scalar_basis_face2.eval_functions
        (scaled_monomial_scalar_basis_face2.make face_bar face_h pts0 k) face_bar
        = .ok (1 :: List.replicate k 0) := by
    intro face_bar face_h pts0 k hk
    have hsz : (scaled_monomial_scalar_basis_face2.make face_bar face_h pts0 k).basis_size
        = k + 1 := Nat.mod_eq_of_lt hk
    have hdeg : (scaled_monomial_scalar_basis_face2.make face_bar face_h pts0 k).basis_degree
        = k := rfl
    have hbar : (scaled_monomial_scalar_basis_face2.make face_bar face_h pts0 k).face_bar
        = face_bar := rfl
    rw [scaled_monomial_scalar_basis_face2.face2_eval_functions_eq, hsz, hdeg, hbar,
      if_pos (le_refl _)]
    simp only [point2.sub, point2.dot, sub_self, mul_zero, add_zero, zero_div,
      map_range_zero_pow, Nat.sub_self, List.replicate_zero, List.append_nil]
  refine ⟨fun face_bar face_h pts0 k _ hk => h2 face_bar face_h pts0 k hk, ?_,
    h2 ⟨1 / 2, 0⟩ 1 ⟨0, 0⟩ 1 (by decide)⟩
  intro sqrt face_bar face_h pts k b hb hfit
  obtain ⟨hdeg, hsz, hbar, -, -⟩ :=
    scaled_monomial_scalar_basis_face3.face3_make_ok sqrt face_bar face_h pts k b hb
  rw [scaled_monomial_scalar_basis_face3.face3_eval_functions_eq, hdeg, hsz,
    if_pos (scalar_basis_size_two k hfit).symm]
  simp only [scaled_monomial_abstract_face_basis.map_face_point_3d_to_2d, hbar, point3.sub,
    point3.dot, sub_self, zero_mul, add_zero, map_exponents2_zero,
    scaled_monomial_scalar_basis_face3.size, hsz, scalar_basis_size_two k hfit]

/-- The degree-1 basis on the rectangle with vertices `(0,0,0)`, `(3,0,0)`, `(3,4,0)`,
`(0,4,0)`; the square root is needed at `9` and `16` only. -/
theorem face3_make_rectangle :
    scaled_monomial_scalar_basis_face3.make (K := ℚ) (fun x => if x = 16 then 4 else 3)
      ⟨3 / 2, 2, 0⟩ 5 [⟨0, 0, 0⟩, ⟨3, 0, 0⟩, ⟨3, 4, 0⟩, ⟨0, 4, 0⟩] 1
      = .ok { base := { face_bar := ⟨3 / 2, 2, 0⟩, face_h := 5,
                        e0 := ⟨0, 4, 0⟩, e1 := ⟨-3, 0, 0⟩ }
              face_bar := ⟨3 / 2, 2, 0⟩
              face_h := 5
              basis_degree := 1
              basis_size := 3 } := by
  have hs : scalar_basis_size 1 2 = 3 := by decide
  have hscan : scaled_monomial_abstract_face_basis.compute_axis_scan (K := ℚ)
      (fun x => if x = 16 then 4 else 3)
      [⟨0, 0, 0⟩, ⟨3, 0, 0⟩, ⟨3, 4, 0⟩, ⟨0, 4, 0⟩] 4 1 = .ok (some (⟨0, 4, 0⟩, ⟨-3, 0, 0⟩)) := by
    simp [scaled_monomial_abstract_face_basis.compute_axis_scan, point3.sub, point3.dot,
      point3.sdiv, point3.norm]
    rfl
  simp [scaled_monomial_scalar_basis_face3.make, scaled_monomial_abstract_face_basis.make,
    scaled_monomial_abstract_face_basis.compute_axis, hscan, hs, point3.sub, point3.dot,
    point3.sdiv, point3.smul, bind, Except.bind, pure, Except.pure, Functor.map, Except.map]

theorem face_eval_functions_at_barycenter_witness :
    scaled_monomial_scalar_basis_face2.eval_functions
        (scaled_monomial_scalar_basis_face2.make (K := ℚ) ⟨1 / 2, 0⟩ 1 ⟨0, 0⟩ 3) ⟨1 / 2, 0⟩
        = .ok [1, 0, 0, 0] ∧
    ∃ b, scaled_monomial_scalar_basis_face3.make (K := ℚ) (fun x => if x = 16 then 4 else 3)
        ⟨3 / 2, 2, 0⟩ 5 [⟨0, 0, 0⟩, ⟨3, 0, 0⟩, ⟨3, 4, 0⟩, ⟨0, 4, 0⟩] 1 = .ok b ∧
      scaled_monomial_scalar_basis_face3.eval_functions b ⟨3 / 2, 2, 0⟩ = .ok [1, 0, 0] :=
  ⟨face_eval_functions_at_barycenter.1 ⟨1 / 2, 0⟩ 1 ⟨0, 0⟩ 3 (by norm_num) (by decide),
   ⟨_, face3_make_rectangle,
    face_eval_functions_at_barycenter.2.1 _ _ _ _ _ _ face3_make_rectangle (by decide)⟩⟩

theorem filled_full {α : Type} (z : α) (n : Nat) (vals : List α) (h : vals.length = n) :
    filled z n vals = (vals, n) := by
  simp [filled, h]

/-- C8, as stated, fails when the size wraps: for the 2D cell basis of degree `2^32` the
loops of `eval_functions` do not end with `pos == basis_size`; they stop at the index
check of a write, `basis_size` being `6442450945` for `C(2^32+2, 2)` values to write. -/
theorem eval_functions_fill_counterexample :
    ¬ ∃ st : List ℚ × Nat,
      scaled_monomial_scalar_basis_cell2.eval_functions_loops
        (scaled_monomial_scalar_basis_cell2.make ⟨0, 0⟩ (2, 2) (2 ^ 32)) ⟨1, 1⟩ = .ok st ∧
      st.2 = (scaled_monomial_scalar_basis_cell2.make (K := ℚ) ⟨0, 0⟩ (2, 2) (2 ^ 32)).size := by
  rintro ⟨st, hst, -⟩
  rw [scaled_monomial_scalar_basis_cell2.cell2_eval_functions_loops_eq, scalar_basis_size_wrapped,
    choose_two_wrapped, if_neg (by decide)] at hst
  cases hst

/-- C8 (amended): for every point and every degree `k` whose product `(k+1)...(k+d)` is
inside the unsigned word (`d = 2` for the 2D cell and the 3D face, `d = 3` for the 3D
cell), the loops of `eval_functions` end with `pos` equal to
`basis_size = scalar_basis_size(k, d)`, every write being inside the vector (one write
at each position `0 .. size()-1`, `pos` counting them), so the assertion holds and the
returned vector has exactly `size()` entries; `eval_gradients` likewise fills exactly
`size()` rows. -/
theorem eval_functions_fill_exactly {K : Type} [LinearOrderedField K] :
    (∀ (cell_bar : point2 K) (box_h : K × K) (k : Nat) (pt : point2 K),
      (k + 1) * (k + 2) < SIZE_MOD →
      (scaled_monomial_scalar_basis_cell2.make cell_bar box_h k).size = scalar_basis_size k 2 ∧
      (∃ ret, scaled_monomial_scalar_basis_cell2.eval_functions_loops
            (scaled_monomial_scalar_basis_cell2.make cell_bar box_h k) pt
            = .ok (ret, (scaled_monomial_scalar_basis_cell2.make cell_bar box_h k).size) ∧
          ret.length = (scaled_monomial_scalar_basis_cell2.make cell_bar box_h k).size ∧
          scaled_monomial_scalar_basis_cell2.eval_functions
            (scaled_monomial_scalar_basis_cell2.make cell_bar box_h k) pt = .ok ret) ∧
      (∃ G, scaled_monomial_scalar_basis_cell2.eval_gradients_loops
            (scaled_monomial_scalar_basis_cell2.make cell_bar box_h k) pt
            = .ok (G, (scaled_monomial_scalar_basis_cell2.make cell_bar box_h k).size) ∧
          G.length = (scaled_monomial_scalar_basis_cell2.make cell_bar box_h k).size ∧
          scaled_monomial_scalar_basis_cell2.eval_gradients
            (scaled_monomial_scalar_basis_cell2.make cell_bar box_h k) pt = .ok G)) ∧
    (∀ (cell_bar : point3 K) (box_h : K × K × K) (k : Nat) (pt : point3 K),
      (k + 1) * (k + 2) * (k + 3) < SIZE_MOD →
      (scaled_monomial_scalar_basis_cell3.make cell_bar box_h k).size = scalar_basis_size k 3 ∧
      (∃ ret, scaled_monomial_scalar_basis_cell3.eval_functions_loops
            (scaled_monomial_scalar_basis_cell3.make cell_bar box_h k) pt
            = .ok (ret, (scaled_monomial_scalar_basis_cell3.make cell_bar box_h k).size) ∧
          ret.length = (scaled_monomial_scalar_basis_cell3.make cell_bar box_h k).size ∧
          scaled_monomial_scalar_basis_cell3.eval_functions
            (scaled_monomial_scalar_basis_cell3.make cell_bar box_h k) pt = .ok ret) ∧
      (∃ G, scaled_monomial_scalar_basis_cell3.eval_gradients_loops
            (scaled_monomial_scalar_basis_cell3.make cell_bar box_h k) pt
            = .ok (G, (scaled_monomial_scalar_basis_cell3.make cell_bar box_h k).size) ∧
          G.length = (scaled_monomial_scalar_basis_cell3.make cell_bar box_h k).size ∧
          scaled_monomial_scalar_basis_cell3.eval_gradients
            (scaled_monomial_scalar_basis_cell3.make cell_bar box_h k) pt = .ok G)) ∧
    (∀ (sqrt : K → K) (face_bar : point3 K) (face_h : K) (pts : List (point3 K)) (k : Nat)
      (b : scaled_monomial_scalar_basis_face3 K) (pt : point3 K),
      scaled_monomial_scalar_basis_face3.make sqrt face_bar face_h pts k = .ok b →
      (k + 1) * (k + 2) < SIZE_MOD →
      b.size = scalar_basis_size k 2 ∧
      ∃ ret, scaled_monomial_scalar_basis_face3.eval_functions_loops b pt = .ok (ret, b.size) ∧
        ret.length = b.size ∧
        scaled_monomial_scalar_basis_face3.eval_functions b pt = .ok ret) := by
  refine ⟨?_, ?_, ?_⟩
  · intro cell_bar box_h k pt hfit
    have hsz := scalar_basis_size_two k hfit
    refine ⟨rfl,
      ⟨(exponents2 k).map (fun e => ((pt.x - cell_bar.x) / (1 / 2 * box_h.1)) ^ e.1 *
          ((pt.y - cell_bar.y) / (1 / 2 * box_h.2)) ^ e.2), ?_, ?_, ?_⟩,
      ⟨(exponents2 k).map (gradient2 (2 / box_h.1) (2 / box_h.2)
          ((pt.x - cell_bar.x) / (1 / 2 * box_h.1))
          ((pt.y - cell_bar.y) / (1 / 2 * box_h.2))), ?_, ?_, ?_⟩⟩
    · rw [scaled_monomial_scalar_basis_cell2.cell2_eval_functions_loops_eq, if_pos (le_of_eq hsz.symm),
        filled_full _ _ _ (by rw [List.length_map, length_exponents2, hsz])]
      rfl
    · rw [List.length_map, length_exponents2, ← hsz]; rfl
    · rw [scaled_monomial_scalar_basis_cell2.cell2_eval_functions_eq, if_pos hsz.symm]
    · rw [scaled_monomial_scalar_basis_cell2.cell2_eval_gradients_loops_eq, if_pos (le_of_eq hsz.symm),
        filled_full _ _ _ (by rw [List.length_map, length_exponents2, hsz])]
      rfl
    · rw [List.length_map, length_exponents2, ← hsz]; rfl
    · rw [scaled_monomial_scalar_basis_cell2.cell2_eval_gradients_eq, if_pos hsz.symm]
  · intro cell_bar box_h k pt hfit
    have hsz := scalar_basis_size_three k hfit
    have hk := lt_of_fit_three k hfit
    refine ⟨rfl,
      ⟨(exponents3 k).map (fun e => ((pt.x - cell_bar.x) / (1 / 2 * box_h.1)) ^ e.1 *
          ((pt.y - cell_bar.y) / (1 / 2 * box_h.2.1)) ^ e.2.1 *
          ((pt.z - cell_bar.z) / (1 / 2 * box_h.2.2)) ^ e.2.2), ?_, ?_, ?_⟩,
      ⟨(exponents3 k).map (gradient3 (2 / box_h.1) (2 / box_h.2.1) (2 / box_h.2.2)
          ((pt.x - cell_bar.x) / (1 / 2 * box_h.1))
          ((pt.y - cell_bar.y) / (1 / 2 * box_h.2.1))
          ((pt.z - cell_bar.z) / (1 / 2 * box_h.2.2))), ?_, ?_, ?_⟩⟩
    · rw [scaled_monomial_scalar_basis_cell3.cell3_eval_functions_loops_eq _ _ _ hk,
        if_pos (le_of_eq hsz.symm),
        filled_full _ _ _ (by rw [List.length_map, length_exponents3, hsz])]
      rfl
    · rw [List.length_map, length_exponents3, ← hsz]; rfl
    · rw [scaled_monomial_scalar_basis_cell3.cell3_eval_functions_eq _ _ _ hk, if_pos hsz.symm]
    · rw [scaled_monomial_scalar_basis_cell3.cell3_eval_gradients_loops_eq _ _ _ hk,
        if_pos (le_of_eq hsz.symm),
        filled_full _ _ _ (by rw [List.length_map, length_exponents3, hsz])]
      rfl
    · rw [List.length_map, length_exponents3, ← hsz]; rfl
    · rw [scaled_monomial_scalar_basis_cell3.cell3_eval_gradients_eq _ _ _ hk, if_pos hsz.symm]
  · intro sqrt face_bar face_h pts k b pt hb hfit
    obtain ⟨hdeg, hsz, -, -, -⟩ :=
      scaled_monomial_scalar_basis_face3.face3_make_ok sqrt face_bar face_h pts k b hb
    have hc := scalar_basis_size_two k hfit
    have hsize : b.size = scalar_basis_size k 2 := hsz
    refine ⟨hsz, (exponents2 k).map (fun e =>
      (b.base.map_face_point_3d_to_2d pt).x ^ e.1 *
      (b.base.map_face_point_3d_to_2d pt).y ^ e.2), ?_, ?_, ?_⟩
    · rw [scaled_monomial_scalar_basis_face3.face3_eval_functions_loops_eq, hdeg, hsize, hsz,
        if_pos (le_of_eq hc.symm),
        filled_full _ _ _ (by rw [List.length_map, length_exponents2, hc])]
    · rw [List.length_map, length_exponents2, hsize, hc]
    · rw [scaled_monomial_scalar_basis_face3.face3_eval_functions_eq, hdeg, hsz, if_pos hc.symm]

theorem eval_functions_fill_exactly_witness :
    (∃ ret : List ℚ, scaled_monomial_scalar_basis_cell2.eval_functions_loops
        (scaled_monomial_scalar_basis_cell2.make ⟨0, 0⟩ (2, 2) 2) ⟨2, 3⟩ = .ok (ret, 6) ∧
      ret.length = 6) ∧
    (∃ ret : List ℚ, scaled_monomial_scalar_basis_cell3.eval_functions_loops
        (scaled_monomial_scalar_basis_cell3.make ⟨0, 0, 0⟩ (2, 2, 2) 2) ⟨2, 3, 5⟩
          = .ok (ret, 10) ∧
      ret.length = 10) ∧
    (∃ b, scaled_monomial_scalar_basis_face3.make (K := ℚ) (fun x => if x = 16 then 4 else 3)
        ⟨3 / 2, 2, 0⟩ 5 [⟨0, 0, 0⟩, ⟨3, 0, 0⟩, ⟨3, 4, 0⟩, ⟨0, 4, 0⟩] 1 = .ok b ∧
      ∃ ret, scaled_monomial_scalar_basis_face3.eval_functions_loops b ⟨1, 1, 0⟩ = .ok (ret, 3) ∧
        ret.length = 3) := by
  obtain ⟨-, ⟨r2, h2, l2, -⟩, -⟩ :=
    (eval_functions_fill_exactly (K := ℚ)).1 ⟨0, 0⟩ (2, 2) 2 ⟨2, 3⟩ (by decide)
  obtain ⟨-, ⟨r3, h3, l3, -⟩, -⟩ :=
    (eval_functions_fill_exactly (K := ℚ)).2.1 ⟨0, 0, 0⟩ (2, 2, 2) 2 ⟨2, 3, 5⟩ (by decide)
  obtain ⟨-, rf, hf, lf, -⟩ :=
    (eval_functions_fill_exactly (K := ℚ)).2.2 _ _ _ _ _ _ ⟨1, 1, 0⟩ face3_make_rectangle
      (by decide)
  exact ⟨⟨r2, h2, l2⟩, ⟨r3, h3, l3⟩, ⟨_, face3_make_rectangle, rf, hf, lf⟩⟩

namespace scaled_legendre_scalar_basis_face2

theorem legendre_face2_make_eq {K : Type} [Field K] (face_bar : point2 K) (face_h : K) (pts0 : point2 K)
    (degree : Nat) :
    make face_bar face_h pts0 degree =
      if degree > 10 then
        .error (fault.invalid_argument "Sorry, I don\x27t have a Legendre basis of order > 10.")
      else .ok { face_bar := face_bar, face_h := face_h, basis_degree := degree,
                 basis_size := (degree + 1) % SIZE_MOD, base := face_bar.sub pts0 } := by
  unfold make
  by_cases h : degree > 10
  · simp only [h, if_true]
    rfl
  · simp only [h, if_false]
    rfl

end scaled_legendre_scalar_basis_face2

/-- C9, as stated, fails when the size wraps: the 2D cell basis of degree `2^32` is
constructed and reports `size() = 6442450945`, which is not `C(2^32 + 2, 2)`. -/
theorem basis_size_invariant_counterexample :
    (scaled_monomial_scalar_basis_cell2.make (K := ℚ) ⟨0, 0⟩ (1, 1) (2 ^ 32)).size
      ≠ (2 ^ 32 + 2).choose 2 := by
  show scalar_basis_size (2 ^ 32) 2 ≠ _
  rw [scalar_basis_size_wrapped, choose_two_wrapped]
  decide

/-- C9 (amended): every successfully constructed basis of degree `k` has `degree() = k`,
and reports `size() = C(k+d, d)` with `d` the intrinsic dimension of its element whenever
the product `(k+1)...(k+d)` is inside the unsigned word: `C(k+2,2)` for a 2D cell,
`C(k+3,3)` for a 3D cell, `C(k+2,2)` for a 3D-mesh face (monomial and Legendre), and
`k+1` for a 2D-mesh face (monomial, and Legendre, whose construction succeeds for
`k <= 10` only, so that `k+1` always fits). -/
theorem basis_size_invariant {K : Type} [LinearOrderedField K] :
    (∀ (cell_bar : point2 K) (box_h : K × K) (k : Nat),
      (scaled_monomial_scalar_basis_cell2.make cell_bar box_h k).degree = k ∧
      ((k + 1) * (k + 2) < SIZE_MOD →
        (scaled_monomial_scalar_basis_cell2.make cell_bar box_h k).size = (k + 2).choose 2)) ∧
    (∀ (cell_bar : point3 K) (box_h : K × K × K) (k : Nat),
      (scaled_monomial_scalar_basis_cell3.make cell_bar box_h k).degree = k ∧
      ((k + 1) * (k + 2) * (k + 3) < SIZE_MOD →
        (scaled_monomial_scalar_basis_cell3.make cell_bar box_h k).size = (k + 3).choose 3)) ∧
    (∀ (sqrt : K → K) (face_bar : point3 K) (face_h : K) (pts : List (point3 K)) (k : Nat)
      (b : scaled_monomial_scalar_basis_face3 K),
      scaled_monomial_scalar_basis_face3.make sqrt face_bar face_h pts k = .ok b →
      b.degree = k ∧ ((k + 1) * (k + 2) < SIZE_MOD → b.size = (k + 2).choose 2)) ∧
    (∀ (face_bar : point3 K) (face_h : K) (k : Nat),
      (scaled_legendre_scalar_basis_face3.make face_bar face_h k).degree = k ∧
      ((k + 1) * (k + 2) < SIZE_MOD →
        (scaled_legendre_scalar_basis_face3.make face_bar face_h k).size = (k + 2).choose 2)) ∧
    (∀ (face_bar : point2 K) (face_h : K) (pts0 : point2 K) (k : Nat),
      (scaled_monomial_scalar_basis_face2.make face_bar face_h pts0 k).degree = k ∧
      (k + 1 < SIZE_MOD →
        (scaled_monomial_scalar_basis_face2.make face_bar face_h pts0 k).size = k + 1)) ∧
    (∀ (face_bar : point2 K) (face_h : K) (pts0 : point2 K) (k : Nat)
      (b : scaled_legendre_scalar_basis_face2 K),
      scaled_legendre_scalar_basis_face2.make face_bar face_h pts0 k = .ok b →
      b.degree = k ∧ b.size = k + 1) := by
  refine ⟨fun _ _ k => ⟨rfl, scalar_basis_size_two k⟩,
    fun _ _ k => ⟨rfl, scalar_basis_size_three k⟩, ?_,
    fun _ _ k => ⟨rfl, scalar_basis_size_two k⟩,
    fun _ _ _ k => ⟨rfl, fun h => Nat.mod_eq_of_lt h⟩, ?_⟩
  · intro sqrt face_bar face_h pts k b hb
    obtain ⟨hdeg, hsz, -, -, -⟩ :=
      scaled_monomial_scalar_basis_face3.face3_make_ok sqrt face_bar face_h pts k b hb
    exact ⟨hdeg, fun hfit => hsz.trans (scalar_basis_size_two k hfit)⟩
  · intro face_bar face_h pts0 k b hb
    rw [scaled_legendre_scalar_basis_face2.legendre_face2_make_eq] at hb
    by_cases h : k > 10
    · rw [if_pos h] at hb; cases hb
    · rw [if_neg h] at hb
      cases hb
      refine ⟨rfl, ?_⟩
      show (k + 1) % SIZE_MOD = k + 1
      exact Nat.mod_eq_of_lt (by unfold SIZE_MOD; omega)

theorem basis_size_invariant_witness :
    (scaled_monomial_scalar_basis_cell2.make (K := ℚ) ⟨0, 0⟩ (2, 2) 2).size = (2 + 2).choose 2 ∧
    (scaled_monomial_scalar_basis_cell3.make (K := ℚ) ⟨0, 0, 0⟩ (2, 2, 2) 3).size
      = (3 + 3).choose 3 ∧
    (∃ b, scaled_monomial_scalar_basis_face3.make (K := ℚ) (fun x => if x = 16 then 4 else 3)
        ⟨3 / 2, 2, 0⟩ 5 [⟨0, 0, 0⟩, ⟨3, 0, 0⟩, ⟨3, 4, 0⟩, ⟨0, 4, 0⟩] 1 = .ok b ∧
      b.size = (1 + 2).choose 2) ∧
    (scaled_legendre_scalar_basis_face3.make (K := ℚ) ⟨0, 0, 0⟩ 1 4).size = (4 + 2).choose 2 ∧
    (scaled_monomial_scalar_basis_face2.make (K := ℚ) ⟨1 / 2, 0⟩ 1 ⟨0, 0⟩ 5).size = 5 + 1 ∧
    (∃ b, scaled_legendre_scalar_basis_face2.make (K := ℚ) ⟨1 / 2, 0⟩ 1 ⟨0, 0⟩ 10 = .ok b ∧
      b.size = 10 + 1) :=
  ⟨((basis_size_invariant (K := ℚ)).1 ⟨0, 0⟩ (2, 2) 2).2 (by decide),
   ((basis_size_invariant (K := ℚ)).2.1 ⟨0, 0, 0⟩ (2, 2, 2) 3).2 (by decide),
   ⟨_, face3_make_rectangle,
    ((basis_size_invariant (K := ℚ)).2.2.1 _ _ _ _ _ _ face3_make_rectangle).2 (by decide)⟩,
   ((basis_size_invariant (K := ℚ)).2.2.2.1 ⟨0, 0, 0⟩ 1 4).2 (by decide),
   ((basis_size_invariant (K := ℚ)).2.2.2.2.1 ⟨1 / 2, 0⟩ 1 ⟨0, 0⟩ 5).2 (by decide),
   ⟨_, rfl, ((basis_size_invariant (K := ℚ)).2.2.2.2.2 ⟨1 / 2, 0⟩ 1 ⟨0, 0⟩ 10 _ rfl).2⟩⟩

/-- C10: constructing the 2D-face Legendre basis fails, with the `std::invalid_argument`
of the unsupported degree, if and only if the requested degree is greater than `10`; it
fails in no other way, and it succeeds exactly for the degrees `0..10`. -/
theorem legendre_face2_make_fails_iff {K : Type} [Field K] (face_bar : point2 K) (face_h : K)
    (pts0 : point2 K) (degree : Nat) :
    (scaled_legendre_scalar_basis_face2.make face_bar face_h pts0 degree =
        .error (fault.invalid_argument "Sorry, I don\x27t have a Legendre basis of order > 10.")
      ↔ degree > 10) ∧
    ((∃ e, scaled_legendre_scalar_basis_face2.make face_bar face_h pts0 degree = .error e)
      ↔ degree > 10) ∧
    ((∃ b, scaled_legendre_scalar_basis_face2.make face_bar face_h pts0 degree = .ok b)
      ↔ degree ≤ 10) := by
  rw [scaled_legendre_scalar_basis_face2.legendre_face2_make_eq]
  by_cases h : degree > 10
  · simp [h]
  · simp [h]
    omega

theorem legendre_zero {K : Type} [Field K] (x : K) : legendre 0 x = 1 := rfl

theorem legendre_one {K : Type} [Field K] (x : K) : legendre 1 x = x := rfl

theorem legendre_succ_succ {K : Type} [Field K] (n : Nat) (x : K) :
    legendre (n + 2) x =
      ((2 * ((n : K) + 1) + 1) * x * legendre (n + 1) x - ((n : K) + 1) * legendre n x)
        / ((n : K) + 2) := rfl

theorem eval_poly_switch_pow {K : Type} [Field K] (val x : K) :
    scaled_legendre_scalar_basis_face2.eval_poly_switch val (fun j => x ^ (j : Nat)) 0 = 1 ∧
    scaled_legendre_scalar_basis_face2.eval_poly_switch val (fun j => x ^ (j : Nat)) 1 = x ∧
    scaled_legendre_scalar_basis_face2.eval_poly_switch val (fun j => x ^ (j : Nat)) 2
      = (3 * x ^ 2 - 1) / 2 ∧
    scaled_legendre_scalar_basis_face2.eval_poly_switch val (fun j => x ^ (j : Nat)) 3
      = (5 * x ^ 3 - 3 * x) / 2 ∧
    scaled_legendre_scalar_basis_face2.eval_poly_switch val (fun j => x ^ (j : Nat)) 4
      = (35 * x ^ 4 - 30 * x ^ 2 + 3) / 8 ∧
    scaled_legendre_scalar_basis_face2.eval_poly_switch val (fun j => x ^ (j : Nat)) 5
      = (63 * x ^ 5 - 70 * x ^ 3 + 15 * x) / 8 ∧
    scaled_legendre_scalar_basis_face2.eval_poly_switch val (fun j => x ^ (j : Nat)) 6
      = (231 * x ^ 6 - 315 * x ^ 4 + 105 * x ^ 2 - 5) / 16 ∧
    scaled_legendre_scalar_basis_face2.eval_poly_switch val (fun j => x ^ (j : Nat)) 7
      = (429 * x ^ 7 - 693 * x ^ 5 + 315 * x ^ 3 - 35 * x) / 16 ∧
    scaled_legendre_scalar_basis_face2.eval_poly_switch val (fun j => x ^ (j : Nat)) 8
      = (6435 * x ^ 8 - 12012 * x ^ 6 + 6930 * x ^ 4 - 1260 * x ^ 2 + 35) / 128 ∧
    scaled_legendre_scalar_basis_face2.eval_poly_switch val (fun j => x ^ (j : Nat)) 9
      = (12155 * x ^ 9 - 25740 * x ^ 7 + 18018 * x ^ 5 - 4620 * x ^ 3 + 315 * x) / 128 ∧
    scaled_legendre_scalar_basis_face2.eval_poly_switch val (fun j => x ^ (j : Nat)) 10
      = (46189 * x ^ 10 - 109395 * x ^ 8 + 90090 * x ^ 6 - 30030 * x ^ 4 + 3465 * x ^ 2 - 63)
          / 256 := by
  refine ⟨rfl, ?_, rfl, ?_, rfl, ?_, rfl, ?_, rfl, ?_, rfl⟩ <;>
    simp [scaled_legendre_scalar_basis_face2.eval_poly_switch] <;> rfl

theorem eval_poly_switch_bonnet {K : Type} [Field K] [CharZero K] (val x : K) (n : Nat)
    (h1 : 1 ≤ n) (h9 : n ≤ 9) :
    ((n : K) + 1) *
        scaled_legendre_scalar_basis_face2.eval_poly_switch val (fun j => x ^ (j : Nat)) (n + 1)
      = (2 * (n : K) + 1) * x *
          scaled_legendre_scalar_basis_face2.eval_poly_switch val (fun j => x ^ (j : Nat)) n
        - (n : K) *
          scaled_legendre_scalar_basis_face2.eval_poly_switch val (fun j => x ^ (j : Nat))
            (n - 1) := by
  obtain ⟨e0, e1, e2, e3, e4, e5, e6, e7, e8, e9, e10⟩ := eval_poly_switch_pow val x
  interval_cases n
  · rw [e2, e1, e0]; push_cast; field_simp; ring
  · rw [e3, e2, e1]; push_cast; field_simp; ring
  · rw [e4, e3, e2]; push_cast; field_simp; ring
  · rw [e5, e4, e3]; push_cast; field_simp; ring
  · rw [e6, e5, e4]; push_cast; field_simp; ring
  · rw [e7, e6, e5]; push_cast; field_simp; ring
  · rw [e8, e7, e6]; push_cast; field_simp; ring
  · rw [e9, e8, e7]; push_cast; field_simp; ring
  · rw [e10, e9, e8]; push_cast; field_simp; ring

theorem eval_poly_switch_eq_legendre {K : Type} [Field K] [CharZero K] (val x : K) (n : Nat)
    (hn : n ≤ 10) :
    scaled_legendre_scalar_basis_face2.eval_poly_switch val (fun j => x ^ (j : Nat)) n
      = legendre n x := by
  induction n using Nat.strong_induction_on with
  | _ n ih =>
    match n, ih, hn with
    | 0, _, _ => exact (eval_poly_switch_pow val x).1
    | 1, _, _ => exact (eval_poly_switch_pow val x).2.1
    | m + 2, ih, hn =>
      have hb := eval_poly_switch_bonnet val x (m + 1) (by omega) (by omega)
      rw [legendre_succ_succ, ← ih (m + 1) (by omega) (by omega), ← ih m (by omega) (by omega)]
      have hne : ((m : K) + 2) ≠ 0 := by
        have : ((m + 2 : Nat) : K) ≠ 0 := Nat.cast_ne_zero.mpr (by omega)
        push_cast at this
        exact this
      rw [eq_div_iff hne]
      simp only [Nat.add_sub_cancel] at hb
      push_cast at hb
      linear_combination hb

/-- C12: for every `n` in `0..10` the closed-form polynomial that `eval_poly` uses for
degree `n`, before the normalisation, is the Legendre polynomial `P_n` (given by
`P_0 = 1`, `P_1 = x` and the Bonnet recurrence): with `pows[j] = x^j` over a field of
characteristic zero, the table gives `1` for `n = 0`, `x` for `n = 1`, satisfies
`(n+1) P_{n+1}(x) = (2n+1) x P_n(x) - n P_{n-1}(x)` for `n = 1..9`, equals `P_n(x)` for
every `n <= 10`, and takes the value `1` at `x = 1`. -/
theorem eval_poly_table_is_legendre {K : Type} [Field K] [CharZero K] (val x : K)
    (pows : Fin 11 → K) (hp : ∀ j : Fin 11, pows j = x ^ (j : Nat)) :
    scaled_legendre_scalar_basis_face2.eval_poly_switch val pows 0 = 1 ∧
    scaled_legendre_scalar_basis_face2.eval_poly_switch val pows 1 = x ∧
    (∀ n : Nat, 1 ≤ n → n ≤ 9 →
      ((n : K) + 1) * scaled_legendre_scalar_basis_face2.eval_poly_switch val pows (n + 1)
        = (2 * (n : K) + 1) * x * scaled_legendre_scalar_basis_face2.eval_poly_switch val pows n
          - (n : K) * scaled_legendre_scalar_basis_face2.eval_poly_switch val pows (n - 1)) ∧
    (∀ n : Nat, n ≤ 10 →
      scaled_legendre_scalar_basis_face2.eval_poly_switch val pows n = legendre n x) ∧
    (∀ n : Nat, n ≤ 10 →
      scaled_legendre_scalar_basis_face2.eval_poly_switch val (fun _ => 1) n = 1) := by
  have hpows : pows = fun j : Fin 11 => x ^ (j : Nat) := funext hp
  subst hpows
  refine ⟨(eval_poly_switch_pow val x).1, (eval_poly_switch_pow val x).2.1,
    fun n h1 h9 => eval_poly_switch_bonnet val x n h1 h9,
    fun n hn => eval_poly_switch_eq_legendre val x n hn, ?_⟩
  intro n hn
  have h1 : (fun _ : Fin 11 => (1 : K)) = fun j : Fin 11 => (1 : K) ^ (j : Nat) := by
    funext j; rw [one_pow]
  rw [h1]
  obtain ⟨e0, e1, e2, e3, e4, e5, e6, e7, e8, e9, e10⟩ := eval_poly_switch_pow val (1 : K)
  interval_cases n
  · rw [e0]
  · rw [e1]
  · rw [e2]; norm_num
  · rw [e3]; norm_num
  · rw [e4]; norm_num
  · rw [e5]; norm_num
  · rw [e6]; norm_num
  · rw [e7]; norm_num
  · rw [e8]; norm_num
  · rw [e9]; norm_num
  · rw [e10]; norm_num

theorem eval_poly_table_is_legendre_witness :
    scaled_legendre_scalar_basis_face2.eval_poly_switch (0 : ℚ) (fun j => (1 / 2) ^ (j : Nat)) 4
      = legendre 4 (1 / 2) ∧
    scaled_legendre_scalar_basis_face2.eval_poly_switch (0 : ℚ) (fun _ => 1) 10 = 1 :=
  ⟨(eval_poly_table_is_legendre (0 : ℚ) (1 / 2) (fun j => (1 / 2) ^ (j : Nat))
      (fun _ => rfl)).2.2.2.1 4 (by decide),
   (eval_poly_table_is_legendre (0 : ℚ) (1 / 2) (fun j => (1 / 2) ^ (j : Nat))
      (fun _ => rfl)).2.2.2.2 10 (by decide)⟩

theorem eval_poly_switch_congr {K : Type} [Field K] (val val2 : K) (p q : Fin 11 → K) (n : Nat)
    (hn : n ≤ 10) (h : ∀ j : Fin 11, (j : Nat) ≤ n → p j = q j) :
    scaled_legendre_scalar_basis_face2.eval_poly_switch val p n =
      scaled_legendre_scalar_basis_face2.eval_poly_switch val2 q n := by
  have h1 := h 1
  have h2 := h 2
  have h3 := h 3
  have h4 := h 4
  have h5 := h 5
  have h6 := h 6
  have h7 := h 7
  have h8 := h 8
  have h9 := h 9
  have h10 := h 10
  interval_cases n
  · rfl
  · simp only [scaled_legendre_scalar_basis_face2.eval_poly_switch, h1 (by decide)]
  · simp only [scaled_legendre_scalar_basis_face2.eval_poly_switch, h2 (by decide)]
  · simp only [scaled_legendre_scalar_basis_face2.eval_poly_switch, h3 (by decide),
      h1 (by decide)]
  · simp only [scaled_legendre_scalar_basis_face2.eval_poly_switch, h4 (by decide),
      h2 (by decide)]
  · simp only [scaled_legendre_scalar_basis_face2.eval_poly_switch, h5 (by decide),
      h3 (by decide), h1 (by decide)]
  · simp only [scaled_legendre_scalar_basis_face2.eval_poly_switch, h6 (by decide),
      h4 (by decide), h2 (by decide)]
  · simp only [scaled_legendre_scalar_basis_face2.eval_poly_switch, h7 (by decide),
      h5 (by decide), h3 (by decide), h1 (by decide)]
  · simp only [scaled_legendre_scalar_basis_face2.eval_poly_switch, h8 (by decide),
      h6 (by decide), h4 (by decide), h2 (by decide)]
  · simp only [scaled_legendre_scalar_basis_face2.eval_poly_switch, h9 (by decide),
      h7 (by decide), h5 (by decide), h3 (by decide), h1 (by decide)]
  · simp only [scaled_legendre_scalar_basis_face2.eval_poly_switch, h10 (by decide),
      h8 (by decide), h6 (by decide), h4 (by decide), h2 (by decide)]

theorem legendre_pows_fold {K : Type} [Field K] (ep : K) (pows0 : Fin 11 → K) (k : Nat)
    (hk : k ≤ 10) :
    ∃ pows, (List.range' 1 k).foldlM (fun (pows : Fin 11 → K) i =>
        if h : i < 11 then
          (pure (Function.update pows ⟨i, h⟩ (ep * pows ⟨i - 1, by omega⟩)) :
            Except fault (Fin 11 → K))
        else
          throw fault.out_of_range) (Function.update pows0 0 1) = .ok pows ∧
      ∀ j : Fin 11, (j : Nat) ≤ k → pows j = ep ^ (j : Nat) := by
  induction k with
  | zero =>
    refine ⟨Function.update pows0 0 1, rfl, ?_⟩
    intro j hj
    have : j = 0 := Fin.ext (by simpa using hj)
    subst this
    simp
  | succ k ih =>
    obtain ⟨pows, hf, hp⟩ := ih (by omega)
    have hlt : 1 + k < 11 := by omega
    refine ⟨Function.update pows ⟨1 + k, hlt⟩ (ep * pows ⟨1 + k - 1, by omega⟩), ?_, ?_⟩
    · rw [List.range'_1_concat, List.foldlM_append, hf, except_ok_bind]
      simp only [List.foldlM_cons, List.foldlM_nil, dif_pos hlt]
      rfl
    · intro j hj
      by_cases hjk : (j : Nat) = 1 + k
      · have hj' : j = ⟨1 + k, hlt⟩ := Fin.ext hjk
        subst hj'
        rw [Function.update_same, hp ⟨1 + k - 1, by omega⟩ (by simp)]
        simp only [Nat.add_sub_cancel_left]
        rw [← pow_succ', Nat.add_comm]
      · have hne : j ≠ ⟨1 + k, hlt⟩ := fun h => hjk (congrArg Fin.val h)
        rw [Function.update_noteq hne]
        exact hp j (by omega)

theorem write_range_fold {K : Type} [Zero K] (f : Nat → K) (N n : Nat) :
    (List.range n).foldlM (fun (ret : List K) i => vec_write ret i (f i)) (List.replicate N 0) =
      if n ≤ N then .ok ((List.range n).map f ++ List.replicate (N - n) 0)
      else .error fault.assertion_failed := by
  induction n with
  | zero => simp; rfl
  | succ n ih =>
    rw [List.range_succ, List.foldlM_append, ih]
    by_cases h : n + 1 ≤ N
    · rw [if_pos (by omega), if_pos h, except_ok_bind]
      simp only [List.foldlM_cons, List.foldlM_nil]
      have hset := filled_set (0 : K) N ((List.range n).map f) (f n) (by simpa using h)
      simp only [filled, List.length_map, List.length_range, Prod.mk.injEq] at hset
      have hlen : n < ((List.range n).map f ++ List.replicate (N - n) 0).length := by
        simp; omega
      simp only [vec_write, hlen, if_true, List.map_append, List.map_cons, List.map_nil]
      show Except.ok _ = _
      rw [hset.1, List.length_append, List.length_map, List.length_range]
      rfl
    · rw [if_neg h]
      by_cases h2 : n ≤ N
      · rw [if_pos h2, except_ok_bind]
        have hlen : ¬ n < ((List.range n).map f ++ List.replicate (N - n) 0).length := by
          simp; omega
        simp only [List.foldlM_cons, List.foldlM_nil, vec_write, hlen, if_false]
        rfl
      · rw [if_neg h2]
        rfl

theorem legendre_face2_eval_functions_eq {K : Type} [Field K] [CharZero K] (sqrt : K → K)
    (val : K) (pows0 : Fin 11 → K) (b : scaled_legendre_scalar_basis_face2 K) (pt : point2 K)
    (hk : b.basis_degree ≤ 10) (hsz : b.basis_size = b.basis_degree + 1) :
    scaled_legendre_scalar_basis_face2.eval_functions sqrt val pows0 b pt =
      .ok ((List.range (b.basis_degree + 1)).map (fun i =>
        legendre i (4 * b.base.dot (pt.sub b.face_bar) / (b.face_h * b.face_h))
          / sqrt (2 / ((2 * i + 1 : Nat) : K)) * sqrt (2 / b.face_h))) := by
  obtain ⟨pows, hf, hp⟩ := legendre_pows_fold
    (4 * b.base.dot (pt.sub b.face_bar) / (b.face_h * b.face_h)) pows0 b.basis_degree hk
  unfold scaled_legendre_scalar_basis_face2.eval_functions
  simp only []
  rw [hf, except_ok_bind, write_range_fold, hsz, if_pos (le_refl _), Nat.sub_self,
    List.replicate_zero, List.append_nil]
  congr 1
  apply List.map_congr_left
  intro i hi
  have hi' : i ≤ b.basis_degree := by
    have := List.mem_range.mp hi
    omega
  have hmod : (2 * i + 1) % SIZE_MOD = 2 * i + 1 :=
    Nat.mod_eq_of_lt (by unfold SIZE_MOD; omega)
  unfold scaled_legendre_scalar_basis_face2.eval_poly
  rw [hmod, eval_poly_switch_congr val val pows
    (fun j => (4 * b.base.dot (pt.sub b.face_bar) / (b.face_h * b.face_h)) ^ (j : Nat)) i
    (by omega) (fun j hj => hp j (by omega)),
    eval_poly_switch_eq_legendre val _ i (by omega)]

theorem legendre_face2_make_ok {K : Type} [Field K] (face_bar : point2 K) (face_h : K)
    (pts0 : point2 K) (k : Nat) (b : scaled_legendre_scalar_basis_face2 K)
    (hb : scaled_legendre_scalar_basis_face2.make face_bar face_h pts0 k = .ok b) :
    k ≤ 10 ∧ b = { face_bar := face_bar, face_h := face_h, basis_degree := k,
                   basis_size := k + 1, base := face_bar.sub pts0 } := by
  rw [scaled_legendre_scalar_basis_face2.legendre_face2_make_eq] at hb
  by_cases h : k > 10
  · rw [if_pos h] at hb; cases hb
  · rw [if_neg h] at hb
    have hm : (k + 1) % SIZE_MOD = k + 1 := Nat.mod_eq_of_lt (by unfold SIZE_MOD; omega)
    rw [hm] at hb
    cases hb
    exact ⟨by omega, rfl⟩

/-- C11, as stated, fails: on the face from `(0,0)` to `(1,0)` (barycenter `(1/2, 0)`,
diameter `1`) the degree-0 Legendre basis returns, at the barycenter, the entry
`1 / sqrt(2) * sqrt(2) = 1`, which is not `P_0(ep) * sqrt(2/h) = sqrt(2)`: `eval_poly`
divides the table value by `sqrt(2/(2i+1))`. -/
theorem legendre_face2_eval_functions_counterexample :
    ∃ b, scaled_legendre_scalar_basis_face2.make (K := ℝ) ⟨1 / 2, 0⟩ 1 ⟨0, 0⟩ 0 = .ok b ∧
      ∃ v, scaled_legendre_scalar_basis_face2.eval_functions Real.sqrt 0 (fun _ => 0) b
          ⟨1 / 2, 0⟩ = .ok v ∧
        v = [1] ∧
        v[0]? ≠ some (legendre 0 (4 * ((point2.sub ⟨1 / 2, 0⟩ ⟨0, 0⟩).dot
            (point2.sub ⟨1 / 2, 0⟩ ⟨1 / 2, 0⟩)) / (1 * 1)) * Real.sqrt (2 / 1)) := by
  refine ⟨_, rfl, [1], ?_, rfl, ?_⟩
  · rw [legendre_face2_eval_functions_eq Real.sqrt 0 (fun _ => 0) _ _ (by decide) rfl]
    have h2 : Real.sqrt 2 ≠ 0 := by positivity
    have r1 : List.range 1 = [0] := rfl
    simp [legendre_zero, h2, r1]
  · have h2 : Real.sqrt 2 ≠ 1 := by
      intro h
      have := Real.sq_sqrt (show (0 : ℝ) ≤ 2 by norm_num)
      rw [h] at this
      norm_num at this
    simp [legendre_zero]
    exact fun h => h2 h.symm

/-- C11 (amended): for the 2D-face Legendre basis of a degree `k` (its construction
succeeds, so `k <= 10`) on a face of diameter `h > 0`, for every point `pt`,
`eval_functions` returns `k + 1` entries and, for every `i` in `0..k`, entry `i` equals
`P_i(ep) / sqrt(2/(2i+1)) * sqrt(2/h)`, where `P_i` is the Legendre polynomial of degree
`i` and `ep = 4*((bar - pt0) . (pt - bar))/h^2`; the result does not depend on the
initial contents of the local variables. -/
theorem legendre_face2_eval_functions_entries {K : Type} [LinearOrderedField K] (sqrt : K → K)
    (val : K) (pows0 : Fin 11 → K) (face_bar : point2 K) (face_h : K) (pts0 : point2 K)
    (k : Nat) (b : scaled_legendre_scalar_basis_face2 K) (pt : point2 K)
    (hb : scaled_legendre_scalar_basis_face2.make face_bar face_h pts0 k = .ok b)
    (_hh : 0 < face_h) :
    ∃ v, scaled_legendre_scalar_basis_face2.eval_functions sqrt val pows0 b pt = .ok v ∧
      v.length = k + 1 ∧
      ∀ i, i ≤ k →
        v[i]? = some (legendre i
            (4 * (face_bar.sub pts0).dot (pt.sub face_bar) / (face_h * face_h))
          / sqrt (2 / ((2 * i + 1 : Nat) : K)) * sqrt (2 / face_h)) := by
  obtain ⟨hk, rfl⟩ := legendre_face2_make_ok face_bar face_h pts0 k b hb
  refine ⟨_, legendre_face2_eval_functions_eq sqrt val pows0 _ pt hk rfl, by simp, ?_⟩
  intro i hi
  rw [List.getElem?_map, List.getElem?_range (by show i < k + 1; omega)]
  rfl

theorem legendre_face2_eval_functions_entries_witness :
    ∃ v : List ℚ, (∃ b, scaled_legendre_scalar_basis_face2.make (K := ℚ) ⟨1 / 2, 0⟩ 1 ⟨0, 0⟩ 3
          = .ok b ∧
        scaled_legendre_scalar_basis_face2.eval_functions (fun x => x) 7 (fun _ => 9) b ⟨1, 0⟩
          = .ok v) ∧
      v.length = 3 + 1 := by
  obtain ⟨v, h1, h2, -⟩ := legendre_face2_eval_functions_entries (K := ℚ) (fun x => x) 7
    (fun _ => 9) ⟨1 / 2, 0⟩ 1 ⟨0, 0⟩ 3 _ ⟨1, 0⟩ rfl (by norm_num)
  exact ⟨v, ⟨_, rfl, h1⟩, h2⟩

theorem compute_axis_scan_succ {K : Type} [LinearOrderedField K] (sqrt : K → K)
    (pts : List (point3 K)) (fuel i : Nat) :
    scaled_monomial_abstract_face_basis.compute_axis_scan sqrt pts (fuel + 1) i =
      match pts[(i + 1) % pts.length]?, pts[i]?, pts[(i - 1) % pts.length]? with
      | some p0, some p, some p1 =>
        if unit_dot sqrt (p0.sub p) (p1.sub p) < 99 / 100 then
          .ok (some (p0.sub p, p1.sub p))
        else
          scaled_monomial_abstract_face_basis.compute_axis_scan sqrt pts fuel (i + 1)
      | _, _, _ => .error fault.out_of_range := by
  rw [scaled_monomial_abstract_face_basis.compute_axis_scan]
  rfl

theorem compute_axis_scan_some {K : Type} [LinearOrderedField K] (sqrt : K → K)
    (pts : List (point3 K)) (fuel : Nat) :
    ∀ (i : Nat) (v0 v1 : point3 K),
      scaled_monomial_abstract_face_basis.compute_axis_scan sqrt pts fuel i
        = .ok (some (v0, v1)) →
      ∃ j p0 p p1, i ≤ j ∧ j < i + fuel ∧
        pts[(j + 1) % pts.length]? = some p0 ∧ pts[j]? = some p ∧
        pts[(j - 1) % pts.length]? = some p1 ∧
        v0 = p0.sub p ∧ v1 = p1.sub p ∧ unit_dot sqrt v0 v1 < 99 / 100 ∧
        ∀ j', i ≤ j' → j' < j → ∃ q0 q q1,
          pts[(j' + 1) % pts.length]? = some q0 ∧ pts[j']? = some q ∧
          pts[(j' - 1) % pts.length]? = some q1 ∧
          ¬ unit_dot sqrt (q0.sub q) (q1.sub q) < 99 / 100 := by
  induction fuel with
  | zero =>
    intro i v0 v1 h
    simp [scaled_monomial_abstract_face_basis.compute_axis_scan, pure, Except.pure] at h
  | succ fuel ih =>
    intro i v0 v1 h
    rw [compute_axis_scan_succ] at h
    cases h0 : pts[(i + 1) % pts.length]? with
    | none => simp [h0] at h
    | some p0 =>
      cases hp : pts[i]? with
      | none => simp [h0, hp] at h
      | some p =>
        cases h1 : pts[(i - 1) % pts.length]? with
        | none => simp [h0, hp, h1] at h
        | some p1 =>
          simp only [h0, hp, h1] at h
          by_cases hd : unit_dot sqrt (p0.sub p) (p1.sub p) < 99 / 100
          · rw [if_pos hd] at h
            simp only [Except.ok.injEq, Option.some.injEq, Prod.mk.injEq] at h
            obtain ⟨rfl, rfl⟩ := h
            exact ⟨i, p0, p, p1, le_refl _, by omega, h0, hp, h1, rfl, rfl, hd,
              fun j' h1' h2' => by omega⟩
          · rw [if_neg hd] at h
            obtain ⟨j, q0, q, q1, hij, hjf, e0, e, e1, ev0, ev1, hlt, hprev⟩ := ih (i + 1) v0 v1 h
            refine ⟨j, q0, q, q1, by omega, by omega, e0, e, e1, ev0, ev1, hlt, ?_⟩
            intro j' hj1 hj2
            by_cases hji : j' = i
            · subst hji
              exact ⟨p0, p, p1, h0, hp, h1, hd⟩
            · exact hprev j' (by omega) hj2

theorem compute_axis_scan_ne_none {K : Type} [LinearOrderedField K] (sqrt : K → K)
    (pts : List (point3 K)) (fuel : Nat) :
    ∀ i, i + fuel = pts.length + 1 → 1 ≤ fuel →
      scaled_monomial_abstract_face_basis.compute_axis_scan sqrt pts fuel i ≠ .ok none := by
  induction fuel with
  | zero => intro i _ h; omega
  | succ fuel ih =>
    intro i hi _ h
    rw [compute_axis_scan_succ] at h
    cases h0 : pts[(i + 1) % pts.length]? with
    | none => simp [h0] at h
    | some p0 =>
      cases hp : pts[i]? with
      | none => simp [h0, hp] at h
      | some p =>
        cases h1 : pts[(i - 1) % pts.length]? with
        | none => simp [h0, hp, h1] at h
        | some p1 =>
          simp only [h0, hp, h1] at h
          have hlt : i < pts.length := by
            by_contra hc
            rw [List.getElem?_eq_none (by omega)] at hp
            cases hp
          by_cases hd : unit_dot sqrt (p0.sub p) (p1.sub p) < 99 / 100
          · rw [if_pos hd] at h
            simp at h
          · rw [if_neg hd] at h
            exact ih (i + 1) (by omega) (by omega) h

/-- The `std::invalid_argument` of `compute_axis` is thrown for the empty vertex list
only: on a non-empty list the scan either accepts a pair or reads `pts[npts]`. -/
theorem compute_axis_ne_invalid_argument {K : Type} [LinearOrderedField K] (sqrt : K → K)
    (pts : List (point3 K)) (hne : pts ≠ []) (what : String) :
    scaled_monomial_abstract_face_basis.compute_axis sqrt pts
      ≠ .error (fault.invalid_argument what) := by
  intro h
  unfold scaled_monomial_abstract_face_basis.compute_axis at h
  have hlen : 1 ≤ pts.length := List.length_pos.mpr hne
  have hscan := compute_axis_scan_ne_none sqrt pts pts.length 1 (by omega) hlen
  cases hs : scaled_monomial_abstract_face_basis.compute_axis_scan sqrt pts pts.length 1 with
  | error e =>
    rw [hs] at h
    have : e = fault.invalid_argument what := by
      simpa [bind, Except.bind] using h
    subst this
    -- the scan itself never throws `invalid_argument`
    have hno : ∀ fuel i w,
        scaled_monomial_abstract_face_basis.compute_axis_scan sqrt pts fuel i
          ≠ .error (fault.invalid_argument w) := by
      intro fuel
      induction fuel with
      | zero =>
        intro i w hh
        simp [scaled_monomial_abstract_face_basis.compute_axis_scan, pure, Except.pure] at hh
      | succ fuel ih =>
        intro i w hh
        rw [compute_axis_scan_succ] at hh
        split at hh
        · split_ifs at hh
          exact ih _ _ hh
        · cases hh
    exact hno _ _ _ hs
  | ok r =>
    rw [hs] at h
    cases r with
    | none => exact hscan hs
    | some vv =>
      obtain ⟨v0, v1⟩ := vv
      simp [bind, Except.bind, pure, Except.pure] at h

theorem real_sqrt_four : Real.sqrt 4 = 2 := by
  rw [show (4 : ℝ) = 2 ^ 2 by norm_num]
  exact Real.sqrt_sq (by norm_num)

/-- C13 (code evaluated at the failing input): for the collinear vertices `(0,0,0)`,
`(1,0,0)`, `(2,0,0)` no vertex order makes `compute_axis` throw its
`std::invalid_argument`. With the middle vertex at index 1 or 2 its two edges are opposite
(unit-vector dot product `-1 < 0.99`), the pair is accepted and a frame with `e1 = 0` is
returned; with the middle vertex at index 0 both scanned vertices are rejected and the
scan reads `pts[3]`. -/
theorem compute_axis_collinear_triangle :
    scaled_monomial_abstract_face_basis.compute_axis Real.sqrt
        [⟨0, 0, 0⟩, ⟨1, 0, 0⟩, ⟨2, 0, 0⟩] = .ok (⟨1, 0, 0⟩, ⟨0, 0, 0⟩) ∧
    scaled_monomial_abstract_face_basis.compute_axis Real.sqrt
        [⟨0, 0, 0⟩, ⟨2, 0, 0⟩, ⟨1, 0, 0⟩] = .ok (⟨-1, 0, 0⟩, ⟨0, 0, 0⟩) ∧
    scaled_monomial_abstract_face_basis.compute_axis Real.sqrt
        [⟨1, 0, 0⟩, ⟨0, 0, 0⟩, ⟨2, 0, 0⟩] = .error fault.out_of_range := by
  have h4 := real_sqrt_four
  refine ⟨?_, ?_, ?_⟩
  · have hscan : scaled_monomial_abstract_face_basis.compute_axis_scan Real.sqrt
        [⟨0, 0, 0⟩, ⟨1, 0, 0⟩, ⟨2, 0, 0⟩] 3 1 = .ok (some (⟨1, 0, 0⟩, ⟨-1, 0, 0⟩)) := by
      simp [scaled_monomial_abstract_face_basis.compute_axis_scan, point3.sub, point3.dot,
        point3.sdiv, point3.norm]
      norm_num
      rfl
    simp [scaled_monomial_abstract_face_basis.compute_axis, hscan, point3.sub, point3.dot,
      point3.sdiv, point3.smul, bind, Except.bind, pure, Except.pure]
  · have hscan : scaled_monomial_abstract_face_basis.compute_axis_scan Real.sqrt
        [⟨0, 0, 0⟩, ⟨2, 0, 0⟩, ⟨1, 0, 0⟩] 3 1 = .ok (some (⟨-1, 0, 0⟩, ⟨1, 0, 0⟩)) := by
      simp [scaled_monomial_abstract_face_basis.compute_axis_scan, point3.sub, point3.dot,
        point3.sdiv, point3.norm]
      norm_num [h4]
      rfl
    simp [scaled_monomial_abstract_face_basis.compute_axis, hscan, point3.sub, point3.dot,
      point3.sdiv, point3.smul, bind, Except.bind, pure, Except.pure]
  · have hscan : scaled_monomial_abstract_face_basis.compute_axis_scan Real.sqrt
        [⟨1, 0, 0⟩, ⟨0, 0, 0⟩, ⟨2, 0, 0⟩] 3 1 = .error fault.out_of_range := by
      simp [scaled_monomial_abstract_face_basis.compute_axis_scan, point3.sub, point3.dot,
        point3.sdiv, point3.norm]
      norm_num [h4]
      rfl
    simp [scaled_monomial_abstract_face_basis.compute_axis, hscan, bind, Except.bind]

/-- C14 (code evaluated at the failing input): on the triangle `(0,0,0)`, `(112,15,0)`,
`(-112,15,0)` the vertices of index 1 and 2 have edge pairs of unit-vector dot product
`112/113 >= 0.99` and are rejected; vertex 0, whose pair has dot product
`-12319/12769 < 0.99`, is never examined: the scan goes on to `i = 3` and reads
`pts[3]`, outside the vertex list. -/
theorem compute_axis_flat_triangle :
    scaled_monomial_abstract_face_basis.compute_axis Real.sqrt
        [⟨0, 0, 0⟩, ⟨112, 15, 0⟩, ⟨-112, 15, 0⟩] = .error fault.out_of_range ∧
    unit_dot Real.sqrt (point3.sub ⟨112, 15, 0⟩ ⟨0, 0, 0⟩) (point3.sub ⟨-112, 15, 0⟩ ⟨0, 0, 0⟩)
      < 99 / 100 := by
  have h1 : Real.sqrt 50176 = 224 := by
    rw [show (50176 : ℝ) = 224 ^ 2 by norm_num]
    exact Real.sqrt_sq (by norm_num)
  have h2 : Real.sqrt 12769 = 113 := by
    rw [show (12769 : ℝ) = 113 ^ 2 by norm_num]
    exact Real.sqrt_sq (by norm_num)
  constructor
  · have hscan : scaled_monomial_abstract_face_basis.compute_axis_scan Real.sqrt
        [⟨0, 0, 0⟩, ⟨112, 15, 0⟩, ⟨-112, 15, 0⟩] 3 1 = .error fault.out_of_range := by
      simp [scaled_monomial_abstract_face_basis.compute_axis_scan, point3.sub, point3.dot,
        point3.sdiv, point3.norm]
      norm_num [h1, h2]
      rfl
    simp [scaled_monomial_abstract_face_basis.compute_axis, hscan, bind, Except.bind]
  · simp [unit_dot, point3.sub, point3.dot, point3.sdiv, point3.norm]
    norm_num [h2]

/-- C16 (code evaluated at the failing input): on the face `(0,0,0)`, `(1,0,0)`,
`(2,0,0)`, `(2,2,0)`, `(0,2,0)`, a square with a hanging node in the middle of one side,
`compute_axis` succeeds at the hanging node, whose two edges are opposite (unit-vector
dot product `-1 < 0.99`), and returns the frame `e0 = (1,0,0)`, `e1 = (0,0,0)`: `e1` is
zero and the two vectors are collinear. -/
theorem compute_axis_hanging_node :
    scaled_monomial_abstract_face_basis.compute_axis Real.sqrt
        [⟨0, 0, 0⟩, ⟨1, 0, 0⟩, ⟨2, 0, 0⟩, ⟨2, 2, 0⟩, ⟨0, 2, 0⟩]
      = .ok (⟨1, 0, 0⟩, ⟨0, 0, 0⟩) := by
  have hscan : scaled_monomial_abstract_face_basis.compute_axis_scan Real.sqrt
      [⟨0, 0, 0⟩, ⟨1, 0, 0⟩, ⟨2, 0, 0⟩, ⟨2, 2, 0⟩, ⟨0, 2, 0⟩] 5 1
        = .ok (some (⟨1, 0, 0⟩, ⟨-1, 0, 0⟩)) := by
    simp [scaled_monomial_abstract_face_basis.compute_axis_scan, point3.sub, point3.dot,
      point3.sdiv, point3.norm]
    norm_num
    rfl
  simp [scaled_monomial_abstract_face_basis.compute_axis, hscan, point3.sub, point3.dot,
    point3.sdiv, point3.smul, bind, Except.bind, pure, Except.pure]

theorem compute_axis_rectangle :
    scaled_monomial_abstract_face_basis.compute_axis (K := ℚ) (fun x => if x = 16 then 4 else 3)
      [⟨0, 0, 0⟩, ⟨3, 0, 0⟩, ⟨3, 4, 0⟩, ⟨0, 4, 0⟩] = .ok (⟨0, 4, 0⟩, ⟨-3, 0, 0⟩) := by
  have hscan : scaled_monomial_abstract_face_basis.compute_axis_scan (K := ℚ)
      (fun x => if x = 16 then 4 else 3)
      [⟨0, 0, 0⟩, ⟨3, 0, 0⟩, ⟨3, 4, 0⟩, ⟨0, 4, 0⟩] 4 1 = .ok (some (⟨0, 4, 0⟩, ⟨-3, 0, 0⟩)) := by
    simp [scaled_monomial_abstract_face_basis.compute_axis_scan, point3.sub, point3.dot,
      point3.sdiv, point3.norm]
    rfl
  simp [scaled_monomial_abstract_face_basis.compute_axis, hscan, point3.sub, point3.dot,
    point3.sdiv, point3.smul, bind, Except.bind, pure, Except.pure]

/-- C15: whenever `compute_axis` succeeds with the frame `(e0, e1)`, there is a vertex
index `i >= 1` (with `i < npts`) whose unit edge vectors `pts[(i+1) mod n] - pts[i]` and
`pts[(i-1) mod n] - pts[i]` have dot product below `0.99`, every vertex `j` visited
earlier (`1 <= j < i`) has dot product `>= 0.99`, `e0` is exactly the un-normalised edge
`pts[(i+1) mod n] - pts[i]`, and `e1` is the other edge minus its projection on `e0`. -/
theorem compute_axis_uses_first_pair {K : Type} [LinearOrderedField K] (sqrt : K → K)
    (pts : List (point3 K)) (e0 e1 : point3 K)
    (h : scaled_monomial_abstract_face_basis.compute_axis sqrt pts = .ok (e0, e1)) :
    ∃ i p0 p p1, 1 ≤ i ∧ i < pts.length ∧
      pts[(i + 1) % pts.length]? = some p0 ∧ pts[i]? = some p ∧
      pts[(i - 1) % pts.length]? = some p1 ∧
      unit_dot sqrt (p0.sub p) (p1.sub p) < 99 / 100 ∧
      (∀ j, 1 ≤ j → j < i → ∃ q0 q q1,
        pts[(j + 1) % pts.length]? = some q0 ∧ pts[j]? = some q ∧
        pts[(j - 1) % pts.length]? = some q1 ∧
        99 / 100 ≤ unit_dot sqrt (q0.sub q) (q1.sub q)) ∧
      e0 = p0.sub p ∧
      e1 = (p1.sub p).sub
        ((point3.smul ((p1.sub p).dot (p0.sub p)) (p0.sub p)).sdiv ((p0.sub p).dot (p0.sub p))) := by
  unfold scaled_monomial_abstract_face_basis.compute_axis at h
  cases hs : scaled_monomial_abstract_face_basis.compute_axis_scan sqrt pts pts.length 1 with
  | error e =>
    rw [hs] at h
    simp [bind, Except.bind] at h
  | ok r =>
    rw [hs] at h
    cases r with
    | none => simp [bind, Except.bind, throw, throwThe, MonadExceptOf.throw] at h
    | some vv =>
      obtain ⟨v0, v1⟩ := vv
      simp only [bind, Except.bind, pure, Except.pure, Except.ok.injEq, Prod.mk.injEq] at h
      obtain ⟨rfl, rfl⟩ := h
      obtain ⟨i, p0, p, p1, hi1, -, h0, hp, h1, rfl, rfl, hlt, hprev⟩ :=
        compute_axis_scan_some sqrt pts pts.length 1 _ _ hs
      have hil : i < pts.length := by
        by_contra hc
        rw [List.getElem?_eq_none (by omega)] at hp
        cases hp
      refine ⟨i, p0, p, p1, hi1, hil, h0, hp, h1, hlt, ?_, rfl, rfl⟩
      intro j hj1 hj2
      obtain ⟨q0, q, q1, g0, g, g1, hq⟩ := hprev j hj1 hj2
      exact ⟨q0, q, q1, g0, g, g1, not_lt.mp hq⟩

theorem compute_axis_uses_first_pair_witness :
    ∃ (i : Nat) (p0 p p1 : point3 ℚ), 1 ≤ i ∧ i < 4 ∧
      ([⟨0, 0, 0⟩, ⟨3, 0, 0⟩, ⟨3, 4, 0⟩, ⟨0, 4, 0⟩] : List (point3 ℚ))[i]? = some p ∧
      unit_dot (fun x : ℚ => if x = 16 then 4 else 3) (p0.sub p) (p1.sub p) < 99 / 100 ∧
      (⟨0, 4, 0⟩ : point3 ℚ) = p0.sub p := by
  obtain ⟨i, p0, p, p1, h1, h2, -, h4, -, h6, -, h8, -⟩ :=
    compute_axis_uses_first_pair (K := ℚ) (fun x => if x = 16 then 4 else 3)
      [⟨0, 0, 0⟩, ⟨3, 0, 0⟩, ⟨3, 4, 0⟩, ⟨0, 4, 0⟩] ⟨0, 4, 0⟩ ⟨-3, 0, 0⟩ compute_axis_rectangle
  exact ⟨i, p0, p, p1, h1, h2, h4, h6, h8⟩

theorem mul_cell_block_inverse {K : Type} [Field K] {nT : Nat}
    (A_TT : Matrix (Fin nT) (Fin nT) K) (h : A_TT.det ≠ 0) :
    A_TT * cell_block_inverse A_TT = 1 := by
  unfold cell_block_inverse
  rw [Matrix.mul_smul, Matrix.mul_adjugate, smul_smul, inv_mul_cancel₀ h, one_smul]

/-- C17: static condensation is exact. For a local system over a field with matrix `A`
and right-hand side `L`, partitioned into cell and face blocks, with `A_TT` invertible:
if `(S, R)` is the result of reduce, `u_F` solves `S * u_F = R` and `[u_T; u_F]` is the
result of recover, then `A * [u_T; u_F] = L`; when `A` is invertible, `[u_T; u_F]` is the
only solution of the full system. -/
theorem static_condensation_exact {K : Type} [Field K] {nT nF : Nat}
    (A : Matrix (Fin nT ⊕ Fin nF) (Fin nT ⊕ Fin nF) K) (L : Fin nT ⊕ Fin nF → K)
    (u_F : Fin nF → K) (hTT : A.toBlocks₁₁.det ≠ 0)
    (hS : (diffusion_static_condensation_compute_full A L).1.mulVec u_F
      = (diffusion_static_condensation_compute_full A L).2) :
    A.mulVec (diffusion_static_condensation_recover A (fun i => L (Sum.inl i)) u_F) = L ∧
    (A.det ≠ 0 → ∀ x, A.mulVec x = L →
      x = diffusion_static_condensation_recover A (fun i => L (Sum.inl i)) u_F) := by
  have hinv := mul_cell_block_inverse A.toBlocks₁₁ hTT
  have hsol : A.mulVec (diffusion_static_condensation_recover A (fun i => L (Sum.inl i)) u_F)
      = L := by
    conv_lhs => rw [← Matrix.fromBlocks_toBlocks A]
    rw [Matrix.fromBlocks_mulVec]
    simp only [diffusion_static_condensation_compute_full,
      diffusion_static_condensation_recover] at hS ⊢
    have htop : A.toBlocks₁₁.mulVec ((cell_block_inverse A.toBlocks₁₁).mulVec
        ((fun i => L (Sum.inl i)) - A.toBlocks₁₂.mulVec u_F)) + A.toBlocks₁₂.mulVec u_F
        = fun i => L (Sum.inl i) := by
      rw [Matrix.mulVec_mulVec, hinv, Matrix.one_mulVec, sub_add_cancel]
    have hbot : A.toBlocks₂₁.mulVec ((cell_block_inverse A.toBlocks₁₁).mulVec
        ((fun i => L (Sum.inl i)) - A.toBlocks₁₂.mulVec u_F)) + A.toBlocks₂₂.mulVec u_F
        = fun i => L (Sum.inr i) := by
      rw [Matrix.sub_mulVec] at hS
      rw [Matrix.mulVec_mulVec, Matrix.mulVec_sub, Matrix.mulVec_mulVec]
      have e : (A.toBlocks₂₁ * cell_block_inverse A.toBlocks₁₁ * A.toBlocks₁₂).mulVec u_F
          = A.toBlocks₂₂.mulVec u_F - ((fun i => L (Sum.inr i))
            - (A.toBlocks₂₁ * cell_block_inverse A.toBlocks₁₁).mulVec fun i => L (Sum.inl i)) := by
        rw [← hS]; abel
      rw [e]
      abel
    funext i
    cases i with
    | inl i => exact congrFun htop i
    | inr i => exact congrFun hbot i
  refine ⟨hsol, fun hdet x hx => ?_⟩
  have hinj : Function.Injective A.mulVec :=
    Matrix.mulVec_injective_iff_isUnit.mpr
      ((Matrix.isUnit_iff_isUnit_det A).mpr (isUnit_iff_ne_zero.mpr hdet))
  exact hinj (hx.trans hsol.symm)

theorem static_condensation_exact_witness :
    (Matrix.fromBlocks !![(2 : ℚ)] !![1] !![1] !![3]).mulVec
      (diffusion_static_condensation_recover
        (Matrix.fromBlocks !![(2 : ℚ)] !![1] !![1] !![3])
        (fun i => (Sum.elim ![(1 : ℚ)] ![2] : Fin 1 ⊕ Fin 1 → ℚ) (Sum.inl i)) ![3 / 5])
      = Sum.elim ![1] ![2] :=
  (static_condensation_exact
    (Matrix.fromBlocks !![(2 : ℚ)] !![1] !![1] !![3]) (Sum.elim ![1] ![2]) ![3 / 5]
    (by simp)
    (by
      ext i
      fin_cases i
      simp [diffusion_static_condensation_compute_full, cell_block_inverse, Matrix.mulVec,
        Matrix.dotProduct, Matrix.mul_apply]
      norm_num)).1

theorem countP_take_succ (flags : List Bool) (n : Nat) (hn : n < flags.length) :
    (flags.take (n + 1)).countP (fun d => !d)
      = (flags.take n).countP (fun d => !d) + (if flags[n]? = some false then 1 else 0) := by
  rw [List.take_succ, List.countP_append, List.getElem?_eq_getElem hn]
  cases h : flags[n] <;> simp [h]

theorem countP_take_le (flags : List Bool) (n : Nat) :
    (flags.take n).countP (fun d => !d) ≤ diffusion_dga.system_size flags :=
  (List.take_sublist n flags).countP_le _

theorem numbering_step_dirichlet (flags : List Bool) (st : diffusion_dga.numbering) (n : Nat)
    (h : flags[n]? = some true) :
    diffusion_dga.numbering_step flags st n = .ok st := by
  simp [diffusion_dga.numbering_step, diffusion_dga.at_read, h, bind, Except.bind, pure,
    Except.pure]

theorem numbering_step_free (flags : List Bool) (st : diffusion_dga.numbering) (n : Nat)
    (h : flags[n]? = some false) (he : st.nnum < st.expand_map.length)
    (hc : n < st.compress_map.length) :
    diffusion_dga.numbering_step flags st n =
      if st.nnum = diffusion_dga.INT_MAX then .error diffusion_dga.dga_fault.int_overflow
      else .ok { compress_map := st.compress_map.set n st.nnum,
                 expand_map := st.expand_map.set st.nnum n,
                 nnum := st.nnum + 1 } := by
  by_cases hm : st.nnum = diffusion_dga.INT_MAX
  · have he2 : diffusion_dga.INT_MAX < st.expand_map.length := hm ▸ he
    simp [diffusion_dga.numbering_step, diffusion_dga.at_read, diffusion_dga.at_write, h, he2,
      hm, bind, Except.bind, pure, Except.pure, throw, throwThe, MonadExceptOf.throw]
  · simp [diffusion_dga.numbering_step, diffusion_dga.at_read, diffusion_dga.at_write, h, he,
      hc, hm, bind, Except.bind, pure, Except.pure]

theorem numbering_inv_step_free (flags : List Bool) (st : diffusion_dga.numbering) (n : Nat)
    (hn : n < flags.length) (h : flags[n]? = some false) (hinv : numbering_inv flags n st) :
    st.nnum < st.expand_map.length ∧ n < st.compress_map.length ∧
    numbering_inv flags (n + 1)
      { compress_map := st.compress_map.set n st.nnum,
        expand_map := st.expand_map.set st.nnum n,
        nnum := st.nnum + 1 } := by
  obtain ⟨hcl, hel, hnn, hfwd, hbwd⟩ := hinv
  have hcount := countP_take_succ flags n hn
  rw [if_pos h] at hcount
  have hle := countP_take_le flags (n + 1)
  have he : st.nnum < st.expand_map.length := by omega
  have hc : n < st.compress_map.length := by omega
  refine ⟨he, hc, ?_, ?_, ?_, ?_, ?_⟩
  · simpa using hcl
  · simpa using hel
  · show st.nnum + 1 = _
    omega
  · intro i hi hfi
    by_cases hin : i = n
    · subst hin
      exact ⟨st.nnum, List.getElem?_set_self hc, Nat.lt_succ_self _, List.getElem?_set_self he⟩
    · obtain ⟨c, h1, h2, h3⟩ := hfwd i (by omega) hfi
      refine ⟨c, ?_, Nat.lt_succ_of_lt h2, ?_⟩
      · show (st.compress_map.set n st.nnum)[i]? = some c
        rw [List.getElem?_set_ne (Ne.symm hin)]; exact h1
      · show (st.expand_map.set st.nnum n)[c]? = some i
        rw [List.getElem?_set_ne (by omega)]; exact h3
  · intro j hj
    by_cases hjn : j = st.nnum
    · subst hjn
      exact ⟨n, List.getElem?_set_self he, Nat.lt_succ_self _, h, List.getElem?_set_self hc⟩
    · have hj' : j < st.nnum := by
        have : j < st.nnum + 1 := hj
        omega
      obtain ⟨i, h1, h2, h3, h4⟩ := hbwd j hj'
      refine ⟨i, ?_, Nat.lt_succ_of_lt h2, h3, ?_⟩
      · show (st.expand_map.set st.nnum n)[j]? = some i
        rw [List.getElem?_set_ne (Ne.symm hjn)]; exact h1
      · show (st.compress_map.set n st.nnum)[i]? = some j
        rw [List.getElem?_set_ne (by omega)]; exact h4

theorem numbering_inv_step_dirichlet (flags : List Bool) (st : diffusion_dga.numbering) (n : Nat)
    (hn : n < flags.length) (h : flags[n]? = some true) (hinv : numbering_inv flags n st) :
    numbering_inv flags (n + 1) st := by
  obtain ⟨hcl, hel, hnn, hfwd, hbwd⟩ := hinv
  have hcount := countP_take_succ flags n hn
  rw [if_neg (by rw [h]; simp)] at hcount
  refine ⟨hcl, hel, by omega, ?_, ?_⟩
  · intro i hi hfi
    have hin : i ≠ n := by
      rintro rfl
      rw [h] at hfi
      cases hfi
    exact hfwd i (by omega) hfi
  · intro j hj
    obtain ⟨i, h1, h2, h3, h4⟩ := hbwd j hj
    exact ⟨i, h1, Nat.lt_succ_of_lt h2, h3, h4⟩

theorem numbering_fold (flags : List Bool) (n : Nat) (hn : n ≤ flags.length) :
    ((flags.take n).countP (fun d => !d) ≤ diffusion_dga.INT_MAX →
      ∃ st, (List.range n).foldlM (diffusion_dga.numbering_step flags)
          { compress_map := List.replicate flags.length 0,
            expand_map := List.replicate (diffusion_dga.system_size flags) 0, nnum := 0 }
          = .ok st ∧ numbering_inv flags n st) ∧
    (diffusion_dga.INT_MAX < (flags.take n).countP (fun d => !d) →
      (List.range n).foldlM (diffusion_dga.numbering_step flags)
          { compress_map := List.replicate flags.length 0,
            expand_map := List.replicate (diffusion_dga.system_size flags) 0, nnum := 0 }
          = .error diffusion_dga.dga_fault.int_overflow) := by
  induction n with
  | zero =>
    refine ⟨fun _ => ⟨_, rfl, ?_⟩, fun h => ?_⟩
    · refine ⟨by simp, by simp, by simp, fun i hi => by omega, fun j hj => ?_⟩
      simp at hj
    · simp at h
  | succ n ih =>
    have hn' : n < flags.length := by omega
    obtain ⟨iha, ihb⟩ := ih (by omega)
    have hcount := countP_take_succ flags n hn'
    rw [List.range_succ, List.foldlM_append]
    cases hf : flags[n] with
    | true =>
      have hfn : flags[n]? = some true := by rw [List.getElem?_eq_getElem hn', hf]
      rw [if_neg (by rw [hfn]; simp)] at hcount
      rw [hcount]
      constructor
      · intro hle
        obtain ⟨st, hst, hinv⟩ := iha (by omega)
        refine ⟨st, ?_, numbering_inv_step_dirichlet flags st n hn' hfn hinv⟩
        rw [hst, except_ok_bind]
        simp only [List.foldlM_cons, List.foldlM_nil, numbering_step_dirichlet flags st n hfn]
        rfl
      · intro hlt
        rw [ihb (by omega)]
        rfl
    | false =>
      have hfn : flags[n]? = some false := by rw [List.getElem?_eq_getElem hn', hf]
      rw [if_pos hfn] at hcount
      rw [hcount]
      constructor
      · intro hle
        obtain ⟨st, hst, hinv⟩ := iha (by omega)
        obtain ⟨he, hc, hinv'⟩ := numbering_inv_step_free flags st n hn' hfn hinv
        refine ⟨_, ?_, hinv'⟩
        rw [hst, except_ok_bind]
        simp only [List.foldlM_cons, List.foldlM_nil,
          numbering_step_free flags st n hfn he hc]
        have hne : st.nnum ≠ diffusion_dga.INT_MAX := by
          have := hinv.2.2.1
          omega
        rw [if_neg hne]
        rfl
      · intro hlt
        by_cases hprev : diffusion_dga.INT_MAX < (flags.take n).countP (fun d => !d)
        · rw [ihb hprev]
          rfl
        · obtain ⟨st, hst, hinv⟩ := iha (by omega)
          obtain ⟨he, hc, -⟩ := numbering_inv_step_free flags st n hn' hfn hinv
          rw [hst, except_ok_bind]
          simp only [List.foldlM_cons, List.foldlM_nil,
            numbering_step_free flags st n hfn he hc]
          have heq : st.nnum = diffusion_dga.INT_MAX := by
            have := hinv.2.2.1
            omega
          rw [if_pos heq]
          rfl

theorem at_read_of_lt {α : Type} (v : List α) (i : Nat) (d : α) (h : i < v.length) :
    diffusion_dga.at_read v i = .ok (v.getD i d) := by
  simp [diffusion_dga.at_read, List.getElem?_eq_getElem h, List.getD_eq_getElem?_getD]

theorem add_at_of_lt {K : Type} [Field K] (gb : List K) (i : Nat) (x : K) (h : i < gb.length) :
    diffusion_dga.add_at gb i x = .ok (gb.set i (gb.getD i 0 + x)) := by
  simp [diffusion_dga.add_at, List.getElem?_eq_getElem h, List.getD_eq_getElem?_getD]

theorem foldlM_ok_of_inv {σ α ε : Type} (f : σ → α → Except ε σ) (F : σ → α → σ)
    (P : σ → Prop) (l : List α) :
    (∀ a ∈ l, ∀ s, P s → f s a = .ok (F s a) ∧ P (F s a)) →
    ∀ s, P s → l.foldlM f s = .ok (l.foldl F s) ∧ P (l.foldl F s) := by
  induction l with
  | nil => intro _ s hs; exact ⟨rfl, hs⟩
  | cons a l ih =>
    intro h s hs
    obtain ⟨h1, h2⟩ := h a (List.mem_cons_self a l) s hs
    rw [List.foldlM_cons, h1, except_ok_bind, List.foldl_cons]
    exact ih (fun b hb => h b (List.mem_cons_of_mem a hb)) _ h2

theorem foldl_append_flatMap {α β : Type} (g : α → List β) (l : List α) :
    ∀ acc : List β, l.foldl (fun acc a => acc ++ g a) acc = acc ++ l.flatMap g := by
  induction l with
  | nil => intro acc; simp
  | cons a l ih => intro acc; simp [ih]

theorem dga_inner_fold {K : Type} [Field K] (flags : List Bool) (compress : List Nat)
    (cl : diffusion_dga.cell K) (i : Fin 4) (n : Nat) (hv : cell_valid flags compress n cl)
    (triplets : List (diffusion_dga.triplet_type K)) :
    (List.finRange 4).foldlM (fun (triplets : List (diffusion_dga.triplet_type K)) j => do
        if (← diffusion_dga.at_read flags (cl.ptids j)) then
          pure triplets
        else
          let row ← diffusion_dga.at_read compress (cl.ptids i)
          let col ← diffusion_dga.at_read compress (cl.ptids j)
          pure (triplets ++ [diffusion_dga.triplet_type.mk row col (cl.lapl i j)])) triplets
      = .ok (triplets ++ row_triplets flags compress cl i) := by
  have h := foldlM_ok_of_inv
    (fun (triplets : List (diffusion_dga.triplet_type K)) j => do
        if (← diffusion_dga.at_read flags (cl.ptids j)) then
          pure triplets
        else
          let row ← diffusion_dga.at_read compress (cl.ptids i)
          let col ← diffusion_dga.at_read compress (cl.ptids j)
          pure (triplets ++ [diffusion_dga.triplet_type.mk row col (cl.lapl i j)]))
    (fun acc j => acc ++ (if flags.getD (cl.ptids j) true then []
      else [diffusion_dga.triplet_type.mk (compress.getD (cl.ptids i) 0)
        (compress.getD (cl.ptids j) 0) (cl.lapl i j)]))
    (fun _ => True) (List.finRange 4)
    (by
      intro j _ s _
      refine ⟨?_, trivial⟩
      simp only [at_read_of_lt flags _ true (hv j).1, at_read_of_lt compress _ 0 (hv i).2.1,
        at_read_of_lt compress _ 0 (hv j).2.1, except_ok_bind]
      cases flags.getD (cl.ptids j) true <;> simp <;> rfl)
    triplets trivial
  rw [h.1, foldl_append_flatMap]
  rfl

theorem rhs_update_length {K : Type} [Field K] (flags : List Bool) (compress : List Nat)
    (cl : diffusion_dga.cell K) (gb : List K) (i : Fin 4) :
    (rhs_update flags compress cl gb i).length = gb.length := by
  unfold rhs_update
  split <;> simp

theorem rhs_update_getD {K : Type} [Field K] (flags : List Bool) (compress : List Nat)
    (cl : diffusion_dga.cell K) (n : Nat) (hv : cell_valid flags compress n cl)
    (gb : List K) (hgb : gb.length = n) (i : Fin 4) (r : Nat) :
    (rhs_update flags compress cl gb i).getD r 0
      = gb.getD r 0 + row_rhs flags compress cl r i := by
  unfold rhs_update row_rhs
  cases hd : flags.getD (cl.ptids i) true with
  | true => simp
  | false =>
    have hc := (hv i).2.2 hd
    generalize compress.getD (cl.ptids i) 0 = c at hc ⊢
    by_cases hr : c = r
    · subst hr
      simp [List.getD_eq_getElem?_getD, List.getElem?_set, hgb, hc]
    · simp [List.getD_eq_getElem?_getD, List.getElem?_set, hr]

theorem foldl_pair {α β γ : Type} (g : α → List β) (u : γ → α → γ) (l : List α) :
    ∀ (acc : List β) (c : γ),
      l.foldl (fun (st : List β × γ) a => (st.1 ++ g a, u st.2 a)) (acc, c)
        = (acc ++ l.flatMap g, l.foldl u c) := by
  induction l with
  | nil => intro acc c; simp
  | cons a l ih => intro acc c; simp [ih]

theorem foldl_getD_sum {K α : Type} [Field K] (u : List K → α → List K) (w : α → Nat → K)
    (n : Nat) (l : List α) :
    (∀ a ∈ l, ∀ gb : List K, gb.length = n →
      (u gb a).length = n ∧ ∀ r, (u gb a).getD r 0 = gb.getD r 0 + w a r) →
    ∀ gb : List K, gb.length = n →
      (l.foldl u gb).length = n ∧
      ∀ r, (l.foldl u gb).getD r 0 = gb.getD r 0 + (l.map (fun a => w a r)).sum := by
  induction l with
  | nil => intro _ gb hgb; simp [hgb]
  | cons a l ih =>
    intro h gb hgb
    obtain ⟨h1, h2⟩ := h a (List.mem_cons_self a l) gb hgb
    obtain ⟨h3, h4⟩ := ih (fun b hb => h b (List.mem_cons_of_mem a hb)) (u gb a) h1
    refine ⟨by simpa using h3, fun r => ?_⟩
    simp only [List.foldl_cons, List.map_cons, List.sum_cons]
    rw [h4 r, h2 r, add_assoc]

theorem assemble_cell_eq {K : Type} [Field K] (flags : List Bool) (compress : List Nat)
    (n : Nat) (cl : diffusion_dga.cell K) (hv : cell_valid flags compress n cl)
    (triplets : List (diffusion_dga.triplet_type K)) (gb : List K) (hgb : gb.length = n) :
    diffusion_dga.assemble_cell flags compress (triplets, gb) cl
      = .ok (triplets ++ cell_triplets flags compress cl,
          (List.finRange 4).foldl (rhs_update flags compress cl) gb) := by
  unfold diffusion_dga.assemble_cell
  have h := foldlM_ok_of_inv
    (fun (st : List (diffusion_dga.triplet_type K) × List K) i => do
    if (← diffusion_dga.at_read flags (cl.ptids i)) then
      pure st
    else
      let triplets ← (List.finRange 4).foldlM
        (fun (triplets : List (diffusion_dga.triplet_type K)) j => do
        if (← diffusion_dga.at_read flags (cl.ptids j)) then
          pure triplets
        else
          let row ← diffusion_dga.at_read compress (cl.ptids i)
          let col ← diffusion_dga.at_read compress (cl.ptids j)
          pure (triplets ++ [diffusion_dga.triplet_type.mk row col (cl.lapl i j)])) st.1
      let rhs_val := cl.rhs_val i
      let gb ← diffusion_dga.add_at st.2 (← diffusion_dga.at_read compress (cl.ptids i))
        (rhs_val * cl.vol * (1 / 4))
      pure (triplets, gb))
    (fun st i => (st.1 ++ (if flags.getD (cl.ptids i) true then []
        else row_triplets flags compress cl i), rhs_update flags compress cl st.2 i))
    (fun st => st.2.length = n) (List.finRange 4)
    (by
      intro i _ st hst
      refine ⟨?_, by simpa [rhs_update_length] using hst⟩
      simp only [dga_inner_fold flags compress cl i n hv]
      simp only [at_read_of_lt flags _ true (hv i).1, at_read_of_lt compress _ 0 (hv i).2.1,
        except_ok_bind]
      cases hd : flags.getD (cl.ptids i) true with
      | true =>
        simp only [if_true, rhs_update, hd, List.append_nil]
        rfl
      | false =>
        have hc : compress.getD (cl.ptids i) 0 < st.2.length := hst ▸ (hv i).2.2 hd
        simp only [Bool.false_eq_true, if_false, except_ok_bind, add_at_of_lt _ _ _ hc,
          rhs_update, hd]
        rfl)
    (triplets, gb) hgb
  rw [h.1, foldl_pair]
  rfl

theorem cell_rhs_fold {K : Type} [Field K] (flags : List Bool) (compress : List Nat)
    (n : Nat) (cl : diffusion_dga.cell K) (hv : cell_valid flags compress n cl)
    (gb : List K) (hgb : gb.length = n) :
    ((List.finRange 4).foldl (rhs_update flags compress cl) gb).length = n ∧
    ∀ r, ((List.finRange 4).foldl (rhs_update flags compress cl) gb).getD r 0
      = gb.getD r 0 + ((List.finRange 4).map (fun i => row_rhs flags compress cl r i)).sum :=
  foldl_getD_sum (rhs_update flags compress cl) (fun i r => row_rhs flags compress cl r i) n
    (List.finRange 4)
    (fun i _ gb hgb => ⟨by rw [rhs_update_length, hgb],
      fun r => rhs_update_getD flags compress cl n hv gb hgb i r⟩) gb hgb

theorem assemble_eq {K : Type} [Field K] (flags : List Bool) (compress : List Nat)
    (msh : List (diffusion_dga.cell K))
    (hv : ∀ cl ∈ msh, cell_valid flags compress (diffusion_dga.system_size flags) cl) :
    ∃ gb : List K, diffusion_dga.assemble flags compress msh
        = .ok (msh.flatMap (cell_triplets flags compress), gb) ∧
      gb.length = diffusion_dga.system_size flags ∧
      ∀ r, gb.getD r 0 = (msh.map (fun cl =>
        ((List.finRange 4).map (fun i => row_rhs flags compress cl r i)).sum)).sum := by
  have h := foldlM_ok_of_inv (diffusion_dga.assemble_cell flags compress)
    (fun (st : List (diffusion_dga.triplet_type K) × List K) cl =>
      (st.1 ++ cell_triplets flags compress cl,
        (List.finRange 4).foldl (rhs_update flags compress cl) st.2))
    (fun st => st.2.length = diffusion_dga.system_size flags) msh
    (by
      intro cl hcl st hst
      obtain ⟨t, g⟩ := st
      exact ⟨assemble_cell_eq flags compress _ cl (hv cl hcl) t g hst,
        (cell_rhs_fold flags compress _ cl (hv cl hcl) g hst).1⟩)
    ([], List.replicate (diffusion_dga.system_size flags) 0) (by simp)
  have h2 := foldl_getD_sum
    (fun (gb : List K) cl => (List.finRange 4).foldl (rhs_update flags compress cl) gb)
    (fun cl r => ((List.finRange 4).map (fun i => row_rhs flags compress cl r i)).sum)
    (diffusion_dga.system_size flags) msh
    (fun cl hcl gb hgb => cell_rhs_fold flags compress _ cl (hv cl hcl) gb hgb)
    (List.replicate (diffusion_dga.system_size flags) 0) (by simp)
  refine ⟨_, ?_, h2.1, fun r => ?_⟩
  · unfold diffusion_dga.assemble
    rw [h.1]
    have h3 := foldl_pair (cell_triplets flags compress)
      (fun (gb : List K) cl => (List.finRange 4).foldl (rhs_update flags compress cl) gb)
      msh [] (List.replicate (diffusion_dga.system_size flags) 0)
    rw [List.nil_append] at h3
    exact congrArg Except.ok h3
  · rw [h2.2 r]
    by_cases hr : r < diffusion_dga.system_size flags <;>
      simp [List.getD_eq_getElem?_getD, List.getElem?_replicate, hr]

theorem setFromTriplets_nil {K : Type} [Field K] (r c : Nat) :
    diffusion_dga.setFromTriplets ([] : List (diffusion_dga.triplet_type K)) r c = 0 := by
  simp [diffusion_dga.setFromTriplets]

theorem setFromTriplets_append {K : Type} [Field K]
    (a b : List (diffusion_dga.triplet_type K)) (r c : Nat) :
    diffusion_dga.setFromTriplets (a ++ b) r c
      = diffusion_dga.setFromTriplets a r c + diffusion_dga.setFromTriplets b r c := by
  simp [diffusion_dga.setFromTriplets]

theorem setFromTriplets_flatMap {K α : Type} [Field K]
    (g : α → List (diffusion_dga.triplet_type K)) (l : List α) (r c : Nat) :
    diffusion_dga.setFromTriplets (l.flatMap g) r c
      = (l.map (fun a => diffusion_dga.setFromTriplets (g a) r c)).sum := by
  induction l with
  | nil => simp [setFromTriplets_nil]
  | cons a l ih => simp [List.flatMap_cons, setFromTriplets_append, ih]

theorem setFromTriplets_cell {K : Type} [Field K] (flags : List Bool) (compress : List Nat)
    (cl : diffusion_dga.cell K) (r c : Nat) :
    diffusion_dga.setFromTriplets (cell_triplets flags compress cl) r c
      = ∑ i : Fin 4, ∑ j : Fin 4,
          if flags.getD (cl.ptids i) true = false ∧ flags.getD (cl.ptids j) true = false ∧
            compress.getD (cl.ptids i) 0 = r ∧ compress.getD (cl.ptids j) 0 = c
          then cl.lapl i j else 0 := by
  unfold cell_triplets
  rw [setFromTriplets_flatMap, Fin.sum_univ_def]
  congr 1
  refine List.map_congr_left (fun i _ => ?_)
  cases hi : flags.getD (cl.ptids i) true with
  | true => simp [setFromTriplets_nil, Fin.sum_univ_def]
  | false =>
    simp only [Bool.false_eq_true, if_false, true_and]
    unfold row_triplets
    rw [setFromTriplets_flatMap, Fin.sum_univ_def]
    congr 1
    refine List.map_congr_left (fun j _ => ?_)
    cases hj : flags.getD (cl.ptids j) true with
    | true => simp [setFromTriplets_nil]
    | false =>
      simp only [Bool.false_eq_true, if_false, true_and]
      generalize compress.getD (cl.ptids i) 0 = a
      generalize compress.getD (cl.ptids j) 0 = b
      by_cases h1 : a = r <;> by_cases h2 : b = c <;>
        simp [diffusion_dga.setFromTriplets, List.filter_cons, h1, h2]

theorem make_numbering_of_le (flags : List Bool)
    (h : diffusion_dga.system_size flags ≤ diffusion_dga.INT_MAX) :
    ∃ nb, diffusion_dga.make_numbering flags = .ok nb ∧
      numbering_inv flags flags.length nb := by
  have h1 := (numbering_fold flags flags.length le_rfl).1
  rw [List.take_length] at h1
  exact h1 h

theorem make_numbering_inv (flags : List Bool) (nb : diffusion_dga.numbering)
    (h : diffusion_dga.make_numbering flags = .ok nb) :
    numbering_inv flags flags.length nb := by
  by_cases hle : diffusion_dga.system_size flags ≤ diffusion_dga.INT_MAX
  · obtain ⟨st, h1, h2⟩ := make_numbering_of_le flags hle
    rw [h] at h1
    cases h1
    exact h2
  · have h1 := (numbering_fold flags flags.length le_rfl).2
    rw [List.take_length] at h1
    have h2 : diffusion_dga.make_numbering flags
        = .error diffusion_dga.dga_fault.int_overflow := h1 (by
      unfold diffusion_dga.system_size at hle; omega)
    rw [h] at h2
    cases h2

theorem make_numbering_replicate_false (n : Nat) (h : diffusion_dga.INT_MAX < n) :
    diffusion_dga.make_numbering (List.replicate n false)
      = .error diffusion_dga.dga_fault.int_overflow := by
  have h1 := (numbering_fold (List.replicate n false) (List.replicate n false).length le_rfl).2
  rw [List.take_length] at h1
  exact h1 (by rw [List.countP_replicate]; simpa using h)

theorem getD_eq_iff {α : Type} (l : List α) (n : Nat) (d x : α) (h : n < l.length) :
    l.getD n d = x ↔ l[n]? = some x := by
  simp [List.getD_eq_getElem?_getD, List.getElem?_eq_getElem h]

theorem cell_valid_of_inv {K : Type} (flags : List Bool) (nb : diffusion_dga.numbering)
    (hinv : numbering_inv flags flags.length nb) (cl : diffusion_dga.cell K)
    (hcl : ∀ i, cl.ptids i < flags.length) :
    cell_valid flags nb.compress_map (diffusion_dga.system_size flags) cl := by
  obtain ⟨h1, _, h3, h4, _⟩ := hinv
  rw [List.take_length] at h3
  intro i
  refine ⟨hcl i, h1 ▸ hcl i, fun hd => ?_⟩
  obtain ⟨c, hc1, hc2, _⟩ := h4 (cl.ptids i) (hcl i)
    ((getD_eq_iff flags _ true false (hcl i)).mp hd)
  rw [(getD_eq_iff nb.compress_map _ 0 c (h1 ▸ hcl i)).mpr hc1]
  exact lt_of_lt_of_eq hc2 h3

theorem cell_triplets_lt {K : Type} (flags : List Bool) (compress : List Nat) (n : Nat)
    (msh : List (diffusion_dga.cell K)) (hv : ∀ cl ∈ msh, cell_valid flags compress n cl) :
    ∀ t ∈ msh.flatMap (cell_triplets flags compress), t.row < n ∧ t.col < n := by
  intro t ht
  obtain ⟨cl, hcl, ht⟩ := List.mem_flatMap.mp ht
  obtain ⟨i, _, ht⟩ := List.mem_flatMap.mp ht
  cases hi : flags.getD (cl.ptids i) true with
  | true =>
    rw [hi] at ht
    simp at ht
  | false =>
    simp only [hi, Bool.false_eq_true, if_false] at ht
    obtain ⟨j, _, ht⟩ := List.mem_flatMap.mp ht
    cases hj : flags.getD (cl.ptids j) true with
    | true =>
      rw [hj] at ht
      simp at ht
    | false =>
      simp only [hj, Bool.false_eq_true, if_false, List.mem_singleton] at ht
      subst ht
      exact ⟨(hv cl hcl i).2.2 hi, (hv cl hcl j).2.2 hj⟩

theorem cell_entry_eq {K : Type} [Field K] (flags : List Bool) (compress : List Nat) (n : Nat)
    (cl : diffusion_dga.cell K) (hv : cell_valid flags compress n cl) (r c : Nat) :
    (∑ i : Fin 4, ∑ j : Fin 4,
        if flags.getD (cl.ptids i) true = false ∧ flags.getD (cl.ptids j) true = false ∧
          compress.getD (cl.ptids i) 0 = r ∧ compress.getD (cl.ptids j) 0 = c
        then cl.lapl i j else 0)
      = ∑ i : Fin 4, ∑ j : Fin 4,
        if flags[cl.ptids i]? = some false ∧ flags[cl.ptids j]? = some false ∧
          compress[cl.ptids i]? = some r ∧ compress[cl.ptids j]? = some c
        then cl.lapl i j else 0 := by
  refine Finset.sum_congr rfl (fun i _ => Finset.sum_congr rfl (fun j _ => ?_))
  refine if_congr ?_ rfl rfl
  rw [getD_eq_iff flags _ true false (hv i).1, getD_eq_iff flags _ true false (hv j).1,
    getD_eq_iff compress _ 0 r (hv i).2.1, getD_eq_iff compress _ 0 c (hv j).2.1]

theorem list_eq_of_getD {K : Type} [Field K] (a b : List K) (hl : a.length = b.length)
    (h : ∀ r, a.getD r 0 = b.getD r 0) : a = b := by
  refine List.ext_getElem hl (fun i h1 h2 => ?_)
  have := h i
  rwa [List.getD_eq_getElem _ _ h1, List.getD_eq_getElem _ _ h2] at this

/-- At a flag vector with `2 ^ 31` non-Dirichlet nodes the `int` counter `nnum` is
incremented at the value `INT_MAX`, and the numbering loop has no defined result. -/
theorem dga_numbering_counterexample :
    diffusion_dga.make_numbering (List.replicate (2 ^ 31) false)
      = .error diffusion_dga.dga_fault.int_overflow :=
  make_numbering_replicate_false (2 ^ 31) (by norm_num [diffusion_dga.INT_MAX])

/-- C19 (amended): in `diffusion_dga`, for every Dirichlet flag vector with at most
`2 ^ 31 - 1` non-Dirichlet nodes, the numbering loop returns, the counter `nnum` ends equal
to `system_size`, `expand_map[compress_map[i]] = i` for every non-Dirichlet node `i` with
`compress_map[i] < system_size`, `compress_map[expand_map[j]] = j` for every
`j < system_size` with `expand_map[j]` a non-Dirichlet node, and for every list of cells
whose point ids are node numbers the assembly returns and every triplet row and column
index is `< system_size`. -/
theorem dga_numbering_bijection {K : Type} [Field K] (flags : List Bool)
    (msh : List (diffusion_dga.cell K))
    (hsize : diffusion_dga.system_size flags ≤ diffusion_dga.INT_MAX)
    (hmsh : ∀ cl ∈ msh, ∀ i, cl.ptids i < flags.length) :
    ∃ nb, diffusion_dga.make_numbering flags = .ok nb ∧
      nb.nnum = diffusion_dga.system_size flags ∧
      (∀ i, flags[i]? = some false →
        ∃ c, nb.compress_map[i]? = some c ∧ c < diffusion_dga.system_size flags ∧
          nb.expand_map[c]? = some i) ∧
      (∀ j, j < diffusion_dga.system_size flags →
        ∃ i, nb.expand_map[j]? = some i ∧ flags[i]? = some false ∧
          nb.compress_map[i]? = some j) ∧
      ∃ triplets gb, diffusion_dga.assemble flags nb.compress_map msh = .ok (triplets, gb) ∧
        ∀ t ∈ triplets, t.row < diffusion_dga.system_size flags ∧
          t.col < diffusion_dga.system_size flags := by
  obtain ⟨nb, hnb, hinv⟩ := make_numbering_of_le flags hsize
  have hv : ∀ cl ∈ msh, cell_valid flags nb.compress_map (diffusion_dga.system_size flags) cl :=
    fun cl hcl => cell_valid_of_inv flags nb hinv cl (hmsh cl hcl)
  obtain ⟨h1, h2, h3, h4, h5⟩ := hinv
  rw [List.take_length] at h3
  have h3' : nb.nnum = diffusion_dga.system_size flags := h3
  refine ⟨nb, hnb, h3', fun i hi => ?_, fun j hj => ?_, ?_⟩
  · have hlt : i < flags.length := by
      by_contra hge
      rw [List.getElem?_eq_none (by omega)] at hi
      cases hi
    obtain ⟨c, hc1, hc2, hc3⟩ := h4 i hlt hi
    exact ⟨c, hc1, h3' ▸ hc2, hc3⟩
  · obtain ⟨i, hi1, _, hi3, hi4⟩ := h5 j (h3' ▸ hj)
    exact ⟨i, hi1, hi3, hi4⟩
  · obtain ⟨gb, hgb, _, _⟩ := assemble_eq flags nb.compress_map msh hv
    exact ⟨_, gb, hgb, cell_triplets_lt flags nb.compress_map _ msh hv⟩

theorem dga_numbering_bijection_witness :
    ∃ nb, diffusion_dga.make_numbering [true, false, false, true, false] = .ok nb ∧
      nb.nnum = 3 ∧
      ∃ triplets gb, diffusion_dga.assemble [true, false, false, true, false] nb.compress_map
          [diffusion_dga.cell.mk ![0, 1, 2, 4] (fun _ _ => (1 : ℚ)) (fun _ => 1) 1]
          = .ok (triplets, gb) ∧
        ∀ t ∈ triplets, t.row < 3 ∧ t.col < 3 := by
  obtain ⟨nb, h1, h2, _, _, h5⟩ := dga_numbering_bijection [true, false, false, true, false]
    [diffusion_dga.cell.mk ![0, 1, 2, 4] (fun _ _ => (1 : ℚ)) (fun _ => 1) 1]
    (by decide)
    (by
      intro cl hcl i
      rw [List.mem_singleton] at hcl
      subst hcl
      fin_cases i <;> simp)
  exact ⟨nb, h1, h2, h5⟩

/-- C18: in the nodal assembly of `diffusion_dga`, for a numbering made by the numbering
loop and cells whose point ids are node numbers, the assembly returns, the entry `(r, c)`
of the matrix built from the triplets (duplicates summed) is the sum over the cells and
the local pairs `(i, j)` whose nodes are both non-Dirichlet with
`compress_map[ptids[i]] = r` and `compress_map[ptids[j]] = c` of `lapl(i, j)`, and for
every permutation of the list of cells the assembly returns the same right-hand side and
a matrix with the same entries. -/
theorem dga_assembly_order_independent {K : Type} [Field K] (flags : List Bool)
    (nb : diffusion_dga.numbering) (msh msh2 : List (diffusion_dga.cell K))
    (hnb : diffusion_dga.make_numbering flags = .ok nb)
    (hmsh : ∀ cl ∈ msh, ∀ i, cl.ptids i < flags.length)
    (hperm : msh.Perm msh2) :
    ∃ triplets gb, diffusion_dga.assemble flags nb.compress_map msh = .ok (triplets, gb) ∧
      (∀ r c, diffusion_dga.setFromTriplets triplets r c
        = (msh.map (fun cl => ∑ i : Fin 4, ∑ j : Fin 4,
            if flags[cl.ptids i]? = some false ∧ flags[cl.ptids j]? = some false ∧
              nb.compress_map[cl.ptids i]? = some r ∧ nb.compress_map[cl.ptids j]? = some c
            then cl.lapl i j else 0)).sum) ∧
      ∃ triplets2, diffusion_dga.assemble flags nb.compress_map msh2 = .ok (triplets2, gb) ∧
        ∀ r c, diffusion_dga.setFromTriplets triplets2 r c
          = diffusion_dga.setFromTriplets triplets r c := by
  have hinv := make_numbering_inv flags nb hnb
  have hv : ∀ cl ∈ msh, cell_valid flags nb.compress_map (diffusion_dga.system_size flags) cl :=
    fun cl hcl => cell_valid_of_inv flags nb hinv cl (hmsh cl hcl)
  have hv2 : ∀ cl ∈ msh2,
      cell_valid flags nb.compress_map (diffusion_dga.system_size flags) cl :=
    fun cl hcl => hv cl (hperm.mem_iff.mpr hcl)
  obtain ⟨gb, hgb, hlen, hent⟩ := assemble_eq flags nb.compress_map msh hv
  obtain ⟨gb2, hgb2, hlen2, hent2⟩ := assemble_eq flags nb.compress_map msh2 hv2
  have hgbeq : gb2 = gb := by
    refine list_eq_of_getD gb2 gb (hlen2.trans hlen.symm) (fun r => ?_)
    rw [hent r, hent2 r]
    exact ((hperm.map _).sum_eq).symm
  have hentry : ∀ (m : List (diffusion_dga.cell K)) (r c : Nat),
      diffusion_dga.setFromTriplets (m.flatMap (cell_triplets flags nb.compress_map)) r c
        = (m.map (fun cl => ∑ i : Fin 4, ∑ j : Fin 4,
            if flags.getD (cl.ptids i) true = false ∧ flags.getD (cl.ptids j) true = false ∧
              nb.compress_map.getD (cl.ptids i) 0 = r ∧ nb.compress_map.getD (cl.ptids j) 0 = c
            then cl.lapl i j else 0)).sum := by
    intro m r c
    rw [setFromTriplets_flatMap]
    congr 1
    exact List.map_congr_left (fun cl _ => setFromTriplets_cell flags nb.compress_map cl r c)
  refine ⟨_, gb, hgb, fun r c => ?_, _, hgbeq ▸ hgb2, fun r c => ?_⟩
  · rw [hentry]
    congr 1
    exact List.map_congr_left (fun cl hcl => cell_entry_eq flags nb.compress_map _ cl
      (hv cl hcl) r c)
  · rw [hentry, hentry]
    exact ((hperm.map _).sum_eq).symm

theorem dga_assembly_order_independent_witness :
    ∃ triplets gb, diffusion_dga.assemble [true, false, false, true, false] [0, 0, 1, 0, 2]
        [diffusion_dga.cell.mk ![0, 1, 2, 4] (fun _ _ => (1 : ℚ)) (fun _ => 1) 1,
          diffusion_dga.cell.mk ![1, 2, 3, 4] (fun _ _ => (2 : ℚ)) (fun _ => 1) 1]
        = .ok (triplets, gb) ∧
      ∃ triplets2, diffusion_dga.assemble [true, false, false, true, false] [0, 0, 1, 0, 2]
          [diffusion_dga.cell.mk ![1, 2, 3, 4] (fun _ _ => (2 : ℚ)) (fun _ => 1) 1,
            diffusion_dga.cell.mk ![0, 1, 2, 4] (fun _ _ => (1 : ℚ)) (fun _ => 1) 1]
          = .ok (triplets2, gb) ∧
        ∀ r c, diffusion_dga.setFromTriplets triplets2 r c
          = diffusion_dga.setFromTriplets triplets r c := by
  obtain ⟨t, gb, h1, _, h3⟩ := dga_assembly_order_independent
    [true, false, false, true, false] ⟨[0, 0, 1, 0, 2], [1, 2, 4], 3⟩
    [diffusion_dga.cell.mk ![0, 1, 2, 4] (fun _ _ => (1 : ℚ)) (fun _ => 1) 1,
      diffusion_dga.cell.mk ![1, 2, 3, 4] (fun _ _ => (2 : ℚ)) (fun _ => 1) 1]
    [diffusion_dga.cell.mk ![1, 2, 3, 4] (fun _ _ => (2 : ℚ)) (fun _ => 1) 1,
      diffusion_dga.cell.mk ![0, 1, 2, 4] (fun _ _ => (1 : ℚ)) (fun _ => 1) 1]
    rfl
    (by
      intro cl hcl i
      simp only [List.mem_cons, List.mem_singleton, List.not_mem_nil, or_false] at hcl
      rcases hcl with h | h <;> subst h <;> fin_cases i <;> simp)
    (List.Perm.swap _ _ [])
  exact ⟨t, gb, h1, h3⟩

/-- C21 (code evaluated at failing inputs): the guard of `generalized_eigenvalue_solver`
is the conjunction `L.rows() != R.rows() && L.cols() != R.cols() && L.rows() == L.cols()`.
For two `2 x 3` matrices (not square), and for a `3 x 3` matrix `L` with a `3 x 4` matrix
`R` (not of the same size), the guard is false: the function shifts the index arrays,
calls `dfeast_scsrgv` and returns `true`. -/
theorem generalized_eigenvalue_solver_accepts_bad_sizes :
    (∃ r, feast.generalized_eigenvalue_solver (K := ℚ) ⟨false, 8, 0, 1, 1⟩
        ⟨2, 3, [0, 0, 0, 0], [], []⟩ ⟨2, 3, [0, 0, 0, 0], [], []⟩ = .ok r ∧
      r.ret = true ∧ r.feast_args = some (2, [1, 1, 1, 0], [], [1, 1, 1, 0], [])) ∧
    (∃ r, feast.generalized_eigenvalue_solver (K := ℚ) ⟨false, 8, 0, 1, 1⟩
        ⟨3, 3, [0, 1, 2, 3], [0, 1, 2], [1, 1, 1]⟩
        ⟨3, 4, [0, 1, 2, 3, 3], [0, 1, 2], [1, 1, 1]⟩ = .ok r ∧
      r.ret = true ∧
      r.feast_args = some (3, [1, 2, 3, 4], [1, 2, 3], [1, 2, 3, 4, 3], [1, 2, 3])) :=
  ⟨⟨_, rfl, rfl, rfl⟩, ⟨_, rfl, rfl, rfl⟩⟩

/-- C25: in `run_hho_diffusion_nitsche_par`, `run_hho_diffusion_nitsche_faces` and
`run_hho_diffusion_nitsche_cells`, for every cell (boundary or contact flag `true` or
`false`) the matrix `A` given to `diffusion_static_condensation_recover` in the recovery
pass is the matrix given to the condensation in the assembly pass, and the right-hand side
given to `diffusion_static_condensation_recover` is the block of the first `cbs` entries
of the right-hand side given to the condensation:
`(-Bnitsche with Lh added to its first cbs entries)[0..cbs) = Lh - Bnitsche[0..cbs)`. -/
theorem nitsche_recovery_matches_assembly {K : Type} [Field K] {cbs nF : Nat}
    (flag : Bool) (c : diffusion_nitsche.cell_terms K cbs nF) (cc : diffusion_nitsche.cells_terms K cbs nF) :
    (diffusion_nitsche.run_hho_diffusion_nitsche_par_recovery flag c).1
        = (diffusion_nitsche.run_hho_diffusion_nitsche_par_assembly flag c).1 ∧
    (diffusion_nitsche.run_hho_diffusion_nitsche_par_recovery flag c).2
        = diffusion_nitsche.block
            (diffusion_nitsche.run_hho_diffusion_nitsche_par_assembly flag c).2 ∧
    (diffusion_nitsche.run_hho_diffusion_nitsche_faces_recovery flag c).1
        = (diffusion_nitsche.run_hho_diffusion_nitsche_faces_assembly flag c).1 ∧
    (diffusion_nitsche.run_hho_diffusion_nitsche_faces_recovery flag c).2
        = diffusion_nitsche.block
            (diffusion_nitsche.run_hho_diffusion_nitsche_faces_assembly flag c).2 ∧
    (diffusion_nitsche.run_hho_diffusion_nitsche_cells_recovery flag cc).1
        = (diffusion_nitsche.run_hho_diffusion_nitsche_cells_assembly flag cc).matrix ∧
    (diffusion_nitsche.run_hho_diffusion_nitsche_cells_recovery flag cc).2
        = (diffusion_nitsche.run_hho_diffusion_nitsche_cells_assembly flag cc).cell_block ∧
    ∀ (B : Fin cbs ⊕ Fin nF → K) (Lh : Fin cbs → K),
      diffusion_nitsche.block (diffusion_nitsche.block_add (-B) Lh)
        = Lh - diffusion_nitsche.block B := by
  have hb : ∀ (B : Fin cbs ⊕ Fin nF → K) (Lh : Fin cbs → K),
      diffusion_nitsche.block (diffusion_nitsche.block_add (-B) Lh)
        = Lh - diffusion_nitsche.block B := by
    intro B Lh
    funext i
    simp only [diffusion_nitsche.block, diffusion_nitsche.block_add, Sum.elim_inl,
      Pi.neg_apply, Pi.sub_apply]
    ring
  refine ⟨rfl, ?_, rfl, ?_, ?_, ?_, hb⟩
  · exact (hb _ _).symm
  · exact (hb _ _).symm
  · cases flag <;> rfl
  · cases flag
    · rfl
    · exact (hb _ _).symm

theorem foldl_set_any {face : Type} (d : face → Bool) (i : Nat) (fcs : List face) :
    ∀ ret : List Nat,
      fcs.foldl (fun (ret : List Nat) fc => if d fc then ret.set i 1 else ret) ret
        = if fcs.any d then ret.set i 1 else ret := by
  induction fcs with
  | nil => intro ret; rfl
  | cons fc fcs ih =>
    intro ret
    rw [List.foldl_cons, ih, List.any_cons]
    cases d fc <;> cases fcs.any d <;> simp [List.set_set]

theorem dirichlet_faces_fold {face : Type} (find_element_id : face → Bool × Nat)
    (is_dirichlet_face : Nat → Bool) (i : Nat) (fcs : List face)
    (hf : ∀ fc ∈ fcs, (find_element_id fc).1 = true) (ret : List Nat) (hi : i < ret.length) :
    (fcs.foldlM (fun (ret : List Nat) fc => do
        let eid := find_element_id fc
        if !eid.1 then
          throw (fault.invalid_argument "This is a bug: face not found")
        else
          let face_id := eid.2
          if is_dirichlet_face face_id then
            if i < ret.length then pure (ret.set i 1) else throw fault.out_of_range
          else
            pure ret) ret : Except fault (List Nat))
      = .ok (if fcs.any (fun fc => is_dirichlet_face (find_element_id fc).2)
          then ret.set i 1 else ret) := by
  have h := foldlM_ok_of_inv
    (fun (ret : List Nat) fc => (do
        let eid := find_element_id fc
        if !eid.1 then
          throw (fault.invalid_argument "This is a bug: face not found")
        else
          let face_id := eid.2
          if is_dirichlet_face face_id then
            if i < ret.length then pure (ret.set i 1) else throw fault.out_of_range
          else
            pure ret : Except fault (List Nat)))
    (fun (ret : List Nat) fc =>
      if is_dirichlet_face (find_element_id fc).2 then ret.set i 1 else ret)
    (fun ret => i < ret.length) fcs
    (by
      intro fc hfc s hs
      have h1 := hf fc hfc
      by_cases hd : is_dirichlet_face (find_element_id fc).2 = true
      · simp only [h1, hd, hs, Bool.not_true, Bool.false_eq_true, if_false, if_true,
          List.length_set]
        exact ⟨rfl, trivial⟩
      · simp only [h1, hd, hs, Bool.not_true, Bool.false_eq_true, if_false]
        exact ⟨rfl, trivial⟩)
    ret hi
  rw [h.1, foldl_set_any (fun fc => is_dirichlet_face (find_element_id fc).2)]

theorem make_is_dirichlet_vector_eq {cell face : Type} (msh : List cell)
    (faces : cell → List face) (find_element_id : face → Bool × Nat)
    (is_dirichlet_face : Nat → Bool) :
    diffusion_nitsche.make_is_dirichlet_vector msh faces find_element_id is_dirichlet_face
      = (msh.foldlM (dirichlet_cell_step faces find_element_id is_dirichlet_face)
          (List.replicate msh.length 0, 0)).map (fun st => st.1) := by
  have h : ∀ x : Except fault (List Nat × Nat),
      (x >>= fun st => pure st.1) = x.map (fun st => st.1) := by
    intro x
    cases x <;> rfl
  exact h _

theorem dirichlet_faces_fold_error {face : Type} (find_element_id : face → Bool × Nat)
    (is_dirichlet_face : Nat → Bool) (i : Nat) (fcs : List face) :
    (∃ fc ∈ fcs, (find_element_id fc).1 = false) → ∀ ret : List Nat, i < ret.length →
      fcs.foldlM (dirichlet_face_step find_element_id is_dirichlet_face i) ret
        = .error (fault.invalid_argument "This is a bug: face not found") := by
  induction fcs with
  | nil => rintro ⟨fc, hfc, -⟩; simp at hfc
  | cons fc fcs ih =>
    rintro ⟨x, hx, hxf⟩ ret hi
    rw [List.foldlM_cons]
    cases hfc : (find_element_id fc).1 with
    | false =>
      have : dirichlet_face_step find_element_id is_dirichlet_face i ret fc
          = .error (fault.invalid_argument "This is a bug: face not found") := by
        simp [dirichlet_face_step, hfc]
        rfl
      rw [this]
      rfl
    | true =>
      have hx2 : x ∈ fcs := by
        rcases List.mem_cons.mp hx with h | h
        · subst h; rw [hfc] at hxf; cases hxf
        · exact h
      have : ∃ ret2 : List Nat, dirichlet_face_step find_element_id is_dirichlet_face i ret fc
          = .ok ret2 ∧ i < ret2.length := by
        by_cases hd : is_dirichlet_face (find_element_id fc).2 = true
        · exact ⟨ret.set i 1, by simp [dirichlet_face_step, hfc, hd, hi]; rfl, by simpa using hi⟩
        · exact ⟨ret, by simp [dirichlet_face_step, hfc, hd]; rfl, hi⟩
      obtain ⟨ret2, h1, h2⟩ := this
      rw [h1, except_ok_bind]
      exact ih ⟨x, hx2, hxf⟩ ret2 h2

theorem dirichlet_cell_step_ok {cell face : Type} (faces : cell → List face)
    (find_element_id : face → Bool × Nat) (is_dirichlet_face : Nat → Bool) (cl : cell)
    (hf : ∀ fc ∈ faces cl, (find_element_id fc).1 = true) (ret : List Nat) (i : Nat)
    (hi : i < ret.length) :
    dirichlet_cell_step faces find_element_id is_dirichlet_face (ret, i) cl
      = .ok (if (faces cl).any (fun fc => is_dirichlet_face (find_element_id fc).2)
          then ret.set i 1 else ret, i + 1) := by
  unfold dirichlet_cell_step
  have h := dirichlet_faces_fold find_element_id is_dirichlet_face i (faces cl) hf ret hi
  have h2 : (faces cl).foldlM (dirichlet_face_step find_element_id is_dirichlet_face i) ret
      = .ok (if (faces cl).any (fun fc => is_dirichlet_face (find_element_id fc).2)
          then ret.set i 1 else ret) := h
  simp only [h2, except_ok_bind]
  rfl

theorem dirichlet_cells_fold {cell face : Type} (faces : cell → List face)
    (find_element_id : face → Bool × Nat) (is_dirichlet_face : Nat → Bool) (l : List cell) :
    (∀ cl ∈ l, ∀ fc ∈ faces cl, (find_element_id fc).1 = true) → ∀ acc : List Nat,
      l.foldlM (dirichlet_cell_step faces find_element_id is_dirichlet_face)
          (acc ++ List.replicate l.length 0, acc.length)
        = .ok (acc ++ l.map (dirichlet_entry faces find_element_id is_dirichlet_face),
            acc.length + l.length) := by
  induction l with
  | nil => intro _ acc; simp; rfl
  | cons cl l ih =>
    intro hf acc
    have hcl := hf cl (List.mem_cons_self cl l)
    have hl := fun x hx => hf x (List.mem_cons_of_mem cl hx)
    rw [List.foldlM_cons, dirichlet_cell_step_ok faces find_element_id is_dirichlet_face cl hcl
      _ _ (by simp), except_ok_bind]
    have hstate : (if (faces cl).any (fun fc => is_dirichlet_face (find_element_id fc).2)
          then (acc ++ List.replicate (cl :: l).length 0).set acc.length 1
          else acc ++ List.replicate (cl :: l).length 0)
        = (acc ++ [dirichlet_entry faces find_element_id is_dirichlet_face cl])
            ++ List.replicate l.length 0 := by
      unfold dirichlet_entry
      split <;> simp [List.replicate_succ, List.set_append_right]
    rw [hstate]
    have := ih hl (acc ++ [dirichlet_entry faces find_element_id is_dirichlet_face cl])
    simp only [List.length_append, List.length_singleton] at this
    rw [this]
    simp [Nat.add_assoc, Nat.add_comm 1]

theorem dirichlet_cells_fold_error {cell face : Type} (faces : cell → List face)
    (find_element_id : face → Bool × Nat) (is_dirichlet_face : Nat → Bool) (l : List cell) :
    (∃ cl ∈ l, ∃ fc ∈ faces cl, (find_element_id fc).1 = false) → ∀ (ret : List Nat) (i : Nat),
      i + l.length ≤ ret.length →
      l.foldlM (dirichlet_cell_step faces find_element_id is_dirichlet_face) (ret, i)
        = .error (fault.invalid_argument "This is a bug: face not found") := by
  induction l with
  | nil => rintro ⟨cl, hcl, -⟩; simp at hcl
  | cons cl l ih =>
    rintro ⟨x, hx, fc, hfc, hnf⟩ ret i hi
    have hlt : i < ret.length := by simp at hi; omega
    rw [List.foldlM_cons]
    by_cases hhead : ∀ fc ∈ faces cl, (find_element_id fc).1 = true
    · have hx2 : x ∈ l := by
        rcases List.mem_cons.mp hx with h | h
        · subst h
          rw [hhead fc hfc] at hnf
          cases hnf
        · exact h
      rw [dirichlet_cell_step_ok faces find_element_id is_dirichlet_face cl hhead ret i hlt,
        except_ok_bind]
      refine ih ⟨x, hx2, fc, hfc, hnf⟩ _ _ ?_
      simp at hi
      split <;> (try simp only [List.length_set]) <;> omega
    · have hex : ∃ fc ∈ faces cl, (find_element_id fc).1 = false := by
        by_contra hne
        refine hhead (fun fc hfc => ?_)
        cases h : (find_element_id fc).1 with
        | true => rfl
        | false => exact absurd ⟨fc, hfc, h⟩ hne
      have : dirichlet_cell_step faces find_element_id is_dirichlet_face (ret, i) cl
          = .error (fault.invalid_argument "This is a bug: face not found") := by
        unfold dirichlet_cell_step
        rw [dirichlet_faces_fold_error find_element_id is_dirichlet_face i (faces cl) hex ret hlt]
        rfl
      rw [this]
      rfl

/-- C29: for a mesh (its cells in iteration order, each with its faces) and
boundary-condition object, if every face of every cell is found among the mesh faces,
`make_is_dirichlet_vector` returns the vector of length `cells_size` whose `i`-th entry is
`1` if the `i`-th cell has at least one Dirichlet face and `0` otherwise; if some face of
a cell is not found, it raises `invalid_argument`. -/
theorem make_is_dirichlet_vector_spec {cell face : Type} (msh : List cell)
    (faces : cell → List face) (find_element_id : face → Bool × Nat)
    (is_dirichlet_face : Nat → Bool) :
    ((∀ cl ∈ msh, ∀ fc ∈ faces cl, (find_element_id fc).1 = true) →
      diffusion_nitsche.make_is_dirichlet_vector msh faces find_element_id is_dirichlet_face
        = .ok (msh.map (fun cl =>
            if (faces cl).any (fun fc => is_dirichlet_face (find_element_id fc).2)
            then 1 else 0))) ∧
    ((∃ cl ∈ msh, ∃ fc ∈ faces cl, (find_element_id fc).1 = false) →
      diffusion_nitsche.make_is_dirichlet_vector msh faces find_element_id is_dirichlet_face
        = .error (fault.invalid_argument "This is a bug: face not found")) := by
  rw [make_is_dirichlet_vector_eq]
  constructor
  · intro hf
    have h := dirichlet_cells_fold faces find_element_id is_dirichlet_face msh hf []
    simp only [List.nil_append, List.length_nil] at h
    rw [h]
    rfl
  · intro hex
    rw [dirichlet_cells_fold_error faces find_element_id is_dirichlet_face msh hex _ 0
      (by simp)]
    rfl

theorem make_is_dirichlet_vector_spec_witness :
    diffusion_nitsche.make_is_dirichlet_vector [0, 1, 2]
        (fun cl : Nat => [cl, cl + 1]) (fun fc : Nat => (true, fc)) (fun id => id == 0)
      = .ok [1, 0, 0] ∧
    diffusion_nitsche.make_is_dirichlet_vector [0, 1, 2]
        (fun cl : Nat => [cl, cl + 1]) (fun fc : Nat => (decide (fc < 3), fc)) (fun id => id == 0)
      = .error (fault.invalid_argument "This is a bug: face not found") :=
  ⟨(make_is_dirichlet_vector_spec [0, 1, 2] (fun cl : Nat => [cl, cl + 1])
      (fun fc : Nat => (true, fc)) (fun id => id == 0)).1 (by simp),
   (make_is_dirichlet_vector_spec [0, 1, 2] (fun cl : Nat => [cl, cl + 1])
      (fun fc : Nat => (decide (fc < 3), fc)) (fun id => id == 0)).2
      ⟨2, by simp, 3, by simp, by simp⟩⟩

theorem shift_loop_eq (d : Int) (count : Nat) (a : List Int) (hc : count ≤ a.length)
    (hb : ∀ x ∈ a, feast.INT_MIN ≤ x + d ∧ x + d ≤ feast.INT_MAX) :
    feast.shift_loop d count a
      = .ok ((a.take count).map (fun x => x + d) ++ a.drop count) := by
  unfold feast.shift_loop
  induction count with
  | zero => simp; rfl
  | succ m ih =>
    have hm : m < a.length := hc
    rw [List.range_succ, List.foldlM_append, ih (by omega), except_ok_bind]
    have hget : ((a.take m).map (fun x => x + d) ++ a.drop m)[m]? = some a[m] := by
      rw [List.getElem?_append_right (by simp)]
      simp [List.getElem?_drop, hm, Nat.min_eq_left (Nat.le_of_lt hm)]
    simp only [List.foldlM_cons, List.foldlM_nil, hget]
    have hx := hb a[m] (List.getElem_mem hm)
    simp only [feast.int_add, hx, and_self, if_true, except_ok_bind]
    show Except.ok _ = Except.ok _
    congr 1
    apply List.ext_getElem?
    intro k
    simp only [List.getElem?_set, List.getElem?_append, List.getElem?_map, List.getElem?_take,
      List.getElem?_drop, List.length_map, List.length_take, List.length_append,
      List.length_drop]
    by_cases hk : k = m
    · subst hk
      simp [hm, Nat.min_eq_left (Nat.le_of_lt hm)]
    · rcases Nat.lt_or_gt_of_ne hk with h | h
      · simp [hk, h, Nat.min_eq_left (Nat.le_of_lt hm), Nat.lt_succ_of_lt h,
          Nat.min_eq_left hc, Ne.symm hk]
      · have h1 : ¬ k < m := by omega
        have h2 : ¬ k < m + 1 := by omega
        simp [h1, h2, Nat.min_eq_left (Nat.le_of_lt hm), Nat.min_eq_left hc, Ne.symm hk]
        congr 1
        omega

theorem shift_loop_all (d : Int) (a : List Int)
    (hb : ∀ x ∈ a, feast.INT_MIN ≤ x + d ∧ x + d ≤ feast.INT_MAX) :
    feast.shift_loop d a.length a = .ok (a.map (fun x => x + d)) := by
  rw [shift_loop_eq d a.length a le_rfl hb]
  simp

/-- C30, as stated, fails at the largest row count: for the square compressed matrix with
`2^31 - 1` rows and columns and no stored entry (its outer index array is `2^31` zeros),
the loop bound `n+1` of the constructor with `one_based = true` is not an `int`, and the
constructor has no defined result. -/
theorem eigen_sparse_raw_counterexample :
    feast.eigen_sparse_raw.make
        (⟨2 ^ 31 - 1, 2 ^ 31 - 1, List.replicate (2 ^ 31) 0, [], []⟩ : feast.SparseMatrix ℚ)
        true
      = .error feast.feast_fault.int_overflow := by
  rfl

/-- C30 (amended): for every square compressed sparse matrix with fewer than `2^31 - 1`
rows and fewer than `2^31 - 1` stored entries, constructing `eigen_sparse_raw` with
`one_based = true` adds exactly 1 to each of the `n+1` outer-index entries and each of the
`nnz` inner-index entries, and `restore()` undoes this exactly once: after `restore()` the
index arrays equal their original zero-based values, a further `restore()` call and the
destructor change nothing, the value array is never modified, and with
`one_based = false` neither construction nor `restore()` nor the destructor modifies
anything. -/
theorem eigen_sparse_raw_roundtrip {K : Type} (A : feast.SparseMatrix K)
    (houter : A.outerIndex.length = A.rows + 1)
    (hinner : A.innerIndex.length = A.values.length)
    (hia : ∀ x ∈ A.outerIndex, 0 ≤ x ∧ x ≤ (A.values.length : Int))
    (hja : ∀ x ∈ A.innerIndex, 0 ≤ x ∧ x < (A.rows : Int))
    (hn : (A.rows : Int) < feast.INT_MAX) (hnnz : (A.values.length : Int) < feast.INT_MAX) :
    feast.eigen_sparse_raw.make A true
      = .ok ⟨true, false, A.values, A.outerIndex.map (fun x => x + 1),
          A.innerIndex.map (fun x => x + 1), A.values.length, A.rows⟩ ∧
    feast.eigen_sparse_raw.restore ⟨true, false, A.values, A.outerIndex.map (fun x => x + 1),
        A.innerIndex.map (fun x => x + 1), A.values.length, A.rows⟩
      = .ok ⟨true, true, A.values, A.outerIndex, A.innerIndex, A.values.length, A.rows⟩ ∧
    feast.eigen_sparse_raw.restore
        ⟨true, true, A.values, A.outerIndex, A.innerIndex, A.values.length, A.rows⟩
      = .ok ⟨true, true, A.values, A.outerIndex, A.innerIndex, A.values.length, A.rows⟩ ∧
    feast.eigen_sparse_raw.destroy
        ⟨true, true, A.values, A.outerIndex, A.innerIndex, A.values.length, A.rows⟩
      = .ok ⟨true, true, A.values, A.outerIndex, A.innerIndex, A.values.length, A.rows⟩ ∧
    feast.eigen_sparse_raw.make A false
      = .ok ⟨false, false, A.values, A.outerIndex, A.innerIndex, A.values.length, A.rows⟩ ∧
    feast.eigen_sparse_raw.restore
        ⟨false, false, A.values, A.outerIndex, A.innerIndex, A.values.length, A.rows⟩
      = .ok ⟨false, false, A.values, A.outerIndex, A.innerIndex, A.values.length, A.rows⟩ ∧
    feast.eigen_sparse_raw.destroy
        ⟨false, false, A.values, A.outerIndex, A.innerIndex, A.values.length, A.rows⟩
      = .ok ⟨false, false, A.values, A.outerIndex, A.innerIndex, A.values.length, A.rows⟩ := by
  have hmax : feast.INT_MAX = 2 ^ 31 - 1 := rfl
  have hmin : feast.INT_MIN = -(2 ^ 31) := rfl
  have hbound : feast.int_add (A.rows : Int) 1 = .ok ((A.rows : Int) + 1) := by
    have : feast.INT_MIN ≤ (A.rows : Int) + 1 ∧ (A.rows : Int) + 1 ≤ feast.INT_MAX := by
      constructor <;> omega
    simp only [feast.int_add, this, and_self, if_true]
  have htonat : ((A.rows : Int) + 1).toNat = A.outerIndex.length := by
    rw [houter]
    omega
  have hup1 : feast.shift_loop 1 A.outerIndex.length A.outerIndex
      = .ok (A.outerIndex.map (fun x => x + 1)) :=
    shift_loop_all 1 _ (fun x hx => by have := hia x hx; constructor <;> omega)
  have hup2 : feast.shift_loop 1 A.values.length A.innerIndex
      = .ok (A.innerIndex.map (fun x => x + 1)) := by
    rw [← hinner]
    exact shift_loop_all 1 _ (fun x hx => by have := hja x hx; constructor <;> omega)
  have hdown1 : feast.shift_loop (-1) A.outerIndex.length (A.outerIndex.map (fun x => x + 1))
      = .ok A.outerIndex := by
    have h := shift_loop_all (-1) (A.outerIndex.map (fun x => x + 1)) (fun y hy => by
      obtain ⟨x, hx, rfl⟩ := List.mem_map.mp hy
      have := hia x hx
      constructor <;> omega)
    simpa using h
  have hdown2 : feast.shift_loop (-1) A.values.length (A.innerIndex.map (fun x => x + 1))
      = .ok A.innerIndex := by
    rw [← hinner]
    have h := shift_loop_all (-1) (A.innerIndex.map (fun x => x + 1)) (fun y hy => by
      obtain ⟨x, hx, rfl⟩ := List.mem_map.mp hy
      have := hja x hx
      constructor <;> omega)
    simpa using h
  refine ⟨?_, ?_, rfl, rfl, rfl, rfl, rfl⟩
  · simp only [feast.eigen_sparse_raw.make, if_true, hbound, except_ok_bind, htonat, hup1,
      hup2]
    rfl
  · simp only [feast.eigen_sparse_raw.restore, Bool.not_true, Bool.or_self,
      Bool.false_eq_true, if_false, hbound, except_ok_bind, htonat, hdown1, hdown2]
    rfl

theorem eigen_sparse_raw_roundtrip_witness :
    feast.eigen_sparse_raw.make
        (⟨3, 3, [0, 1, 2, 3], [0, 1, 2], [5, 6, 7]⟩ : feast.SparseMatrix ℚ) true
      = .ok ⟨true, false, [5, 6, 7], [1, 2, 3, 4], [1, 2, 3], 3, 3⟩ ∧
    feast.eigen_sparse_raw.restore
        (⟨true, false, [5, 6, 7], [1, 2, 3, 4], [1, 2, 3], 3, 3⟩ : feast.eigen_sparse_raw ℚ)
      = .ok ⟨true, true, [5, 6, 7], [0, 1, 2, 3], [0, 1, 2], 3, 3⟩ :=
  have h := eigen_sparse_raw_roundtrip
    (⟨3, 3, [0, 1, 2, 3], [0, 1, 2], [5, 6, 7]⟩ : feast.SparseMatrix ℚ) rfl rfl
    (by decide) (by decide) (by decide) (by decide)
  ⟨h.1, h.2.1⟩

theorem exponents2_head (k : Nat) : (exponents2 k)[0]? = some (0, 0) := by
  have h := getElem_exponents2 k 0 0 (Nat.zero_le k) le_rfl
  simpa using h

theorem exponents3_head (k : Nat) : (exponents3 k)[0]? = some (0, 0, 0) := by
  have h := getElem_exponents3_block k 0 0 (Nat.zero_le k) (by decide)
  rw [block3_head] at h
  simpa using h

/-- C22, as stated, fails when the size wraps: for the 2D cell basis of degree `2^32`
(barycenter `0`, extents `(2, 2)`) `eval_functions` returns no vector at the point
`(1, 1)`, so there is no function at position 0 with the value 1. -/
theorem cell_constant_function_counterexample :
    ¬ ∃ v : List ℚ,
      scaled_monomial_scalar_basis_cell2.eval_functions
        (scaled_monomial_scalar_basis_cell2.make ⟨0, 0⟩ (2, 2) (2 ^ 32)) ⟨1, 1⟩ = .ok v ∧
      v[0]? = some 1 := by
  rintro ⟨v, hv, -⟩
  rw [scaled_monomial_scalar_basis_cell2.cell2_eval_functions_eq, scalar_basis_size_wrapped,
    choose_two_wrapped, if_neg (by decide)] at hv
  cases hv

/-- C22 (amended): for the 2D cell basis of a degree `k` with `(k+1)(k+2)` inside the
unsigned word and the 3D cell basis of a degree `k` with `(k+1)(k+2)(k+3)` inside it, at
every point, `eval_functions` returns a vector whose entry at position 0 is the constant
`1`, and `eval_gradients` returns a matrix whose row 0 is zero. -/
theorem cell_constant_function {K : Type} [Field K] :
    (∀ (cell_bar : point2 K) (box_h : K × K) (k : Nat) (pt : point2 K),
      (k + 1) * (k + 2) < SIZE_MOD →
      (∃ v, scaled_monomial_scalar_basis_cell2.eval_functions
          (scaled_monomial_scalar_basis_cell2.make cell_bar box_h k) pt = .ok v ∧
        v[0]? = some 1) ∧
      (∃ G, scaled_monomial_scalar_basis_cell2.eval_gradients
          (scaled_monomial_scalar_basis_cell2.make cell_bar box_h k) pt = .ok G ∧
        G[0]? = some (0, 0))) ∧
    (∀ (cell_bar : point3 K) (box_h : K × K × K) (k : Nat) (pt : point3 K),
      (k + 1) * (k + 2) * (k + 3) < SIZE_MOD →
      (∃ v, scaled_monomial_scalar_basis_cell3.eval_functions
          (scaled_monomial_scalar_basis_cell3.make cell_bar box_h k) pt = .ok v ∧
        v[0]? = some 1) ∧
      (∃ G, scaled_monomial_scalar_basis_cell3.eval_gradients
          (scaled_monomial_scalar_basis_cell3.make cell_bar box_h k) pt = .ok G ∧
        G[0]? = some (0, 0, 0))) := by
  constructor
  · intro cell_bar box_h k pt hfit
    have hsz := scalar_basis_size_two k hfit
    rw [scaled_monomial_scalar_basis_cell2.cell2_eval_functions_eq,
      scaled_monomial_scalar_basis_cell2.cell2_eval_gradients_eq, if_pos hsz.symm,
      if_pos hsz.symm]
    refine ⟨⟨_, rfl, ?_⟩, ⟨_, rfl, ?_⟩⟩
    · rw [List.getElem?_map, exponents2_head]
      simp
    · rw [List.getElem?_map, exponents2_head]
      simp [gradient2]
  · intro cell_bar box_h k pt hfit
    have hsz := scalar_basis_size_three k hfit
    have hk := lt_of_fit_three k hfit
    rw [scaled_monomial_scalar_basis_cell3.cell3_eval_functions_eq _ _ _ hk,
      scaled_monomial_scalar_basis_cell3.cell3_eval_gradients_eq _ _ _ hk, if_pos hsz.symm,
      if_pos hsz.symm]
    refine ⟨⟨_, rfl, ?_⟩, ⟨_, rfl, ?_⟩⟩
    · rw [List.getElem?_map, exponents3_head]
      simp
    · rw [List.getElem?_map, exponents3_head]
      simp [gradient3]

theorem cell_constant_function_witness :
    (∃ v, scaled_monomial_scalar_basis_cell2.eval_functions
        (scaled_monomial_scalar_basis_cell2.make (K := ℚ) ⟨1, 2⟩ (3, 4) 2) ⟨5, 7⟩ = .ok v ∧
      v[0]? = some 1) ∧
    (∃ G, scaled_monomial_scalar_basis_cell3.eval_gradients
        (scaled_monomial_scalar_basis_cell3.make (K := ℚ) ⟨1, 2, 3⟩ (3, 4, 5) 1) ⟨5, 7, 9⟩
          = .ok G ∧
      G[0]? = some (0, 0, 0)) :=
  ⟨(cell_constant_function.1 ⟨1, 2⟩ (3, 4) 2 ⟨5, 7⟩ (by decide)).1,
   (cell_constant_function.2 ⟨1, 2, 3⟩ (3, 4, 5) 1 ⟨5, 7, 9⟩ (by decide)).2⟩

/-- C23 (code evaluated at the failing index and at a failing input): the scan of
`compute_axis` runs for `i = 1, ..., npts` and reads `pts[i]` without reducing `i` modulo
`npts`. Whenever the iteration `i = npts` is executed, on any face of at least 3 vertices,
the read `pts[npts]` is outside the vertex list. It is executed on the triangle `(0,0,1)`,
`(112,15,1)`, `(-112,15,1)`, whose vertices of index 1 and 2 are rejected (unit-vector dot
product `112/113 >= 0.99`). -/
theorem compute_axis_reads_past_the_end :
    (∀ (sqrt : ℝ → ℝ) (pts : List (point3 ℝ)) (fuel : Nat), 3 ≤ pts.length →
      scaled_monomial_abstract_face_basis.compute_axis_scan sqrt pts (fuel + 1) pts.length
        = .error fault.out_of_range) ∧
    scaled_monomial_abstract_face_basis.compute_axis_scan Real.sqrt
        [⟨0, 0, 1⟩, ⟨112, 15, 1⟩, ⟨-112, 15, 1⟩] 3 1
      = scaled_monomial_abstract_face_basis.compute_axis_scan Real.sqrt
        [⟨0, 0, 1⟩, ⟨112, 15, 1⟩, ⟨-112, 15, 1⟩] 1 3 ∧
    scaled_monomial_abstract_face_basis.compute_axis Real.sqrt
        [⟨0, 0, 1⟩, ⟨112, 15, 1⟩, ⟨-112, 15, 1⟩] = .error fault.out_of_range := by
  have h1 : Real.sqrt 50176 = 224 := by
    rw [show (50176 : ℝ) = 224 ^ 2 by norm_num]
    exact Real.sqrt_sq (by norm_num)
  have h2 : Real.sqrt 12769 = 113 := by
    rw [show (12769 : ℝ) = 113 ^ 2 by norm_num]
    exact Real.sqrt_sq (by norm_num)
  have hgen : ∀ (sqrt : ℝ → ℝ) (pts : List (point3 ℝ)) (fuel : Nat), 3 ≤ pts.length →
      scaled_monomial_abstract_face_basis.compute_axis_scan sqrt pts (fuel + 1) pts.length
        = .error fault.out_of_range := by
    intro sqrt pts fuel _
    rw [compute_axis_scan_succ]
    have hnone : pts[pts.length]? = none := List.getElem?_eq_none le_rfl
    rw [hnone]
    cases pts[(pts.length + 1) % pts.length]? <;> rfl
  have hlast := hgen Real.sqrt [⟨0, 0, 1⟩, ⟨112, 15, 1⟩, ⟨-112, 15, 1⟩] 0 (by simp)
  have hstep : scaled_monomial_abstract_face_basis.compute_axis_scan Real.sqrt
        [⟨0, 0, 1⟩, ⟨112, 15, 1⟩, ⟨-112, 15, 1⟩] 3 1
      = scaled_monomial_abstract_face_basis.compute_axis_scan Real.sqrt
        [⟨0, 0, 1⟩, ⟨112, 15, 1⟩, ⟨-112, 15, 1⟩] 1 3 := by
    rw [compute_axis_scan_succ, compute_axis_scan_succ]
    simp [unit_dot, point3.sub, point3.dot, point3.sdiv, point3.norm]
    norm_num [h1, h2]
  refine ⟨hgen, hstep, ?_⟩
  have hlast2 : scaled_monomial_abstract_face_basis.compute_axis_scan Real.sqrt
      [⟨0, 0, 1⟩, ⟨112, 15, 1⟩, ⟨-112, 15, 1⟩] 1 3 = .error fault.out_of_range := hlast
  simp [scaled_monomial_abstract_face_basis.compute_axis, hstep, hlast2, bind, Except.bind]

theorem take_map_exponents2 {β : Type} (f : Nat × Nat → β) (k : Nat) :
    ((exponents2 (k + 1)).map f).take ((k + 2).choose 2) = (exponents2 k).map f := by
  rw [exponents2_succ, List.map_append]
  exact List.take_left' (by rw [List.length_map, length_exponents2])

theorem take_map_exponents3 {β : Type} (f : Nat × Nat × Nat → β) (k : Nat) :
    ((exponents3 (k + 1)).map f).take ((k + 3).choose 3) = (exponents3 k).map f := by
  rw [exponents3_succ, List.map_append]
  exact List.take_left' (by rw [List.length_map, length_exponents3])

theorem fit_two_of_succ (k : Nat) (h : (k + 2) * (k + 3) < SIZE_MOD) :
    (k + 1) * (k + 2) < SIZE_MOD :=
  lt_of_le_of_lt (Nat.mul_le_mul (by omega) (by omega)) h

theorem fit_three_of_succ (k : Nat) (h : (k + 2) * (k + 3) * (k + 4) < SIZE_MOD) :
    (k + 1) * (k + 2) * (k + 3) < SIZE_MOD :=
  lt_of_le_of_lt (Nat.mul_le_mul (Nat.mul_le_mul (by omega) (by omega)) (by omega)) h

theorem face3_make_same_base {K : Type} [LinearOrderedField K] (sqrt : K → K)
    (face_bar : point3 K) (face_h : K) (pts : List (point3 K)) (k k2 : Nat)
    (b b2 : scaled_monomial_scalar_basis_face3 K)
    (h : scaled_monomial_scalar_basis_face3.make sqrt face_bar face_h pts k = .ok b)
    (h2 : scaled_monomial_scalar_basis_face3.make sqrt face_bar face_h pts k2 = .ok b2) :
    b.base = b2.base := by
  unfold scaled_monomial_scalar_basis_face3.make scaled_monomial_abstract_face_basis.make
    at h h2
  cases hc : scaled_monomial_abstract_face_basis.compute_axis sqrt pts with
  | error e => rw [hc] at h; cases h
  | ok e =>
    rw [hc] at h h2
    cases h
    cases h2
    rfl

theorem scalar_basis_size_below_wrap : scalar_basis_size (2 ^ 32 - 1) 2 = 2147483648 := by
  decide

theorem choose_two_below_wrap : (2 ^ 32 - 1 + 2).choose 2 = 9223372039002259456 := by
  rw [show 2 ^ 32 - 1 + 2 = 2 ^ 32 + 1 by norm_num, choose_two_eq]; norm_num

/-- C24, as stated, fails when the size wraps: the 2D cell basis of degree `2^32 - 2`
(barycenter `0`, extents `(2, 2)`) returns a vector at the point `(1, 1)`, but the basis of
the next degree `2^32 - 1` has a wrapped `basis_size` and returns none, so the first one
is not made of the first entries of the second. -/
theorem monomial_bases_hierarchical_counterexample :
    (∃ v : List ℚ, scaled_monomial_scalar_basis_cell2.eval_functions
        (scaled_monomial_scalar_basis_cell2.make ⟨0, 0⟩ (2, 2) (2 ^ 32 - 2)) ⟨1, 1⟩ = .ok v) ∧
    ¬ ∃ w : List ℚ, scaled_monomial_scalar_basis_cell2.eval_functions
        (scaled_monomial_scalar_basis_cell2.make ⟨0, 0⟩ (2, 2) (2 ^ 32 - 1)) ⟨1, 1⟩ = .ok w := by
  constructor
  · rw [scaled_monomial_scalar_basis_cell2.cell2_eval_functions_eq,
      if_pos (scalar_basis_size_two _ (by decide)).symm]
    exact ⟨_, rfl⟩
  · rintro ⟨w, hw⟩
    rw [scaled_monomial_scalar_basis_cell2.cell2_eval_functions_eq, scalar_basis_size_below_wrap,
      choose_two_below_wrap, if_neg (by decide)] at hw
    cases hw

/-- C24 (amended): the monomial bases are hierarchical wherever the size of the basis of
degree `k+1` is inside the unsigned word (`(k+2)(k+3) < 2^64` for a 2D cell and a 3D-mesh
face, `(k+2)(k+3)(k+4) < 2^64` for a 3D cell, `k+2 < 2^64` for a 2D-mesh face): on the same
element and at every point, `eval_functions` of the degree-`k` basis returns the first
`size(k)` entries of the vector returned by the degree-`(k+1)` basis, and for the cell
bases `eval_gradients` of degree `k` returns the first `size(k)` rows of the matrix of
degree `k+1`. -/
theorem monomial_bases_hierarchical {K : Type} [LinearOrderedField K] :
    (∀ (cell_bar : point2 K) (box_h : K × K) (k : Nat) (pt : point2 K),
      (k + 2) * (k + 3) < SIZE_MOD →
      (∃ v w, scaled_monomial_scalar_basis_cell2.eval_functions
            (scaled_monomial_scalar_basis_cell2.make cell_bar box_h k) pt = .ok v ∧
          scaled_monomial_scalar_basis_cell2.eval_functions
            (scaled_monomial_scalar_basis_cell2.make cell_bar box_h (k + 1)) pt = .ok w ∧
          v = w.take (scaled_monomial_scalar_basis_cell2.make cell_bar box_h k).size) ∧
      (∃ G H, scaled_monomial_scalar_basis_cell2.eval_gradients
            (scaled_monomial_scalar_basis_cell2.make cell_bar box_h k) pt = .ok G ∧
          scaled_monomial_scalar_basis_cell2.eval_gradients
            (scaled_monomial_scalar_basis_cell2.make cell_bar box_h (k + 1)) pt = .ok H ∧
          G = H.take (scaled_monomial_scalar_basis_cell2.make cell_bar box_h k).size)) ∧
    (∀ (cell_bar : point3 K) (box_h : K × K × K) (k : Nat) (pt : point3 K),
      (k + 2) * (k + 3) * (k + 4) < SIZE_MOD →
      (∃ v w, scaled_monomial_scalar_basis_cell3.eval_functions
            (scaled_monomial_scalar_basis_cell3.make cell_bar box_h k) pt = .ok v ∧
          scaled_monomial_scalar_basis_cell3.eval_functions
            (scaled_monomial_scalar_basis_cell3.make cell_bar box_h (k + 1)) pt = .ok w ∧
          v = w.take (scaled_monomial_scalar_basis_cell3.make cell_bar box_h k).size) ∧
      (∃ G H, scaled_monomial_scalar_basis_cell3.eval_gradients
            (scaled_monomial_scalar_basis_cell3.make cell_bar box_h k) pt = .ok G ∧
          scaled_monomial_scalar_basis_cell3.eval_gradients
            (scaled_monomial_scalar_basis_cell3.make cell_bar box_h (k + 1)) pt = .ok H ∧
          G = H.take (scaled_monomial_scalar_basis_cell3.make cell_bar box_h k).size)) ∧
    (∀ (face_bar : point2 K) (face_h : K) (pts0 : point2 K) (k : Nat) (pt : point2 K),
      k + 2 < SIZE_MOD →
      ∃ v w, scaled_monomial_scalar_basis_face2.eval_functions
            (scaled_monomial_scalar_basis_face2.make face_bar face_h pts0 k) pt = .ok v ∧
          scaled_monomial_scalar_basis_face2.eval_functions
            (scaled_monomial_scalar_basis_face2.make face_bar face_h pts0 (k + 1)) pt = .ok w ∧
          v = w.take (scaled_monomial_scalar_basis_face2.make face_bar face_h pts0 k).size) ∧
    (∀ (sqrt : K → K) (face_bar : point3 K) (face_h : K) (pts : List (point3 K)) (k : Nat)
      (pt : point3 K) (b b1 : scaled_monomial_scalar_basis_face3 K),
      (k + 2) * (k + 3) < SIZE_MOD →
      scaled_monomial_scalar_basis_face3.make sqrt face_bar face_h pts k = .ok b →
      scaled_monomial_scalar_basis_face3.make sqrt face_bar face_h pts (k + 1) = .ok b1 →
      ∃ v w, scaled_monomial_scalar_basis_face3.eval_functions b pt = .ok v ∧
          scaled_monomial_scalar_basis_face3.eval_functions b1 pt = .ok w ∧
          v = w.take b.size) := by
  refine ⟨?_, ?_, ?_, ?_⟩
  · intro cell_bar box_h k pt hfit
    have hsz := scalar_basis_size_two k (fit_two_of_succ k hfit)
    have hsz1 := scalar_basis_size_two (k + 1) hfit
    have hsize : (scaled_monomial_scalar_basis_cell2.make cell_bar box_h k).size
        = (k + 2).choose 2 := hsz
    rw [hsize]
    constructor
    · rw [scaled_monomial_scalar_basis_cell2.cell2_eval_functions_eq,
        scaled_monomial_scalar_basis_cell2.cell2_eval_functions_eq, if_pos hsz.symm,
        if_pos hsz1.symm]
      exact ⟨_, _, rfl, rfl, (take_map_exponents2 _ k).symm⟩
    · rw [scaled_monomial_scalar_basis_cell2.cell2_eval_gradients_eq,
        scaled_monomial_scalar_basis_cell2.cell2_eval_gradients_eq, if_pos hsz.symm,
        if_pos hsz1.symm]
      exact ⟨_, _, rfl, rfl, (take_map_exponents2 _ k).symm⟩
  · intro cell_bar box_h k pt hfit
    have hfit0 := fit_three_of_succ k hfit
    have hsz := scalar_basis_size_three k hfit0
    have hsz1 := scalar_basis_size_three (k + 1) hfit
    have hk := lt_of_fit_three k hfit0
    have hk1 := lt_of_fit_three (k + 1) hfit
    have hsize : (scaled_monomial_scalar_basis_cell3.make cell_bar box_h k).size
        = (k + 3).choose 3 := hsz
    rw [hsize]
    constructor
    · rw [scaled_monomial_scalar_basis_cell3.cell3_eval_functions_eq _ _ _ hk,
        scaled_monomial_scalar_basis_cell3.cell3_eval_functions_eq _ _ _ hk1, if_pos hsz.symm,
        if_pos hsz1.symm]
      exact ⟨_, _, rfl, rfl, (take_map_exponents3 _ k).symm⟩
    · rw [scaled_monomial_scalar_basis_cell3.cell3_eval_gradients_eq _ _ _ hk,
        scaled_monomial_scalar_basis_cell3.cell3_eval_gradients_eq _ _ _ hk1, if_pos hsz.symm,
        if_pos hsz1.symm]
      exact ⟨_, _, rfl, rfl, (take_map_exponents3 _ k).symm⟩
  · intro face_bar face_h pts0 k pt hfit
    have hs : (k + 1) % SIZE_MOD = k + 1 := Nat.mod_eq_of_lt (by omega)
    have hs1 : (k + 1 + 1) % SIZE_MOD = k + 1 + 1 := Nat.mod_eq_of_lt (by omega)
    have hsize : (scaled_monomial_scalar_basis_face2.make face_bar face_h pts0 k).size
        = k + 1 := hs
    rw [hsize, scaled_monomial_scalar_basis_face2.face2_eval_functions_eq,
      scaled_monomial_scalar_basis_face2.face2_eval_functions_eq]
    simp only [scaled_monomial_scalar_basis_face2.make, hs, hs1, le_refl, if_true,
      Nat.sub_self, List.replicate_zero, List.append_nil]
    refine ⟨_, _, rfl, rfl, ?_⟩
    rw [List.range_succ (k + 1), List.map_append]
    exact (List.take_left' (by simp)).symm
  · intro sqrt face_bar face_h pts k pt b b1 hfit hb hb1
    obtain ⟨hd, hsz, -⟩ := scaled_monomial_scalar_basis_face3.face3_make_ok _ _ _ _ _ _ hb
    obtain ⟨hd1, hsz1, -⟩ := scaled_monomial_scalar_basis_face3.face3_make_ok _ _ _ _ _ _ hb1
    have hbase := face3_make_same_base sqrt face_bar face_h pts k (k + 1) b b1 hb hb1
    have hc := scalar_basis_size_two k (fit_two_of_succ k hfit)
    have hc1 := scalar_basis_size_two (k + 1) hfit
    have hsize : b.size = (k + 2).choose 2 := hsz.trans hc
    rw [hsize, scaled_monomial_scalar_basis_face3.face3_eval_functions_eq,
      scaled_monomial_scalar_basis_face3.face3_eval_functions_eq, hd, hd1, hsz, hsz1,
      if_pos hc.symm, if_pos hc1.symm, hbase]
    exact ⟨_, _, rfl, rfl, (take_map_exponents2 _ k).symm⟩

theorem monomial_bases_hierarchical_witness :
    (∃ v w, scaled_monomial_scalar_basis_cell2.eval_functions
          (scaled_monomial_scalar_basis_cell2.make (K := ℚ) ⟨1, 2⟩ (3, 4) 1) ⟨5, 7⟩ = .ok v ∧
        scaled_monomial_scalar_basis_cell2.eval_functions
          (scaled_monomial_scalar_basis_cell2.make (K := ℚ) ⟨1, 2⟩ (3, 4) (1 + 1)) ⟨5, 7⟩
            = .ok w ∧
        v = w.take (scaled_monomial_scalar_basis_cell2.make (K := ℚ) ⟨1, 2⟩ (3, 4) 1).size) ∧
    (∃ v w, scaled_monomial_scalar_basis_face2.eval_functions
          (scaled_monomial_scalar_basis_face2.make (K := ℚ) ⟨1 / 2, 0⟩ 1 ⟨0, 0⟩ 2) ⟨1, 0⟩
            = .ok v ∧
        scaled_monomial_scalar_basis_face2.eval_functions
          (scaled_monomial_scalar_basis_face2.make (K := ℚ) ⟨1 / 2, 0⟩ 1 ⟨0, 0⟩ (2 + 1)) ⟨1, 0⟩
            = .ok w ∧
        v = w.take
          (scaled_monomial_scalar_basis_face2.make (K := ℚ) ⟨1 / 2, 0⟩ 1 ⟨0, 0⟩ 2).size) :=
  ⟨(monomial_bases_hierarchical.1 ⟨1, 2⟩ (3, 4) 1 ⟨5, 7⟩ (by decide)).1,
   monomial_bases_hierarchical.2.2.1 ⟨1 / 2, 0⟩ 1 ⟨0, 0⟩ 2 ⟨1, 0⟩ (by decide)⟩

theorem scaled_coordinate {K : Type} [Field K] (s : K) (hs : s ≠ 0) (p b c H : K) :
    (s * p + c - (s * b + c)) / (1 / 2 * (s * H)) = (p - b) / (1 / 2 * H) := by
  rw [show s * p + c - (s * b + c) = s * (p - b) by ring,
    show 1 / 2 * (s * H) = s * (1 / 2 * H) by ring, mul_div_mul_left _ _ hs]

theorem gradient2_scaled {K : Type} [Field K] (s Hx Hy bx by_ : K)
    (e : Nat × Nat) :
    gradient2 (2 / (s * Hx)) (2 / (s * Hy)) bx by_ e
      = ((1 / s) * (gradient2 (2 / Hx) (2 / Hy) bx by_ e).1,
         (1 / s) * (gradient2 (2 / Hx) (2 / Hy) bx by_ e).2) := by
  have hx : 2 / (s * Hx) = 1 / s * (2 / Hx) := by
    rw [div_mul_div_comm, one_mul]
  have hy : 2 / (s * Hy) = 1 / s * (2 / Hy) := by
    rw [div_mul_div_comm, one_mul]
  unfold gradient2
  rw [hx, hy]
  refine Prod.ext ?_ ?_
  · show _ = 1 / s * _
    split_ifs <;> ring
  · show _ = 1 / s * _
    split_ifs <;> ring

theorem gradient3_scaled {K : Type} [Field K] (s Hx Hy Hz bx by_ bz : K)
    (e : Nat × Nat × Nat) :
    gradient3 (2 / (s * Hx)) (2 / (s * Hy)) (2 / (s * Hz)) bx by_ bz e
      = ((1 / s) * (gradient3 (2 / Hx) (2 / Hy) (2 / Hz) bx by_ bz e).1,
         (1 / s) * (gradient3 (2 / Hx) (2 / Hy) (2 / Hz) bx by_ bz e).2.1,
         (1 / s) * (gradient3 (2 / Hx) (2 / Hy) (2 / Hz) bx by_ bz e).2.2) := by
  have hx : 2 / (s * Hx) = 1 / s * (2 / Hx) := by
    rw [div_mul_div_comm, one_mul]
  have hy : 2 / (s * Hy) = 1 / s * (2 / Hy) := by
    rw [div_mul_div_comm, one_mul]
  have hz : 2 / (s * Hz) = 1 / s * (2 / Hz) := by
    rw [div_mul_div_comm, one_mul]
  unfold gradient3
  rw [hx, hy, hz]
  refine Prod.ext ?_ (Prod.ext ?_ ?_)
  · show _ = 1 / s * _
    split_ifs <;> ring
  · show _ = 1 / s * _
    split_ifs <;> ring
  · show _ = 1 / s * _
    split_ifs <;> ring

/-- C28: the 2D and 3D cell bases are invariant under translation and uniform scaling of
the element. For every `s != 0` (in particular `s > 0`), translation `c`, degree `k` (a
`size_t` value) and point `p`, the basis with barycenter `s*b + c` and bounding-box extents
`s*H` evaluated at `s*p + c` gives the same result of `eval_functions` as the basis with
barycenter `b` and extents `H` evaluated at `p`, and its `eval_gradients` matrix is the
original one multiplied by `1/s`. -/
theorem cell_bases_scale_invariant {K : Type} [Field K] (s : K) (hs : s ≠ 0) :
    (∀ (b c : point2 K) (H : K × K) (k : Nat) (p : point2 K),
      scaled_monomial_scalar_basis_cell2.eval_functions
          (scaled_monomial_scalar_basis_cell2.make ⟨s * b.x + c.x, s * b.y + c.y⟩
            (s * H.1, s * H.2) k) ⟨s * p.x + c.x, s * p.y + c.y⟩
        = scaled_monomial_scalar_basis_cell2.eval_functions
          (scaled_monomial_scalar_basis_cell2.make b H k) p ∧
      scaled_monomial_scalar_basis_cell2.eval_gradients
          (scaled_monomial_scalar_basis_cell2.make ⟨s * b.x + c.x, s * b.y + c.y⟩
            (s * H.1, s * H.2) k) ⟨s * p.x + c.x, s * p.y + c.y⟩
        = (scaled_monomial_scalar_basis_cell2.eval_gradients
          (scaled_monomial_scalar_basis_cell2.make b H k) p).map
            (fun G => G.map (fun r => ((1 / s) * r.1, (1 / s) * r.2)))) ∧
    (∀ (b c : point3 K) (H : K × K × K) (k : Nat) (p : point3 K), k < SIZE_MOD →
      scaled_monomial_scalar_basis_cell3.eval_functions
          (scaled_monomial_scalar_basis_cell3.make
            ⟨s * b.x + c.x, s * b.y + c.y, s * b.z + c.z⟩
            (s * H.1, s * H.2.1, s * H.2.2) k)
          ⟨s * p.x + c.x, s * p.y + c.y, s * p.z + c.z⟩
        = scaled_monomial_scalar_basis_cell3.eval_functions
          (scaled_monomial_scalar_basis_cell3.make b H k) p ∧
      scaled_monomial_scalar_basis_cell3.eval_gradients
          (scaled_monomial_scalar_basis_cell3.make
            ⟨s * b.x + c.x, s * b.y + c.y, s * b.z + c.z⟩
            (s * H.1, s * H.2.1, s * H.2.2) k)
          ⟨s * p.x + c.x, s * p.y + c.y, s * p.z + c.z⟩
        = (scaled_monomial_scalar_basis_cell3.eval_gradients
          (scaled_monomial_scalar_basis_cell3.make b H k) p).map
            (fun G => G.map (fun r => ((1 / s) * r.1, (1 / s) * r.2.1, (1 / s) * r.2.2)))) := by
  constructor
  · intro b c H k p
    simp only [scaled_monomial_scalar_basis_cell2.cell2_eval_functions_eq,
      scaled_monomial_scalar_basis_cell2.cell2_eval_gradients_eq, scaled_coordinate s hs]
    refine ⟨trivial, ?_⟩
    split
    · show Except.ok _ = Except.ok (List.map _ (List.map _ _))
      rw [List.map_map]
      congr 1
      exact List.map_congr_left (fun e _ => gradient2_scaled s _ _ _ _ e)
    · rfl
  · intro b c H k p hk
    simp only [scaled_monomial_scalar_basis_cell3.cell3_eval_functions_eq _ _ _ hk,
      scaled_monomial_scalar_basis_cell3.cell3_eval_gradients_eq _ _ _ hk,
      scaled_coordinate s hs]
    refine ⟨trivial, ?_⟩
    split
    · show Except.ok _ = Except.ok (List.map _ (List.map _ _))
      rw [List.map_map]
      congr 1
      exact List.map_congr_left (fun e _ => gradient3_scaled s _ _ _ _ _ _ e)
    · rfl

theorem cell_bases_scale_invariant_witness :
    scaled_monomial_scalar_basis_cell2.eval_functions
        (scaled_monomial_scalar_basis_cell2.make (K := ℚ) ⟨3 * 1 + 5, 3 * 2 + 7⟩
          (3 * 4, 3 * 6) 2) ⟨3 * 2 + 5, 3 * 5 + 7⟩
      = scaled_monomial_scalar_basis_cell2.eval_functions
        (scaled_monomial_scalar_basis_cell2.make ⟨1, 2⟩ (4, 6) 2) ⟨2, 5⟩ ∧
    scaled_monomial_scalar_basis_cell3.eval_gradients
        (scaled_monomial_scalar_basis_cell3.make (K := ℚ)
          ⟨3 * 1 + 5, 3 * 2 + 7, 3 * 3 + 9⟩ (3 * 4, 3 * 6, 3 * 8) 1)
        ⟨3 * 2 + 5, 3 * 5 + 7, 3 * 4 + 9⟩
      = (scaled_monomial_scalar_basis_cell3.eval_gradients
        (scaled_monomial_scalar_basis_cell3.make ⟨1, 2, 3⟩ (4, 6, 8) 1) ⟨2, 5, 4⟩).map
          (fun G => G.map (fun r => ((1 / 3) * r.1, (1 / 3) * r.2.1, (1 / 3) * r.2.2))) :=
  ⟨((cell_bases_scale_invariant (3 : ℚ) (by norm_num)).1 ⟨1, 2⟩ ⟨5, 7⟩ (4, 6) 2 ⟨2, 5⟩).1,
   ((cell_bases_scale_invariant (3 : ℚ) (by norm_num)).2 ⟨1, 2, 3⟩ ⟨5, 7, 9⟩ (4, 6, 8) 1
      ⟨2, 5, 4⟩ (by decide)).2⟩

theorem face_ep_on_segment {K : Type} [LinearOrderedField K] (p0 p1 bar : point2 K) (h : K)
    (hh : h ≠ 0) (hlen : h * h = (p1.sub p0).dot (p1.sub p0))
    (hbx : bar.x = (p0.x + p1.x) / 2) (hby : bar.y = (p0.y + p1.y) / 2) (t : K) :
    face_ep (bar.sub p0) bar h ⟨p0.x + t * (p1.x - p0.x), p0.y + t * (p1.y - p0.y)⟩
      = 2 * t - 1 := by
  unfold face_ep
  rw [div_eq_iff (mul_ne_zero hh hh), hlen]
  simp only [point2.sub, point2.dot, hbx, hby]
  field_simp
  ring

/-- C27: for a 2D-mesh face that is a segment with endpoints `p0 = pts[0]` and `p1`,
barycenter `bar` the midpoint and diameter `h = |p1 - p0| > 0`, the rescaled coordinate
`ep = 4*((bar - p0) . (pt - bar))/h^2` is the one used by the monomial face basis (its
degree-1 result is `[1, ep]`) and by the Legendre face basis (its degree-1 result is
`[P_0, P_1(ep)]` normalised); it equals `-1` at `p0`, `0` at the midpoint and `+1` at
`p1`, is affine in `pt`, and lies in `[-1, 1]` for every point `p0 + t (p1 - p0)`,
`0 <= t <= 1`, of the segment. -/
theorem face_rescaled_coordinate {K : Type} [LinearOrderedField K] (p0 p1 bar : point2 K)
    (h : K) (hpos : 0 < h) (hlen : h * h = (p1.sub p0).dot (p1.sub p0))
    (hbx : bar.x = (p0.x + p1.x) / 2) (hby : bar.y = (p0.y + p1.y) / 2) :
    (∀ pt, scaled_monomial_scalar_basis_face2.eval_functions
        (scaled_monomial_scalar_basis_face2.make bar h p0 1) pt
          = .ok [1, face_ep (bar.sub p0) bar h pt]) ∧
    (∀ (sqrt : K → K) (val : K) (pows0 : Fin 11 → K) (pt : point2 K)
      (b : scaled_legendre_scalar_basis_face2 K),
      scaled_legendre_scalar_basis_face2.make bar h p0 1 = .ok b →
      scaled_legendre_scalar_basis_face2.eval_functions sqrt val pows0 b pt
        = .ok [1 / sqrt (2 / 1) * sqrt (2 / h),
               face_ep (bar.sub p0) bar h pt / sqrt (2 / 3) * sqrt (2 / h)]) ∧
    face_ep (bar.sub p0) bar h p0 = -1 ∧
    face_ep (bar.sub p0) bar h bar = 0 ∧
    face_ep (bar.sub p0) bar h p1 = 1 ∧
    (∀ (q r : point2 K) (t : K),
      face_ep (bar.sub p0) bar h ⟨q.x + t * (r.x - q.x), q.y + t * (r.y - q.y)⟩
        = face_ep (bar.sub p0) bar h q
          + t * (face_ep (bar.sub p0) bar h r - face_ep (bar.sub p0) bar h q)) ∧
    (∀ t : K, 0 ≤ t → t ≤ 1 →
      -1 ≤ face_ep (bar.sub p0) bar h ⟨p0.x + t * (p1.x - p0.x), p0.y + t * (p1.y - p0.y)⟩ ∧
      face_ep (bar.sub p0) bar h ⟨p0.x + t * (p1.x - p0.x), p0.y + t * (p1.y - p0.y)⟩ ≤ 1) := by
  have hh : h ≠ 0 := ne_of_gt hpos
  have hseg := face_ep_on_segment p0 p1 bar h hh hlen hbx hby
  refine ⟨?_, ?_, ?_, ?_, ?_, ?_, ?_⟩
  · intro pt
    rw [scaled_monomial_scalar_basis_face2.face2_eval_functions_eq]
    have hs : (1 + 1) % SIZE_MOD = 2 := by decide
    simp only [scaled_monomial_scalar_basis_face2.make, hs]
    simp [List.range_succ, face_ep]
  · intro sqrt val pows0 pt b hb
    obtain ⟨-, rfl⟩ := legendre_face2_make_ok bar h p0 1 b hb
    rw [legendre_face2_eval_functions_eq sqrt val pows0 _ pt (by show 1 ≤ 10; decide) rfl]
    simp [List.range_succ, legendre_zero, legendre_one, face_ep]
    norm_num
  · have := hseg 0
    simpa using this
  · unfold face_ep
    simp [point2.sub, point2.dot]
  · have := hseg 1
    norm_num at this
    exact this
  · intro q r t
    unfold face_ep
    simp only [point2.sub, point2.dot]
    ring
  · intro t ht0 ht1
    rw [hseg t]
    constructor <;> linarith

theorem face_rescaled_coordinate_witness :
    face_ep (K := ℚ) (point2.sub ⟨3 / 2, 2⟩ ⟨0, 0⟩) ⟨3 / 2, 2⟩ 5 ⟨0, 0⟩ = -1 ∧
    face_ep (K := ℚ) (point2.sub ⟨3 / 2, 2⟩ ⟨0, 0⟩) ⟨3 / 2, 2⟩ 5 ⟨3 / 2, 2⟩ = 0 ∧
    face_ep (K := ℚ) (point2.sub ⟨3 / 2, 2⟩ ⟨0, 0⟩) ⟨3 / 2, 2⟩ 5 ⟨3, 4⟩ = 1 ∧
    scaled_monomial_scalar_basis_face2.eval_functions
        (scaled_monomial_scalar_basis_face2.make (K := ℚ) ⟨3 / 2, 2⟩ 5 ⟨0, 0⟩ 1) ⟨3, 4⟩
      = .ok [1, face_ep (point2.sub ⟨3 / 2, 2⟩ ⟨0, 0⟩) ⟨3 / 2, 2⟩ 5 ⟨3, 4⟩] :=
  have h := face_rescaled_coordinate (K := ℚ) ⟨0, 0⟩ ⟨3, 4⟩ ⟨3 / 2, 2⟩ 5 (by norm_num)
    (by norm_num [point2.sub, point2.dot]) (by norm_num) (by norm_num)
  ⟨h.2.2.1, h.2.2.2.1, h.2.2.2.2.1, h.1 ⟨3, 4⟩⟩

theorem poly_eval_succ {K : Type} [Field K] (l : List Int) (k : Nat) (x : K) :
    poly_eval l (k + 1) x = x * poly_eval l k x := by
  induction l generalizing k with
  | nil => simp [poly_eval]
  | cons c l ih => simp only [poly_eval, ih (k + 1)]; ring

theorem poly_eval_add {K : Type} [Field K] (a b : List Int) (k : Nat) (x : K) :
    poly_eval (poly_add a b) k x = poly_eval a k x + poly_eval b k x := by
  induction a generalizing b k with
  | nil => simp [poly_add, poly_eval]
  | cons c a ih =>
    cases b with
    | nil => simp [poly_add, poly_eval]
    | cons d b =>
      simp only [poly_add, poly_eval, ih, Int.cast_add]
      ring

theorem poly_eval_map_mul {K : Type} [Field K] (c : Int) (b : List Int) (k : Nat) (x : K) :
    poly_eval (b.map (fun y => c * y)) k x = (c : K) * poly_eval b k x := by
  induction b generalizing k with
  | nil => simp [poly_eval]
  | cons d b ih =>
    simp only [List.map_cons, poly_eval, ih, Int.cast_mul]
    ring

theorem poly_eval_mul {K : Type} [Field K] (a b : List Int) (x : K) :
    poly_eval (poly_mul a b) 0 x = poly_eval a 0 x * poly_eval b 0 x := by
  induction a with
  | nil => simp [poly_mul, poly_eval]
  | cons c a ih =>
    simp only [poly_mul, poly_eval_add, poly_eval_map_mul, poly_eval, poly_eval_succ, ih,
      Int.cast_zero, pow_zero]
    ring

theorem poly_eval_continuous (l : List Int) (k : Nat) :
    Continuous (fun x : ℝ => poly_eval l k x) := by
  induction l generalizing k with
  | nil => exact continuous_const
  | cons c l ih => exact (continuous_const.mul (continuous_pow k)).add (ih (k + 1))

theorem poly_int_eq (l : List Int) (k : Nat) (hk : k + l.length ≤ 21) :
    (INT_SCALE : ℝ) * ∫ x in (-1 : ℝ)..1, poly_eval l k x = (poly_int l k : ℝ) := by
  induction l generalizing k with
  | nil => simp [poly_eval, poly_int]
  | cons c l ih =>
    have hk' : k + 1 + l.length ≤ 21 := by simp at hk; omega
    have hdvd : ((k : Int) + 1) ∣ INT_SCALE := by
      have hk21 : k < 21 := by simp at hk; omega
      interval_cases k <;> decide
    have hne : ((k : ℝ) + 1) ≠ 0 := by positivity
    simp only [poly_eval, poly_int]
    rw [intervalIntegral.integral_add
      ((continuous_const.mul (continuous_pow k)).intervalIntegrable _ _)
      ((poly_eval_continuous l (k + 1)).intervalIntegrable _ _),
      intervalIntegral.integral_const_mul, integral_pow, mul_add, ih (k + 1) hk']
    push_cast
    rw [Int.cast_div hdvd (by exact_mod_cast hne)]
    push_cast
    field_simp
    ring

theorem legendre_den_pos (n : Nat) : 0 < legendre_den n := by
  unfold legendre_den
  split <;> norm_num

theorem legendre_orthogonal_int : ∀ i, i ≤ 10 → ∀ j, j ≤ 10 →
    poly_int (poly_mul (legendre_num i) (legendre_num j)) 0 * (2 * (i : Int) + 1)
      = if i = j then 2 * INT_SCALE * legendre_den i * legendre_den i else 0 := by
  decide

theorem legendre_product_length : ∀ i, i ≤ 10 → ∀ j, j ≤ 10 →
    (poly_mul (legendre_num i) (legendre_num j)).length ≤ 21 := by
  decide

theorem eval_poly_switch_eq_poly_eval (val x : ℝ) (n : Nat) (hn : n ≤ 10) :
    scaled_legendre_scalar_basis_face2.eval_poly_switch val (fun m : Fin 11 => x ^ (m : Nat)) n
      = poly_eval (legendre_num n) 0 x / (legendre_den n : ℝ) := by
  obtain ⟨e0, e1, e2, e3, e4, e5, e6, e7, e8, e9, e10⟩ := eval_poly_switch_pow val x
  interval_cases n
  · rw [e0]; simp [legendre_num, legendre_den, poly_eval]
  · rw [e1]; simp [legendre_num, legendre_den, poly_eval]
  · rw [e2]; simp [legendre_num, legendre_den, poly_eval]; ring
  · rw [e3]; simp [legendre_num, legendre_den, poly_eval]; ring
  · rw [e4]; simp [legendre_num, legendre_den, poly_eval]; ring
  · rw [e5]; simp [legendre_num, legendre_den, poly_eval]; ring
  · rw [e6]; simp [legendre_num, legendre_den, poly_eval]; ring
  · rw [e7]; simp [legendre_num, legendre_den, poly_eval]; ring
  · rw [e8]; simp [legendre_num, legendre_den, poly_eval]; ring
  · rw [e9]; simp [legendre_num, legendre_den, poly_eval]; ring
  · rw [e10]; simp [legendre_num, legendre_den, poly_eval]; ring

theorem integral_table_product (val : ℝ) (i j : Nat) (hi : i ≤ 10) (hj : j ≤ 10) :
    ∫ x in (-1 : ℝ)..1,
        scaled_legendre_scalar_basis_face2.eval_poly_switch val (fun m : Fin 11 => x ^ (m : Nat)) i
        * scaled_legendre_scalar_basis_face2.eval_poly_switch val
            (fun m : Fin 11 => x ^ (m : Nat)) j
      = if i = j then 2 / (2 * (i : ℝ) + 1) else 0 := by
  have hint := poly_int_eq (poly_mul (legendre_num i) (legendre_num j)) 0
    (by have := legendre_product_length i hi j hj; omega)
  have hnum : ((poly_int (poly_mul (legendre_num i) (legendre_num j)) 0 : Int) : ℝ)
        * (2 * (i : ℝ) + 1)
      = if i = j then 2 * (INT_SCALE : ℝ) * legendre_den i * legendre_den i else 0 := by
    have h := legendre_orthogonal_int i hi j hj
    have h2 := congrArg (fun z : Int => (z : ℝ)) h
    simp only at h2
    rw [apply_ite (fun z : Int => (z : ℝ))] at h2
    push_cast at h2
    exact h2
  have hdi : (legendre_den i : ℝ) ≠ 0 := by exact_mod_cast (legendre_den_pos i).ne'
  have hdj : (legendre_den j : ℝ) ≠ 0 := by exact_mod_cast (legendre_den_pos j).ne'
  have hM : (INT_SCALE : ℝ) ≠ 0 := by norm_num [INT_SCALE]
  have hi1 : (2 * (i : ℝ) + 1) ≠ 0 := by positivity
  have hfun : ∀ x : ℝ,
      scaled_legendre_scalar_basis_face2.eval_poly_switch val (fun m : Fin 11 => x ^ (m : Nat)) i
        * scaled_legendre_scalar_basis_face2.eval_poly_switch val
            (fun m : Fin 11 => x ^ (m : Nat)) j
      = poly_eval (poly_mul (legendre_num i) (legendre_num j)) 0 x
        / ((legendre_den i : ℝ) * legendre_den j) := by
    intro x
    rw [eval_poly_switch_eq_poly_eval val x i hi, eval_poly_switch_eq_poly_eval val x j hj,
      poly_eval_mul, div_mul_div_comm]
  simp_rw [hfun]
  rw [intervalIntegral.integral_div]
  rw [← hint] at hnum
  split_ifs at hnum ⊢ with hij
  · subst hij
    rw [div_eq_div_iff (mul_ne_zero hdi hdi) hi1]
    apply mul_left_cancel₀ hM
    linear_combination hnum
  · have hz : ∫ x in (-1 : ℝ)..1, poly_eval (poly_mul (legendre_num i) (legendre_num j)) 0 x
        = 0 := by
      have := mul_eq_zero.mp hnum
      rcases this with h | h
      · rcases mul_eq_zero.mp h with h | h
        · exact absurd h hM
        · exact h
      · exact absurd h hi1
    rw [hz, zero_div]

/-- C26: with `P_n` the table polynomial of degree `n <= 10` of `eval_poly` (the value of
the `switch` on the powers of `x`), the integral of `P_i * P_j` over `[-1, 1]` is
`2/(2i+1)` when `i = j` and `0` when `i != j`, for all `i, j` in `0..10`; and the functions
of the 2D-face Legendre basis (`eval_poly`, the table value divided by `sqrt(2/(2n+1))`,
multiplied by the scaling `sqrt(2/h)`) are L2-orthonormal on a face of length `h > 0`
parametrised by `ep` in `[-1, 1]`, the length element being `(h/2) d ep`. -/
theorem legendre_table_orthonormal :
    (∀ (val : ℝ) (i j : Nat), i ≤ 10 → j ≤ 10 →
      ∫ x in (-1 : ℝ)..1,
          scaled_legendre_scalar_basis_face2.eval_poly_switch val
            (fun m : Fin 11 => x ^ (m : Nat)) i
          * scaled_legendre_scalar_basis_face2.eval_poly_switch val
            (fun m : Fin 11 => x ^ (m : Nat)) j
        = if i = j then 2 / (2 * (i : ℝ) + 1) else 0) ∧
    (∀ (val h : ℝ) (i j : Nat), 0 < h → i ≤ 10 → j ≤ 10 →
      ∫ ep in (-1 : ℝ)..1,
          (scaled_legendre_scalar_basis_face2.eval_poly Real.sqrt val
              (fun m : Fin 11 => ep ^ (m : Nat)) i * Real.sqrt (2 / h))
          * (scaled_legendre_scalar_basis_face2.eval_poly Real.sqrt val
              (fun m : Fin 11 => ep ^ (m : Nat)) j * Real.sqrt (2 / h))
          * (h / 2)
        = if i = j then 1 else 0) := by
  refine ⟨integral_table_product, ?_⟩
  intro val h i j hh hi hj
  have hmod : ∀ n, n ≤ 10 → (2 * n + 1) % SIZE_MOD = 2 * n + 1 := by
    intro n hn
    apply Nat.mod_eq_of_lt
    have : (21 : Nat) < SIZE_MOD := by decide
    omega
  have hsq : Real.sqrt (2 / h) * Real.sqrt (2 / h) = 2 / h :=
    Real.mul_self_sqrt (by positivity)
  have hscale : Real.sqrt (2 / h) * Real.sqrt (2 / h) * (h / 2) = 1 := by
    rw [hsq]
    field_simp
  have hfun : ∀ ep : ℝ,
      (scaled_legendre_scalar_basis_face2.eval_poly Real.sqrt val
          (fun m : Fin 11 => ep ^ (m : Nat)) i * Real.sqrt (2 / h))
        * (scaled_legendre_scalar_basis_face2.eval_poly Real.sqrt val
          (fun m : Fin 11 => ep ^ (m : Nat)) j * Real.sqrt (2 / h))
        * (h / 2)
      = (scaled_legendre_scalar_basis_face2.eval_poly_switch val
            (fun m : Fin 11 => ep ^ (m : Nat)) i
          * scaled_legendre_scalar_basis_face2.eval_poly_switch val
            (fun m : Fin 11 => ep ^ (m : Nat)) j)
        * (1 / (Real.sqrt (2 / ((2 * i + 1 : Nat) : ℝ))
            * Real.sqrt (2 / ((2 * j + 1 : Nat) : ℝ)))) := by
    intro ep
    unfold scaled_legendre_scalar_basis_face2.eval_poly
    rw [hmod i hi, hmod j hj]
    linear_combination
      (scaled_legendre_scalar_basis_face2.eval_poly_switch val
          (fun m : Fin 11 => ep ^ (m : Nat)) i
        * scaled_legendre_scalar_basis_face2.eval_poly_switch val
          (fun m : Fin 11 => ep ^ (m : Nat)) j
        * (1 / (Real.sqrt (2 / ((2 * i + 1 : Nat) : ℝ))
            * Real.sqrt (2 / ((2 * j + 1 : Nat) : ℝ))))) * hscale
  simp_rw [hfun]
  rw [intervalIntegral.integral_mul_const, integral_table_product val i j hi hj]
  split_ifs with hij
  · subst hij
    have hpos : (0 : ℝ) ≤ 2 / ((2 * i + 1 : Nat) : ℝ) := by positivity
    rw [Real.mul_self_sqrt hpos]
    push_cast
    field_simp
  · rw [zero_mul]

theorem legendre_table_orthonormal_witness :
    (∫ x in (-1 : ℝ)..1,
        scaled_legendre_scalar_basis_face2.eval_poly_switch 0
          (fun m : Fin 11 => x ^ (m : Nat)) 1
        * scaled_legendre_scalar_basis_face2.eval_poly_switch 0
          (fun m : Fin 11 => x ^ (m : Nat)) 2) = 0 ∧
    (∫ ep in (-1 : ℝ)..1,
        (scaled_legendre_scalar_basis_face2.eval_poly Real.sqrt 0
            (fun m : Fin 11 => ep ^ (m : Nat)) 3 * Real.sqrt (2 / 2))
        * (scaled_legendre_scalar_basis_face2.eval_poly Real.sqrt 0
            (fun m : Fin 11 => ep ^ (m : Nat)) 3 * Real.sqrt (2 / 2))
        * (2 / 2)) = 1 :=
  ⟨(legendre_table_orthonormal.1 0 1 2 (by decide) (by decide)).trans
      (if_neg (by decide)),
   (legendre_table_orthonormal.2 0 2 3 3 (by norm_num) (by decide) (by decide)).trans
      (if_pos rfl)⟩

end disk
